import Mathlib

/-!
# Front-end scripts of the marketplace (assets/front/js)

Shallow embeddings of four scripts: the AJAX investments loader
(`investments-manager.js`, namespace `InvestmentsManager`), the lazy loading
of images and the chart data (`v1/plugin.js`, namespace `Plugin`), the search
modal (`global-search.js`, namespace `GlobalSearch`) and the product filters
(`products-filter.js`, namespace `ProductsFilter`).  The definitions of the
four embeddings come first, the lemmas and the claims after them.

## InvestmentsManager (assets/front/js/investments-manager.js)

The four fields of `InvestmentsManager.state`, the requests that are in
flight, the pending `setTimeout` callbacks and the content of the container
element.  Every handler of the source is a function on `State`; the browser
(user clicks, network outcomes, the timer queue) is a stream of `Event`s.
The functions that format an item (`buildInvestmentCard`, `formatInvestment`,
`truncateText`, `escapeHtml`) return the text they build; `truncateText` and
the card, which `substring` may cut inside a surrogate pair, return it as
UTF-16 code units.

Conventions of the embedding:
* a value taken by a category id is a `JsVal`; `===` is equality of `JsVal`
  (no `NaN` among the ids, and a numeric id is written with the exact value
  of its double);
* `console.*` calls are kept in the effect log; the `xhr` and `error`
  arguments of `handleError` are only printed by the source and are left out;
* callbacks that only toggle CSS classes or inline styles (`visible`,
  `hiding`, `loading`, `shimmer-loading`, the per-child fade timers) do not
  touch the modelled state and are left out; `$container.html(...)` is kept;
* the network is not constrained: any in-flight request may end at any
  time with any jQuery status;
* time is a clock `now` in ms: `Event.wait` advances it without passing a
  pending timer, `Event.timer` fires the earliest timer once it is due, and
  timers due at the same instant fire in the order they were scheduled.
-/

namespace InvestmentsManager

/-- The JavaScript values a category id or an item field can take.  The
number `num n` is the one that a literal or a JSON number with the value `n`
is read as: the double nearest to `n` (`toDouble`); `num 0` stands for both
zeros, which the embedded functions do not tell apart. -/
inductive JsVal where
  | undefined
  | null
  | bool (b : Bool)
  | num (n : ℚ)
  | nan
  | infinity (negative : Bool)
  | str (s : String)
  deriving DecidableEq

/-- A number, as `Number(value)` and `parseFloat(value)` return it; a finite
one is the rational that the double stands for. -/
inductive Num where
  | nan
  | infinity (negative : Bool)
  | finite (n : ℚ)
  deriving DecidableEq

/-- One entry of `investment.categories`. -/
structure Category where
  name : JsVal
  deriving DecidableEq

/-- An item of the `investments` array of the response (section 6 fields). -/
structure Investment where
  id : JsVal
  name : JsVal
  description : JsVal
  image : JsVal
  country : JsVal
  country_name : JsVal
  minimum_investment : JsVal
  maximum_investment : JsVal
  expected_roi : JsVal
  investment_timeline : JsVal
  categories : List Category
  is_premium : Bool
  url : JsVal
  deriving DecidableEq

/-- A truthy JSON body: `success` is the flag (absent, false or true),
`investments` the array when present. -/
structure Response where
  success : Option Bool
  investments : Option (List Investment)
  deriving DecidableEq

/-- The `config` object (lines 19-29); `tabs` lists the `data-category-id`
of the tab buttons in document order. -/
structure Config where
  ajaxUrl : String
  retryDelay : Nat
  staggerDelay : Nat
  maxRetries : Nat
  tabs : List JsVal
  deriving DecidableEq

/-- The values written in the source. -/
def defaultConfig (tabs : List JsVal) : Config :=
  { ajaxUrl := "/api/investments/by-category", retryDelay := 3000, staggerDelay := 80,
    maxRetries := 3, tabs := tabs }

/-! ## Formatting of an item (lines 387-477 and 603-638)

A text that the page receives is a `String`; as a JavaScript string it is the
list of its UTF-16 code units (`utf16`), which is what `length` counts and
what `substring` cuts.  A cut may leave half of a surrogate pair, so the
result of `truncateText` and the card that holds it are lists of code units.
A finite number is a rational; the operations that round (the division, the
reading of a decimal) yield the nearest double, as IEEE 754 does.  Where the
source throws a `TypeError` the function returns `none`. -/

/-- What the page and the browser supply to the formatting functions. -/
structure Browser where
  /-- The value of `window.location.origin`. -/
  origin : String
  /-- The label `window.translations.expected_roi`, as text. -/
  expected_roi : String
  /-- The label `window.translations.minimum_amount`, as text. -/
  minimum_amount : String
  /-- The label `window.translations.maximum_amount`, as text. -/
  maximum_amount : String
  /-- The label `window.translations.round_duration`, as text. -/
  round_duration : String
  /-- The label `window.translations.months`, as text. -/
  months : String
  /-- The method `String.prototype.toLowerCase`. -/
  toLowerCase : String → String
  /-- The conversion `Number(s)` of a string. -/
  toNumber : String → Num
  /-- The function `parseFloat(s)` on a string. -/
  parseFloat : String → Num
  /-- The method `toLocaleString()` of a number in the locale of the browser. -/
  toLocaleString : Num → String

/-- The UTF-16 code units of a character: itself, or a surrogate pair from
`U+10000` on. -/
def codeUnits (c : Char) : List Nat :=
  if c.toNat < 65536 then [c.toNat]
  else [55296 + (c.toNat - 65536) / 1024, 56320 + (c.toNat - 65536) % 1024]

/-- The UTF-16 code units of a text: the JavaScript string it is. -/
def utf16 (s : String) : List Nat :=
  s.data.flatMap codeUnits

/-- The integer nearest to `p / q`, the even one on a tie (the rounding of
IEEE 754 arithmetic). -/
def roundHalfEven (p q : Nat) : Nat :=
  let f := p / q
  let r := p % q
  if 2 * r < q then f
  else if q < 2 * r then f + 1
  else if f % 2 = 0 then f
  else f + 1

/-- Halves `n` until it is below 2 and counts the steps, at most `fuel` of them. -/
def halvings : Nat → Nat → Nat
  | 0, _ => 0
  | fuel + 1, n => if 2 ≤ n then halvings fuel (n / 2) + 1 else 0

/-- The position of the leading bit of `n`: the `k` with `2 ^ k ≤ n < 2 ^ (k + 1)`
(0 for `n = 0`). -/
def floorLog2 (n : Nat) : Nat :=
  halvings n n

/-- The binary exponent of the quotient of two positive integers: the `e`
with `2 ^ e ≤ p / q < 2 ^ (e + 1)`. -/
def exponent (p q : Nat) : Int :=
  if q ≤ p then (floorLog2 (p / q) : Int)
  else
    let k := floorLog2 (q / p)
    if p * 2 ^ k = q then -(k : Int) else -(k : Int) - 1

/-- The double nearest to `p / q`, the one with the even significand on a
tie: the pair `(m, e)` stands for `m * 2 ^ e`, with 53 significant bits, and
fewer below `2 ^ -1022`. -/
def nearestDouble (p q : Nat) : Nat × Int :=
  let e := max (exponent p q - 52) (-1074)
  (roundHalfEven (p * 2 ^ (-e).toNat) (q * 2 ^ e.toNat), e)

/-- Whether two pairs stand for the same double. -/
def sameDouble (a b : Nat × Int) : Bool :=
  let e := min a.2 b.2
  a.1 * 2 ^ (a.2 - e).toNat == b.1 * 2 ^ (b.2 - e).toNat

/-- Counts the decimal digits of `n`, at most `fuel` of them. -/
def digitsCount : Nat → Nat → Nat
  | 0, _ => 0
  | fuel + 1, n => if 1 ≤ n then digitsCount fuel (n / 10) + 1 else 0

/-- The least `j`, counted from `j` on and at most `fuel` further, with
`Q ≤ P * 10 ^ j`. -/
def leadingZeros : Nat → Nat → Nat → Nat → Nat
  | 0, _, _, j => j
  | fuel + 1, P, Q, j => if P * 10 ^ j < Q then leadingZeros fuel P Q (j + 1) else j

/-- The decimal exponent of a positive quotient: the `n` with
`10 ^ (n - 1) ≤ P / Q < 10 ^ n`. -/
def decimalExponent (P Q : Nat) : Int :=
  if Q ≤ P then (digitsCount (P / Q + 1) (P / Q) : Int)
  else 1 - (leadingZeros 400 P Q 0 : Int)

/-- Whether the decimal `s * 10 ^ (n - k)` is read as the double `d`. -/
def roundTrips (s : Nat) (n : Int) (k : Nat) (d : Nat × Int) : Bool :=
  sameDouble (nearestDouble (s * 10 ^ (n - k).toNat) (10 ^ (k - n).toNat)) d

/-- The digits of `Number::toString` (ECMAScript): the integers `s`, `k` and
`n` with `k` as small as possible such that `s` has `k` digits and
`s * 10 ^ (n - k)` is read as the double `d = P / Q`; among several such `s`
the one nearest to the double, the even one on a tie.  The search starts at
`k` digits and tries at most `fuel` lengths. -/
def shortestDigits (P Q : Nat) (d : Nat × Int) (n : Int) : Nat → Nat → Nat × Nat × Int
  | 0, k => (P * 10 ^ (k - n).toNat / (Q * 10 ^ (n - k).toNat), k, n)
  | fuel + 1, k =>
    let A := P * 10 ^ (k - n).toNat
    let B := Q * 10 ^ (n - k).toNat
    let lo := A / B
    let hi := lo + 1
    let okLo := decide (1 ≤ lo) && roundTrips lo n k d
    let okHi := roundTrips hi n k d
    if okLo || okHi then
      let s :=
        if okLo && okHi then
          if A - lo * B < hi * B - A then lo
          else if hi * B - A < A - lo * B then hi
          else if lo % 2 = 0 then lo
          else hi
        else if okLo then lo
        else hi
      if s = 10 ^ k then (10 ^ (k - 1), k, n + 1) else (s, k, n)
    else shortestDigits P Q d n fuel (k + 1)

/-- How `Number::toString` writes the digits `s` (there are `k`) of a number
with the decimal exponent `n`. -/
def writeDigits (s k : Nat) (n : Int) : String :=
  let digits := (toString s).data
  if (k : Int) ≤ n ∧ n ≤ 21 then
    String.mk (digits ++ List.replicate (n - k).toNat (Char.ofNat 48))
  else if 0 < n ∧ n ≤ 21 then
    String.mk (digits.take n.toNat ++ [Char.ofNat 46] ++ digits.drop n.toNat)
  else if -6 < n ∧ n ≤ 0 then
    String.mk ("0.".data ++ List.replicate (-n).toNat (Char.ofNat 48) ++ digits)
  else
    let exp := (if 0 ≤ n - 1 then "+" else "-") ++ toString (n - 1).natAbs
    if k = 1 then String.mk digits ++ "e" ++ exp
    else String.mk (digits.take 1 ++ [Char.ofNat 46] ++ digits.drop 1) ++ "e" ++ exp

/-- The text of the positive number `p / q`, rounded to a double. -/
def positiveToString (p q : Nat) : String :=
  let d := nearestDouble p q
  let P := d.1 * 2 ^ d.2.toNat
  let Q := 2 ^ (-d.2).toNat
  let r := shortestDigits P Q d (decimalExponent P Q) 17 1
  writeDigits r.1 r.2.1 r.2.2

/-- The operation `Number::toString` on a finite number. -/
def numberToString (n : ℚ) : String :=
  if n = 0 then "0"
  else (if n < 0 then "-" else "") ++ positiveToString n.num.natAbs n.den

/-- The tenths in `(num / den).toFixed(1)` for a quotient that is not
negative: the division yields the double nearest to the quotient, and
ECMAScript `Number.prototype.toFixed` takes the integer `n` for which
`n / 10` is nearest to that double, the larger one on a tie. -/
def tenths (num den : Nat) : Nat :=
  let d := nearestDouble num den
  (20 * d.1 * 2 ^ d.2.toNat + 2 ^ (-d.2).toNat) / (2 * 2 ^ (-d.2).toNat)

/-- The text of `(num / den).toFixed(1)`: `NaN` and the infinities are
written as `Number::toString` writes them, and so is a quotient from `10 ^ 21`
on; any other quotient is written with its sign (none for a quotient that
is rounded to zero), the integer part of its tenths and one decimal. -/
def toFixed1 (num : Num) (den : Nat) : String :=
  match num with
  | Num.nan => "NaN"
  | Num.infinity negative => if negative then "-Infinity" else "Infinity"
  | Num.finite n =>
    let d := nearestDouble n.num.natAbs (n.den * den)
    let sign := if n < 0 ∧ 0 < d.1 then "-" else ""
    if 10 ^ 21 * 2 ^ (-d.2).toNat ≤ d.1 * 2 ^ d.2.toNat then
      sign ++ positiveToString (d.1 * 2 ^ d.2.toNat) (2 ^ (-d.2).toNat)
    else
      let t := tenths n.num.natAbs (n.den * den)
      sign ++ toString (t / 10) ++ "." ++ toString (t % 10)

/-- The double that a number literal or a JSON number with the value `n` is
read as: the nearest one, `Infinity` from `2 ^ 1024 = 16 ^ 256` on. -/
def toDouble (n : ℚ) : Num :=
  let d := nearestDouble n.num.natAbs n.den
  if 16 ^ 256 * 2 ^ (-d.2).toNat ≤ d.1 * 2 ^ d.2.toNat then Num.infinity (decide (n < 0))
  else Num.finite (mkRat ((if n < 0 then -1 else 1) * (d.1 * 2 ^ d.2.toNat : Nat))
    (2 ^ (-d.2).toNat))

/-- The text of a number (`Number::toString`). -/
def numToString : Num → String
  | Num.nan => "NaN"
  | Num.infinity negative => if negative then "-Infinity" else "Infinity"
  | Num.finite n => numberToString n

/-- The truthiness of a value, as tested by `!text`, `a ? b : c` and `a || b`. -/
def truthy : JsVal → Bool
  | JsVal.undefined => false
  | JsVal.null => false
  | JsVal.bool b => b
  | JsVal.num n => toDouble n != Num.finite 0
  | JsVal.nan => false
  | JsVal.infinity _ => true
  | JsVal.str s => s != ""

/-- The text of a value interpolated in a template literal or assigned to
`textContent`. -/
def toStr : JsVal → String
  | JsVal.undefined => "undefined"
  | JsVal.null => "null"
  | JsVal.bool true => "true"
  | JsVal.bool false => "false"
  | JsVal.num n => numToString (toDouble n)
  | JsVal.nan => "NaN"
  | JsVal.infinity negative => numToString (Num.infinity negative)
  | JsVal.str s => s

/-- The white space and line terminators that `String.prototype.trim`
removes, by code unit. -/
def jsWhiteSpace (n : Nat) : Bool :=
  n == 9 || n == 10 || n == 11 || n == 12 || n == 13 || n == 32 || n == 160 || n == 5760 ||
    (8192 ≤ n && n ≤ 8202) || n == 8232 || n == 8233 || n == 8239 || n == 8287 ||
    n == 12288 || n == 65279

/-- The method `String.prototype.trim`, on the code units. -/
def trim (cs : List Nat) : List Nat :=
  ((cs.dropWhile jsWhiteSpace).reverse.dropWhile jsWhiteSpace).reverse

/-- The method `String.prototype.trim` on a text: the white space characters
are single code units, so whole characters are removed. -/
def trimText (s : String) : String :=
  String.mk (((s.data.dropWhile (fun c => jsWhiteSpace c.toNat)).reverse.dropWhile
    (fun c => jsWhiteSpace c.toNat)).reverse)

/-- Embeds `truncateText` (lines 623-627): `text.length` counts code units
and `substring(0, maxLength)` keeps the first `maxLength` of them.  A truthy
value that is not a string has no `substring` method: the source throws. -/
def truncateText (text : JsVal) (maxLength : Nat) : Option (List Nat) :=
  if !truthy text then some []
  else
    match text with
    | JsVal.str s =>
      if (utf16 s).length ≤ maxLength then some (utf16 s)
      else some (trim ((utf16 s).take maxLength) ++ utf16 "...")
    | _ => none

/-- How the HTML serialisation of a text node writes one character: `&`,
`<`, `>` and the no-break space are replaced, every other character, the
double quote included, is kept. -/
def escapeChar (c : Char) : List Char :=
  if c.toNat == 38 then "&amp;".data
  else if c.toNat == 60 then "&lt;".data
  else if c.toNat == 62 then "&gt;".data
  else if c.toNat == 160 then "&nbsp;".data
  else [c]

/-- The `innerHTML` of a `div` whose `textContent` is `s` (HTML Standard,
serialising a text node: escaping a string outside attribute mode). -/
def serializeText (s : String) : String :=
  String.mk (s.data.flatMap escapeChar)

/-- Embeds `escapeHtml` (lines 632-638). -/
def escapeHtml (text : JsVal) : String :=
  if !truthy text then "" else serializeText (toStr text)

/-- How the HTML serialisation of a text node writes one code unit: as
`escapeChar`, half of a surrogate pair being kept. -/
def escapeUnit (u : Nat) : List Nat :=
  if u == 38 then utf16 "&amp;"
  else if u == 60 then utf16 "&lt;"
  else if u == 62 then utf16 "&gt;"
  else if u == 160 then utf16 "&nbsp;"
  else [u]

/-- Embeds `escapeHtml` (lines 632-638) on a string given by its code units,
as `truncateText` returns it; the empty string is falsy. -/
def escapeHtmlUnits (text : List Nat) : List Nat :=
  if text.isEmpty then [] else text.flatMap escapeUnit

/-- The conversion `Number(value)` behind `isNaN(value)`. -/
def toNumber (env : Browser) : JsVal → Num
  | JsVal.undefined => Num.nan
  | JsVal.null => Num.finite 0
  | JsVal.bool b => Num.finite (if b then 1 else 0)
  | JsVal.num n => toDouble n
  | JsVal.nan => Num.nan
  | JsVal.infinity negative => Num.infinity negative
  | JsVal.str s => env.toNumber s

/-- The function `parseFloat(value)`, which parses the text of the value:
the text of a number is read as that number, that of `undefined`, `null`,
`true` and `false` as `NaN`. -/
def parseFloat (env : Browser) : JsVal → Num
  | JsVal.num n => toDouble n
  | JsVal.infinity negative => Num.infinity negative
  | JsVal.str s => env.parseFloat s
  | _ => Num.nan

/-- The comparison `num >= bound` with a finite bound: false for `NaN`. -/
def atLeast (num : Num) (bound : ℚ) : Bool :=
  match num with
  | Num.nan => false
  | Num.infinity negative => !negative
  | Num.finite n => decide (bound ≤ n)

/-- Embeds `formatInvestment` (lines 606-618).  `NaN` fails both
comparisons and is printed by `toLocaleString`. -/
def formatInvestment (env : Browser) (value : JsVal) : String :=
  if !truthy value || toNumber env value == Num.nan then "$0"
  else
    let num := parseFloat env value
    if atLeast num 1000000 then "$" ++ toFixed1 num 1000000 ++ "M"
    else if atLeast num 1000 then "$" ++ toFixed1 num 1000 ++ "K"
    else "$" ++ env.toLocaleString num

/-- The constant `countryCode` of `buildInvestmentCard` (line 389): a
truthy country that is not a string has no `toLowerCase` method. -/
def countryCode (env : Browser) (country : JsVal) : Option String :=
  if truthy country then
    match country with
    | JsVal.str s => some (env.toLowerCase s)
    | _ => none
  else some "sa"

/-- The constant `countryName` of `buildInvestmentCard` (line 390). -/
def countryName (country_name : JsVal) : JsVal :=
  if truthy country_name then country_name else JsVal.str "Unknown"

/-- The constant `categoriesHtml` of `buildInvestmentCard` (lines 397-400). -/
def categoriesHtml (categories : List Category) : String :=
  if categories.length > 0 then
    String.join (categories.map
      (fun cat => "<span class=\"cat_lable__\">" ++ escapeHtml cat.name ++ "</span>"))
  else "<span class=\"cat_lable__\">Uncategorized</span>"

/-- The pieces of the premium badge template (lines 431-437). -/
def premiumParts (env : Browser) : List String :=
  [ "\n",
    "                        <span class=\"badge__\">\n",
    "                            <img width=\"16\" height=\"16\"\n",
    "                                 src=\"",
    env.origin,
    "/assets/front/images/shapes/sun.svg\" alt=\"\">\n",
    "                            Premium\n",
    "                        </span>\n",
    "                        " ]

/-- The badge inserted for a premium item (lines 431-437). -/
def premiumBadge (env : Browser) (is_premium : Bool) : String :=
  if is_premium then String.join (premiumParts env) else ""

/-- The pieces of the card template (lines 402-476), in order: the literal
text and the interpolated values, each as its code units. -/
def cardParts (env : Browser) (cfg : Config) (investment : Investment) (index : Nat)
    (countryCode : String) (countryName : JsVal) (minInvestment maxInvestment : String)
    (categoriesHtml : String) (description : List Nat) : List (List Nat) :=
  [ utf16 "\n",
    utf16 "                <div class=\"testimonial_card__ investment-item-animated\"\n",
    utf16 "                     style=\"animation-delay: ",
    utf16 (toString (index * cfg.staggerDelay)),
    utf16 "ms; opacity: 0;\"\n",
    utf16 "                     data-opportunity-id=\"",
    utf16 (toStr investment.id),
    utf16 "\">\n",
    utf16 "                    <div class=\"head__\">\n",
    utf16 "                        <div class=\"company_card__\">\n",
    utf16 "                            <div class=\"image_wrapper__\">\n",
    utf16 "                                <figure class=\"figure__ asp-om loading-omd company_figure__\">\n",
    utf16 "                                    <img class=\"img-om lazy-omd\"\n",
    utf16 "                                         src=\"",
    utf16 (toStr investment.image),
    utf16 "\"\n",
    utf16 "                                         data-src=\"",
    utf16 (toStr investment.image),
    utf16 "\"\n",
    utf16 "                                         alt=\"",
    utf16 (escapeHtml investment.name),
    utf16 "\"/>\n",
    utf16 "                                </figure>\n",
    utf16 "                            </div>\n",
    utf16 "\n",
    utf16 "                            <div class=\"compony_content__\">\n",
    utf16 "                                <h3 class=\"title__\">",
    utf16 (escapeHtml investment.name),
    utf16 "</h3>\n",
    utf16 "\n",
    utf16 "                                <div class=\"location_wrapper__\">\n",
    utf16 "                                    <figure class=\"figure__ flag__\">\n",
    utf16 "                                        <img class=\"img-om\"\n",
    utf16 "                                             src=\"https://flagcdn.com/",
    utf16 (countryCode),
    utf16 ".svg\"\n",
    utf16 "                                             alt=\"",
    utf16 (escapeHtml countryName),
    utf16 "\">\n",
    utf16 "                                    </figure>\n",
    utf16 "                                    <span class=\"text__\">",
    utf16 (escapeHtml countryName),
    utf16 "</span>\n",
    utf16 "                                </div>\n",
    utf16 "                            </div>\n",
    utf16 "                        </div>\n",
    utf16 "\n",
    utf16 "                        ",
    utf16 (premiumBadge env investment.is_premium),
    utf16 "\n",
    utf16 "                    </div>\n",
    utf16 "\n",
    utf16 "                    <p class=\"parag__\">",
    escapeHtmlUnits description,
    utf16 "</p>\n",
    utf16 "\n",
    utf16 "                    <div class=\"body__\">\n",
    utf16 "                        <div class=\"info__\">\n",
    utf16 "                            <span class=\"title__\">",
    utf16 (env.expected_roi),
    utf16 "</span>\n",
    utf16 "                            <span class=\"value__\">",
    utf16 (escapeHtml investment.expected_roi),
    utf16 "%</span>\n",
    utf16 "                        </div>\n",
    utf16 "                        <div class=\"info__\">\n",
    utf16 "                            <span class=\"title__\">",
    utf16 (env.minimum_amount),
    utf16 "</span>\n",
    utf16 "                            <span class=\"value__\">",
    utf16 (minInvestment),
    utf16 "</span>\n",
    utf16 "                        </div>\n",
    utf16 "                        <div class=\"info__\">\n",
    utf16 "                            <span class=\"title__\">",
    utf16 (env.maximum_amount),
    utf16 "</span>\n",
    utf16 "                            <span class=\"value__\">",
    utf16 (maxInvestment),
    utf16 "</span>\n",
    utf16 "                        </div>\n",
    utf16 "                        <div class=\"info__\">\n",
    utf16 "                            <span class=\"title__\">",
    utf16 (env.round_duration),
    utf16 "</span>\n",
    utf16 "                            <span class=\"value__\">",
    utf16 (escapeHtml investment.investment_timeline),
    utf16 " ",
    utf16 (env.months),
    utf16 "</span>\n",
    utf16 "                        </div>\n",
    utf16 "                    </div>\n",
    utf16 "\n",
    utf16 "                    <div class=\"card_categories_wrapper__\">\n",
    utf16 "                        ",
    utf16 (categoriesHtml),
    utf16 "\n",
    utf16 "                    </div>\n",
    utf16 "\n",
    utf16 "                    <div class=\"footer__\">\n",
    utf16 "                        <button class=\"button__ testimonial_details_button__\"\n",
    utf16 "                                onclick=\"window.location.href=\x27",
    utf16 (toStr investment.url),
    utf16 "\x27\">\n",
    utf16 "                            Details\n",
    utf16 "                        </button>\n",
    utf16 "                        <button class=\"button__ primary_button__ testimonial_invest_button__\">\n",
    utf16 "                            <i class=\"fas fa-hand-holding-usd me-2\"></i>\n",
    utf16 "                            Invest Now\n",
    utf16 "                        </button>\n",
    utf16 "                    </div>\n",
    utf16 "                </div>\n",
    utf16 "            " ]

/-- The pieces of the retry message template (lines 327-344). -/
def retryParts (cfg : Config) (attemptNumber : Nat) : List String :=
  [ "\n",
    "                <div class=\"investment-retry-wrapper fade-in-up\">\n",
    "                    <div class=\"investment-retry-content\">\n",
    "                        <div class=\"retry-icon\">\n",
    "                            <svg width=\"48\" height=\"48\" viewBox=\"0 0 24 24\" fill=\"none\" stroke=\"currentColor\" stroke-width=\"2\">\n",
    "                                <circle cx=\"12\" cy=\"12\" r=\"10\"></circle>\n",
    "                                <line x1=\"12\" y1=\"8\" x2=\"12\" y2=\"12\"></line>\n",
    "                                <line x1=\"12\" y1=\"16\" x2=\"12.01\" y2=\"16\"></line>\n",
    "                            </svg>\n",
    "                        </div>\n",
    "                        <h4>Connection Issue</h4>\n",
    "                        <p>Retrying automatically... Attempt ",
    toString attemptNumber,
    " of ",
    toString cfg.maxRetries,
    "</p>\n",
    "                        <div class=\"retry-spinner\">\n",
    "                            <div class=\"spinner\"></div>\n",
    "                        </div>\n",
    "                    </div>\n",
    "                </div>\n",
    "            " ]

/-- Embeds `buildInvestmentCard` (lines 387-477). -/
def buildInvestmentCard (env : Browser) (cfg : Config) (investment : Investment)
    (index : Nat) : Option (List Nat) :=
  match countryCode env investment.country, truncateText investment.description 150 with
  | some code, some description =>
    some (List.flatten (cardParts env cfg investment index code
      (countryName investment.country_name)
      (formatInvestment env investment.minimum_investment)
      (formatInvestment env investment.maximum_investment)
      (categoriesHtml investment.categories) description))
  | _, _ => none

/-- Whether the value is a string. -/
def isString : JsVal → Bool
  | JsVal.str _ => true
  | _ => false

/-- Whether `buildInvestmentCard` throws on the item: its country or its
description is truthy and not a string. -/
def cardThrows (investment : Investment) : Bool :=
  (truthy investment.country && !isString investment.country) ||
    (truthy investment.description && !isString investment.description)

/-- The loop of `renderInvestments` (lines 364-368):
`investmentsHtml += buildInvestmentCard(investment, index)`, on the code
units. -/
def cardsLoop (env : Browser) (cfg : Config) :
    List Investment → Nat → List Nat → Option (List Nat)
  | [], _, investmentsHtml => some investmentsHtml
  | investment :: rest, index, investmentsHtml =>
    match buildInvestmentCard env cfg investment index with
    | none => none
    | some card => cardsLoop env cfg rest (index + 1) (investmentsHtml ++ card)

/-- The string `investmentsHtml` that `renderInvestments` puts in the
container for a list that is not empty, by its code units: the HTML of
`View.cards`. -/
def cardsHtml (env : Browser) (cfg : Config) (investments : List Investment) :
    Option (List Nat) :=
  cardsLoop env cfg investments 0 (utf16 "")

/-- The string `retryHtml` of `showRetryMessage` (lines 327-344): the HTML of
`View.retryMessage`. -/
def retryHtml (cfg : Config) (attemptNumber : Nat) : String :=
  String.join (retryParts cfg attemptNumber)

/-- Reads a string of decimal digits as the number it writes; any other
string is `NaN`. -/
def readDigits (s : String) : Num :=
  if s.data.isEmpty || !s.data.all Char.isDigit then Num.nan
  else toDouble (s.data.foldl (fun n c => 10 * n + (c.toNat - 48)) 0 : Nat)

/-- Puts a comma after every third digit; `k` digits have been written since
the last comma. -/
def groupFrom : List Char → Nat → List Char
  | [], _ => []
  | c :: cs, k => if k == 3 then Char.ofNat 44 :: c :: groupFrom cs 1 else c :: groupFrom cs (k + 1)

/-- Writes the digits of a natural number in groups of three. -/
def groupDigits (n : Nat) : String :=
  String.mk (groupFrom (toString n).data.reverse 0).reverse

/-- The digits after the decimal point for `t` thousandths, without the
zeros at the end; nothing for a whole number. -/
def fractionDigits (t : Nat) : String :=
  if t % 1000 = 0 then ""
  else if t % 100 = 0 then "." ++ toString (t % 1000 / 100)
  else if t % 10 = 0 then "." ++ toString (t % 1000 / 100) ++ toString (t % 100 / 10)
  else "." ++ toString (t % 1000 / 100) ++ toString (t % 100 / 10) ++ toString (t % 10)

/-- The method `toLocaleString()` of a number in the `en-US` locale: groups
of three digits, at most three digits after the point, a half rounded away
from zero. -/
def localeString : Num → String
  | Num.nan => "NaN"
  | Num.infinity negative => if negative then "-∞" else "∞"
  | Num.finite n =>
    let t := (2 * 1000 * n.num.natAbs + n.den) / (2 * n.den)
    (if n < 0 then "-" else "") ++ groupDigits (t / 1000) ++ fractionDigits t

/-- An English page in a browser with the `en-US` locale, for ASCII text and
for amounts that are numbers or plain strings of digits (any other string is
read as `NaN` here). -/
def englishPage : Browser :=
  { origin := "https://brhub.example"
    expected_roi := "Expected ROI"
    minimum_amount := "Minimum Amount"
    maximum_amount := "Maximum Amount"
    round_duration := "Round Duration"
    months := "Months"
    toLowerCase := fun s => String.mk (s.data.map Char.toLower)
    toNumber := readDigits
    parseFloat := readDigits
    toLocaleString := localeString }


/-! ## The loader (lines 17-197 and 323-555) -/

/-- The callback handed to `hideShimmerLoader`. -/
inductive Callback where
  | renderEmptyState
  | renderErrorState
  | showCards (investments : List Investment)
  deriving DecidableEq

/-- The body of a pending `setTimeout`. -/
inductive Timer where
  /-- handleSuccess, 600 ms -/
  | minimumLoading (investments : List Investment)
  /-- handleError, `config.retryDelay` -/
  | retry (categoryId : JsVal)
  /-- showShimmerLoader, 300 ms -/
  | shimmer
  /-- hideShimmerLoader, 400 ms -/
  | hideShimmer (callback : Callback)
  /-- renderEmptyState, 100 ms -/
  | bindViewAll
  /-- renderErrorState, 100 ms -/
  | bindRetry
  deriving DecidableEq

/-- What `$container` holds.  The empty and error views carry the number
of click handlers bound on their button; the HTML of `cards` is `cardsHtml`,
that of `retryMessage` is `retryHtml`. -/
inductive View where
  | serverRendered
  | shimmer
  | retryMessage (attemptNumber maxRetries : Nat)
  | cards (investments : List Investment)
  | empty (handlers : Nat)
  | error (handlers : Nat)
  deriving DecidableEq

/-- A jqXHR created by `fetchInvestments`: `categoryId` is the closure
variable of its callbacks, `method` and `url` the request line, `category_id`
the query parameter sent. -/
structure Request where
  handle : Nat
  categoryId : JsVal
  method : String
  url : String
  category_id : JsVal
  deriving DecidableEq

/-- Observable actions, in the order they happen. -/
inductive Effect where
  | abort (handle : Nat)
  | ajax (request : Request)
  | html (view : View)
  | setTimeout (delay : Nat) (timer : Timer)
  | consoleError (status : String)
  | consoleLog (retryCount : Nat)
  deriving DecidableEq

/-- The loader (`state`, lines 32-37) together with its environment. -/
structure State where
  isLoading : Bool
  currentCategory : JsVal
  retryCount : Nat
  currentRequest : Option Nat
  now : Nat
  nextHandle : Nat
  inFlight : List Request
  timers : List (Nat × Timer)
  container : View
  activeButton : Option Nat
  log : List Effect
  deriving DecidableEq

/-- The state at page load. -/
def init : State :=
  { isLoading := false, currentCategory := JsVal.null, retryCount := 0, currentRequest := none,
    now := 0, nextHandle := 0, inFlight := [], timers := [],
    container := View.serverRendered, activeButton := none, log := [] }

/-- Models `setTimeout(body, delay)`: the body is queued for `now + delay`. -/
def setTimeout (s : State) (delay : Nat) (t : Timer) : State :=
  { s with timers := s.timers ++ [(s.now + delay, t)], log := s.log ++ [Effect.setTimeout delay t] }

/-- Models `$container.html(view)`. -/
def html (s : State) (v : View) : State :=
  { s with container := v, log := s.log ++ [Effect.html v] }

/-- Embeds `updateActiveButton` (lines 81-84). -/
def updateActiveButton (s : State) (button : Nat) : State :=
  { s with activeButton := some button }

/-- Embeds `showShimmerLoader` (lines 202-230): the shimmer replaces the content
after 300 ms. -/
def showShimmerLoader (s : State) : State :=
  setTimeout s 300 Timer.shimmer

/-- Embeds `hideShimmerLoader` (lines 235-254): the callback runs after 400 ms. -/
def hideShimmerLoader (s : State) (callback : Callback) : State :=
  setTimeout s 400 (Timer.hideShimmer callback)

/-- Embeds `showRetryMessage` (lines 323-347). -/
def showRetryMessage (cfg : Config) (s : State) (attemptNumber : Nat) : State :=
  html s (View.retryMessage attemptNumber cfg.maxRetries)

/-- Embeds `renderEmptyState` (lines 482-513). -/
def renderEmptyState (s : State) : State :=
  setTimeout (html s (View.empty 0)) 100 Timer.bindViewAll

/-- Embeds `renderErrorState` (lines 518-555). -/
def renderErrorState (s : State) : State :=
  setTimeout (html s (View.error 0)) 100 Timer.bindRetry

/-- Embeds `renderInvestments` (lines 352-382). -/
def renderInvestments (s : State) (investments : List Investment) : State :=
  if investments.length = 0 then
    hideShimmerLoader s Callback.renderEmptyState
  else
    hideShimmerLoader s (Callback.showCards investments)

/-- The expression `categoryId ?? "all"` (line 119). -/
def orAll (categoryId : JsVal) : JsVal :=
  match categoryId with
  | JsVal.null => JsVal.str "all"
  | JsVal.undefined => JsVal.str "all"
  | v => v

/-- The request `$.ajax` builds for a category id (lines 115-126). -/
def requestFor (cfg : Config) (handle : Nat) (categoryId : JsVal) : Request :=
  { handle := handle, categoryId := categoryId, method := "GET", url := cfg.ajaxUrl,
    category_id := orAll categoryId }

/-- Embeds `fetchInvestments` (lines 112-139): `$.ajax` creates a request and the
handle is stored in `state.currentRequest`. -/
def fetchInvestments (cfg : Config) (s : State) (categoryId : JsVal) : State :=
  let r := requestFor cfg s.nextHandle categoryId
  { s with
    currentRequest := some s.nextHandle
    nextHandle := s.nextHandle + 1
    inFlight := s.inFlight ++ [r]
    log := s.log ++ [Effect.ajax r] }

/-- Embeds `handleError` (lines 167-197). -/
def handleError (cfg : Config) (s : State) (status : String) (categoryId : JsVal) : State :=
  let s := { s with log := s.log ++ [Effect.consoleError status] }
  let s := { s with isLoading := false }
  if s.retryCount < cfg.maxRetries ∧ status ≠ "timeout" then
    let s := { s with retryCount := s.retryCount + 1 }
    let s := showRetryMessage cfg s s.retryCount
    setTimeout s cfg.retryDelay (Timer.retry categoryId)
  else
    hideShimmerLoader s Callback.renderErrorState

/-- The test `!response || !response.success` of `handleSuccess`. -/
def invalidResponse (response : Option Response) : Bool :=
  match response with
  | none => true
  | some r => r.success != some true

/-- The `response.investments || []` of `handleSuccess`. -/
def investmentsOf (response : Option Response) : List Investment :=
  match response with
  | none => []
  | some r => r.investments.getD []

/-- Embeds `handleSuccess` (lines 144-162). -/
def handleSuccess (cfg : Config) (s : State) (response : Option Response) : State :=
  if invalidResponse response then
    handleError cfg s "Invalid response format" s.currentCategory
  else
    setTimeout s 600 (Timer.minimumLoading (investmentsOf response))

/-- The `error` callback of the request (lines 130-134). -/
def onError (cfg : Config) (s : State) (status : String) (categoryId : JsVal) : State :=
  if status ≠ "abort" then handleError cfg s status categoryId else s

/-- The `complete` callback of the request (lines 135-137). -/
def onComplete (s : State) : State :=
  { s with currentRequest := none }

/-- The request with this handle, when it is still in flight. -/
def findRequest (s : State) (handle : Nat) : Option Request :=
  s.inFlight.find? (fun r => r.handle == handle)

/-- The request leaves the network. -/
def removeRequest (s : State) (handle : Nat) : State :=
  { s with inFlight := s.inFlight.filter (fun r => r.handle != handle) }

/-- Models `jqXHR.abort()`: on a request still in flight jQuery runs `error` with
status `'abort'` and then `complete`; on a finished one it does nothing. -/
def abort (cfg : Config) (s : State) (handle : Nat) : State :=
  match findRequest s handle with
  | none => s
  | some r =>
    let s := removeRequest s handle
    let s := { s with log := s.log ++ [Effect.abort handle] }
    onComplete (onError cfg s "abort" r.categoryId)

/-- Embeds `loadInvestments` (lines 89-107). -/
def loadInvestments (cfg : Config) (s : State) (categoryId : JsVal) : State :=
  let s := match s.currentRequest with
    | some h => abort cfg s h
    | none => s
  let s := { s with isLoading := true, currentCategory := categoryId, retryCount := 0 }
  let s := showShimmerLoader s
  fetchInvestments cfg s categoryId

/-- The delegated click handler of the tab buttons (lines 54-75). -/
def tabClick (cfg : Config) (s : State) (button : Nat) (categoryId : JsVal) : State :=
  if s.isLoading then s
  else if categoryId = s.currentCategory then s
  else loadInvestments cfg (updateActiveButton s button) categoryId

/-- The click handler bound on the Try Again button (lines 549-553). -/
def retryClick (cfg : Config) (s : State) : State :=
  loadInvestments cfg { s with retryCount := 0 } s.currentCategory

/-- The click handler bound on the View All button (lines 509-511):
a click is triggered on the first tab button, when there is one. -/
def viewAllClick (cfg : Config) (s : State) : State :=
  match cfg.tabs with
  | [] => s
  | categoryId :: _ => tabClick cfg s 0 categoryId

/-- Runs a handler once per binding on the clicked button. -/
def repeatHandler (f : State → State) : Nat → State → State
  | 0, s => s
  | n + 1, s => repeatHandler f n (f s)

/-- A callback of `hideShimmerLoader` runs. -/
def runCallback (s : State) (callback : Callback) : State :=
  match callback with
  | Callback.renderEmptyState => renderEmptyState s
  | Callback.renderErrorState => renderErrorState s
  | Callback.showCards investments => html s (View.cards investments)

/-- The body of a timer runs.  When `buildInvestmentCard` throws on an item,
the callback of `handleSuccess` stops inside `renderInvestments`, before any
effect. -/
def runTimer (cfg : Config) (s : State) (t : Timer) : State :=
  match t with
  | Timer.minimumLoading investments =>
    if investments.any cardThrows then s
    else
      let s := renderInvestments s investments
      { s with isLoading := false, retryCount := 0 }
  | Timer.retry categoryId =>
    let s := { s with log := s.log ++ [Effect.consoleLog s.retryCount] }
    let s := { s with isLoading := true }
    fetchInvestments cfg s categoryId
  | Timer.shimmer => html s View.shimmer
  | Timer.hideShimmer callback => runCallback s callback
  | Timer.bindViewAll =>
    match s.container with
    | View.empty k => { s with container := View.empty (k + 1) }
    | _ => s
  | Timer.bindRetry =>
    match s.container with
    | View.error k => { s with container := View.error (k + 1) }
    | _ => s

/-- How a request ends. -/
inductive Outcome where
  | success (response : Option Response)
  | error (status : String)
  deriving DecidableEq

/-- What the browser can do next. -/
inductive Event where
  /-- the user clicks the tab button with this index -/
  | tab (button : Nat)
  /-- the request with this handle ends -/
  | ajax (handle : Nat) (outcome : Outcome)
  /-- time passes; no pending timer is skipped -/
  | wait (ms : Nat)
  /-- the earliest pending timer, being due, fires -/
  | timer
  /-- the user clicks Try Again in the error view -/
  | tryAgain
  /-- the user clicks View All Investments in the empty view -/
  | viewAll
  deriving DecidableEq

/-- Splits off the timer that fires next: the earliest due, and among
equals the one scheduled first. -/
def popTimer : List (Nat × Timer) → Option ((Nat × Timer) × List (Nat × Timer))
  | [] => none
  | t :: ts =>
    match popTimer ts with
    | none => some (t, [])
    | some (u, rest) =>
      if t.1 ≤ u.1 then some (t, ts) else some (u, t :: rest)

/-- One step of the browser; `none` when the event cannot happen in `s`. -/
def step (cfg : Config) (s : State) (e : Event) : Option State :=
  match e with
  | Event.tab button =>
    match cfg.tabs.get? button with
    | none => none
    | some categoryId => some (tabClick cfg s button categoryId)
  | Event.ajax handle outcome =>
    match findRequest s handle with
    | none => none
    | some r =>
      let s := removeRequest s handle
      match outcome with
      | Outcome.success response => some (onComplete (handleSuccess cfg s response))
      | Outcome.error status => some (onComplete (onError cfg s status r.categoryId))
  | Event.wait ms =>
    if s.timers.all (fun t => s.now + ms ≤ t.1) then some { s with now := s.now + ms } else none
  | Event.timer =>
    match popTimer s.timers with
    | none => none
    | some (t, rest) =>
      if t.1 ≤ s.now then some (runTimer cfg { s with timers := rest } t.2) else none
  | Event.tryAgain =>
    match s.container with
    | View.error k => some (repeatHandler (retryClick cfg) k s)
    | _ => none
  | Event.viewAll =>
    match s.container with
    | View.empty k => some (repeatHandler (viewAllClick cfg) k s)
    | _ => none

/-- Runs a sequence of events. -/
def run (cfg : Config) (s : State) : List Event → Option State
  | [] => some s
  | e :: es =>
    match step cfg s e with
    | none => none
    | some s1 => run cfg s1 es

/-- The states the loader can be in. -/
def Reachable (cfg : Config) (s : State) : Prop :=
  ∃ es : List Event, run cfg init es = some s

/-! ## Reading the effect log -/

/-- The timers scheduled, in order, with their delays. -/
def timeouts : List Effect → List (Nat × Timer)
  | [] => []
  | Effect.setTimeout delay t :: rest => (delay, t) :: timeouts rest
  | _ :: rest => timeouts rest

/-- The requests issued, in order. -/
def fetches : List Effect → List Request
  | [] => []
  | Effect.ajax r :: rest => r :: fetches rest
  | _ :: rest => fetches rest

/-- The views put in the container, in order. -/
def renders : List Effect → List View
  | [] => []
  | Effect.html v :: rest => v :: renders rest
  | _ :: rest => renders rest

/-- All fields of the two states agree, the effect log apart. -/
def sameLoader (a b : State) : Prop :=
  a.isLoading = b.isLoading ∧ a.currentCategory = b.currentCategory ∧
  a.retryCount = b.retryCount ∧ a.currentRequest = b.currentRequest ∧ a.now = b.now ∧
  a.nextHandle = b.nextHandle ∧ a.inFlight = b.inFlight ∧ a.timers = b.timers ∧
  a.container = b.container ∧ a.activeButton = b.activeButton

/-! ## Scenarios -/

/-- A failed attempt that is retried: the request fails, the retry delay
passes, the retry timer fires. -/
def failedAttempt (cfg : Config) (handle : Nat) (status : String) : List Event :=
  [Event.ajax handle (Outcome.error status), Event.wait cfg.retryDelay, Event.timer]

/-- Consecutive failed attempts, one per status; the first request has
handle `handle`, each retry the next one. -/
def failedAttempts (cfg : Config) : Nat → List String → List Event
  | _, [] => []
  | handle, status :: rest =>
    failedAttempt cfg handle status ++ failedAttempts cfg (handle + 1) rest

/-- What `failedAttempts` writes in the log when `k` attempts have failed before. -/
def retryLog (cfg : Config) (c : JsVal) : Nat → Nat → List String → List Effect
  | _, _, [] => []
  | handle, k, status :: rest =>
    [Effect.consoleError status, Effect.html (View.retryMessage (k + 1) cfg.maxRetries),
     Effect.setTimeout cfg.retryDelay (Timer.retry c), Effect.consoleLog (k + 1),
     Effect.ajax (requestFor cfg (handle + 1) c)] ++ retryLog cfg c (handle + 1) (k + 1) rest

/-- A page with two tabs, `tech` and `energy`, and the default policy. -/
def twoTabs : Config := defaultConfig [JsVal.str "tech", JsVal.str "energy"]

/-- An item with this id and name. -/
def item (id : Int) (name : String) : Investment :=
  { id := JsVal.num id, name := JsVal.str name, description := JsVal.null, image := JsVal.null,
    country := JsVal.null, country_name := JsVal.null, minimum_investment := JsVal.null,
    maximum_investment := JsVal.null, expected_roi := JsVal.null,
    investment_timeline := JsVal.null, categories := [], is_premium := false,
    url := JsVal.null }

/-- The body `{success: true, investments: xs}`. -/
def okBody (xs : List Investment) : Outcome :=
  Outcome.success (some { success := some true, investments := some xs })

/-- The user opens `tech` at 0 ms, the request fails at 100 ms (retry due at
3100 ms), the user opens `energy` at 1000 ms, its response arrives at
1100 ms and its card is on screen at 2100 ms. -/
def energyShown : List Event :=
  [Event.tab 0, Event.wait 100, Event.ajax 0 (Outcome.error "error"),
   Event.wait 200, Event.timer, Event.wait 700, Event.tab 1, Event.wait 100,
   Event.ajax 1 (okBody [item 2 "Solar"]), Event.wait 200, Event.timer, Event.wait 400,
   Event.timer, Event.wait 400, Event.timer]

/-- At 3100 ms the retry timer of `tech` fires, its response arrives at
3200 ms and is put on screen at 4200 ms. -/
def staleRetry : List Event :=
  [Event.wait 1000, Event.timer, Event.wait 100, Event.ajax 2 (okBody [item 1 "Acme"]),
   Event.wait 600, Event.timer, Event.wait 400, Event.timer]

/-- The user opens `tech` and the shimmer is on screen at 300 ms. -/
def techLoading : List Event :=
  [Event.tab 0, Event.wait 300, Event.timer]

/-! ## Runs in which every request fails -/

/-- The events of a run in which time passes, timers fire and every request
that ends does so with a status other than `timeout` and `abort`. -/
def failureOnly : Event → Bool
  | Event.wait _ => true
  | Event.timer => true
  | Event.ajax _ (Outcome.error status) => status != "timeout" && status != "abort"
  | _ => false

/-- The retry timer of `handleError`. -/
def isRetry : Timer → Bool
  | Timer.retry _ => true
  | _ => false

/-- The callback of `handleError` that renders the error view. -/
def isErrorView : Timer → Bool
  | Timer.hideShimmer Callback.renderErrorState => true
  | _ => false

/-- The retry timers scheduled, with their delays. -/
def retriesScheduled (log : List Effect) : List (Nat × Timer) :=
  (timeouts log).filter (fun t => isRetry t.2)

/-- How often the error view has been scheduled. -/
def errorViewsScheduled (log : List Effect) : Nat :=
  (timeouts log).countP (fun t => isErrorView t.2)

/-- The view of `showRetryMessage`. -/
def isRetryMessage : View → Bool
  | View.retryMessage _ _ => true
  | _ => false

/-- The retry messages put in the container, in order. -/
def retryMessages (log : List Effect) : List View :=
  (renders log).filter isRetryMessage

/-- How many failures `handleError` has handled. -/
def failures : List Effect → Nat
  | [] => 0
  | Effect.consoleError _ :: rest => failures rest + 1
  | _ :: rest => failures rest

/-- The loader during the attempts on `c` started by `loadInvestments` in
`s0`; `delta` is what has been logged since.  The three phases are: a request
in flight, a retry pending, the error view scheduled. -/
structure RetryRun (cfg : Config) (s0 : State) (c : JsVal) (delta : List Effect)
    (s : State) : Prop where
  log_eq : s.log = s0.log ++ delta
  timers_kind : ∀ t ∈ s.timers, t.2 = Timer.shimmer ∨ t.2 = Timer.retry c ∨
    t.2 = Timer.hideShimmer Callback.renderErrorState ∨ t.2 = Timer.bindRetry
  count_le : s.retryCount ≤ cfg.maxRetries
  retries : retriesScheduled delta = List.replicate s.retryCount (cfg.retryDelay, Timer.retry c)
  handle : s.nextHandle = s0.nextHandle + (fetches delta).length
  fetched : fetches delta =
    (List.range (fetches delta).length).map (fun i => requestFor cfg (s0.nextHandle + i) c)
  phase :
    (s.inFlight = [requestFor cfg (s0.nextHandle + s.retryCount) c] ∧
      s.timers.countP (fun t => isRetry t.2) = 0 ∧
      (fetches delta).length = s.retryCount + 1 ∧ failures delta = s.retryCount ∧
      errorViewsScheduled delta = 0) ∨
    (s.inFlight = [] ∧ s.timers.countP (fun t => isRetry t.2) = 1 ∧
      (fetches delta).length = s.retryCount ∧ failures delta = s.retryCount ∧
      errorViewsScheduled delta = 0) ∨
    (s.inFlight = [] ∧ s.timers.countP (fun t => isRetry t.2) = 0 ∧
      (fetches delta).length = s.retryCount + 1 ∧ failures delta = s.retryCount + 1 ∧
      errorViewsScheduled delta = 1 ∧ s.retryCount = cfg.maxRetries)
  messages : retryMessages delta =
    (List.range s.retryCount).map (fun i => View.retryMessage (i + 1) cfg.maxRetries)

/-! ## Scenarios for the formatting functions and the timers -/

/-- An item whose id, name, image, country and url carry markup. -/
def hostile : Investment :=
  { item 7 "x\" onerror=\"alert(1)" with
    id := JsVal.str "7\"><b>"
    image := JsVal.str "\"><script>alert(1)</script>"
    country := JsVal.str "SA\"><I>"
    url := JsVal.str "\x27;alert(1);//" }

/-- The user opens `tech` at 0 ms, the request fails at 100 ms (retry due at
3100 ms), the user opens `energy` at 500 ms and its request is still
outstanding at 3100 ms. -/
def energyPending : List Event :=
  [Event.tab 0, Event.wait 100, Event.ajax 0 (Outcome.error "error"),
   Event.wait 200, Event.timer, Event.wait 200, Event.tab 1, Event.wait 300, Event.timer,
   Event.wait 2300]

/-- The user opens `tech` at 0 ms and its request fails at 100 ms (retry due
at 3100 ms); the user opens `energy` at 500 ms. -/
def energyOpened : List Event :=
  [Event.tab 0, Event.wait 100, Event.ajax 0 (Outcome.error "error"),
   Event.wait 200, Event.timer, Event.wait 200, Event.tab 1]

/-- From the click on `energy` on, every request fails with the status
`error`, 100 ms after it was issued, and every timer fires when it is due:
the requests 1 and 3 are those of `energy`, the requests 2 and 4 those of the
retry timer that `tech` left behind; request 4 fails at 6300 ms. -/
def everythingFails : List Event :=
  [Event.wait 100, Event.ajax 1 (Outcome.error "error"),
   Event.wait 200, Event.timer, Event.wait 2300, Event.timer,
   Event.wait 100, Event.ajax 2 (Outcome.error "error"),
   Event.wait 400, Event.timer,
   Event.wait 100, Event.ajax 3 (Outcome.error "error"),
   Event.wait 2500, Event.timer,
   Event.wait 100, Event.ajax 4 (Outcome.error "error")]

/-- The error view is rendered at 6700 ms, when the second retry of `energy`
is issued as request 5; it fails at 6800 ms and the error view is rendered
again at 7200 ms. -/
def lastRetryFails : List Event :=
  [Event.wait 400, Event.timer, Event.timer,
   Event.wait 100, Event.timer, Event.ajax 5 (Outcome.error "error"),
   Event.wait 400, Event.timer]

/-- The request of `tech` times out and the error view is on screen at
600 ms with its button bound; the user clicks Try Again at 1000 ms and the
response arrives at 1050 ms, which starts the 600 ms timer. -/
def responseWaiting : List Event :=
  [Event.tab 0, Event.wait 100, Event.ajax 0 (Outcome.error "timeout"),
   Event.wait 200, Event.timer, Event.wait 200, Event.timer, Event.wait 100, Event.timer,
   Event.wait 400, Event.tryAgain, Event.wait 50, Event.ajax 1 (okBody [item 1 "Acme"])]

/-- The user clicks Try Again once more at 1100 ms, while the 600 ms timer is
pending, and this request fails at 1150 ms. -/
def tryAgainFails : List Event :=
  [Event.wait 50, Event.tryAgain, Event.wait 50, Event.ajax 2 (Outcome.error "error")]

/-- Every timer fires when it is due (the 600 ms timer at 1650 ms, the retry
timer at 4150 ms) and the retry fails at 4250 ms. -/
def retryFails : List Event :=
  [Event.wait 150, Event.timer, Event.wait 100, Event.timer,
   Event.wait 250, Event.timer, Event.wait 400, Event.timer, Event.wait 2100, Event.timer,
   Event.wait 100, Event.ajax 3 (Outcome.error "error")]

end InvestmentsManager

/-! # The class list of an element

`classList` is an ordered set of class names; `add` and `remove` are the
methods of `DOMTokenList`. -/

namespace Dom

/-- The method `classList.contains(name)`. -/
def hasClass (name : String) (classes : List String) : Bool :=
  classes.contains name

/-- The method `classList.add(name)`. -/
def classAdd (name : String) (classes : List String) : List String :=
  if classes.contains name then classes else classes ++ [name]

/-- The method `classList.remove(name)`. -/
def classRemove (name : String) (classes : List String) : List String :=
  classes.filter (fun c => c != name)

/-- The truthiness of an attribute read with `getAttribute` or of an optional
text: `null` and the empty text are falsy. -/
def present : Option String → Bool
  | none => false
  | some s => s != ""

end Dom

/-! # Lazy loading of images and the chart data (assets/front/js/v1/plugin.js)

`preloadImage` (lines 101-195) is embedded as a state machine on one call of
the function: the counter `retryCount` of its closure, what it writes on the
image and the elements around it, the load that `tempImage` is performing and
the pending `setTimeout` callbacks.  `tempImage` performs one load per
assignment of its `src`, and the load ends with `onload` or `onerror`.
`generateDayWiseTimeSeries` (lines 492-504) is embedded on exact numbers: the
timestamps and the bounds are integers and a random value is a rational. -/

namespace Plugin

open Dom

/-- The `config` object of `initEnhancedLazyLoad` (lines 42-52), as far as
`preloadImage` reads it. -/
structure LazyLoadConfig where
  retryAttempts : Nat
  retryDelay : Nat
  fadeInDuration : Nat
  enableBlurEffect : Bool
  enableProgressiveLoading : Bool
  fallbackImage : Option String
  deriving DecidableEq

/-- The values written in the source. -/
def config : LazyLoadConfig :=
  { retryAttempts := 3, retryDelay := 1000, fadeInDuration := 300, enableBlurEffect := true,
    enableProgressiveLoading := true, fallbackImage := none }

/-- The image handed to `preloadImage`: the attributes the function reads
(`none` is `null`), its class list and those of `parentElement` and of the
parent of that element (`none`: there is no such element). -/
structure LazyImage where
  dataSrc : Option String
  dataSrcset : Option String
  dataSizes : Option String
  dataPlaceholder : Option String
  classList : List String
  parent : Option (List String)
  grandParent : Option (List String)
  deriving DecidableEq

/-- The body of a pending `setTimeout` of `preloadImage`. -/
inductive LazyTimer where
  /-- onLoadError, `config.retryDelay * retryCount` (line 165) -/
  | retry
  /-- onLoadSuccess, 50 ms (line 139) -/
  | unblur
  /-- onLoadSuccess, `config.fadeInDuration` (line 145) -/
  | fadeIn
  deriving DecidableEq

/-- Observable actions of `preloadImage`, in the order they happen. -/
inductive LazyEffect where
  /-- an assignment of `tempImage.src`, which starts a load -/
  | load (url : String)
  | setTimeout (delay : Nat) (timer : LazyTimer)
  | consoleWarn (retryCount retryAttempts : Nat)
  | consoleError
  /-- `img.dispatchEvent` of the event with this name and `detail.retries` -/
  | dispatchEvent (name : String) (retries : Nat)
  deriving DecidableEq

/-- One call of `preloadImage` and the elements it writes; `src`, `srcset`
and `sizes` are what the call has assigned to the image (`none`: nothing
yet), `filter` and `transition` what it has assigned to `img.style`,
`loading` is the address that `tempImage` is loading. -/
structure Preload where
  retryCount : Nat
  classList : List String
  parent : Option (List String)
  grandParent : Option (List String)
  src : Option String
  srcset : Option String
  sizes : Option String
  filter : Option String
  transition : Option String
  loading : Option String
  tempSrcset : Option String
  now : Nat
  timers : List (Nat × LazyTimer)
  log : List LazyEffect
  deriving DecidableEq

/-- Models `setTimeout(body, delay)`: the body is queued for `now + delay`. -/
def setTimeout (s : Preload) (delay : Nat) (t : LazyTimer) : Preload :=
  { s with timers := s.timers ++ [(s.now + delay, t)],
           log := s.log ++ [LazyEffect.setTimeout delay t] }

/-- An assignment `tempImage.src = url`. -/
def load (s : Preload) (url : String) : Preload :=
  { s with loading := some url, log := s.log ++ [LazyEffect.load url] }

/-- Embeds `preloadImage` up to its last line (lines 101-128 and 188-194);
`none` when the image has no `data-src` and the function returns at line 110. -/
def preloadImage (img : LazyImage) (cfg : LazyLoadConfig) (isPriority : Bool) :
    Option Preload :=
  if !present img.dataSrc then none
  else
    match img.dataSrc with
    | none => none
    | some src =>
      let s : Preload :=
        { retryCount := 0, classList := classAdd "loading" img.classList,
          parent := img.parent.map (classAdd "loading-omd"), grandParent := img.grandParent,
          src := none, srcset := none, sizes := none, filter := none, transition := none,
          loading := none, tempSrcset := none, now := 0, timers := [], log := [] }
      let s :=
        if cfg.enableProgressiveLoading && present img.dataPlaceholder && !isPriority then
          let s := { s with src := img.dataPlaceholder }
          if cfg.enableBlurEffect then
            { s with filter := some "blur(10px)",
                     transition := some ("filter " ++ toString cfg.fadeInDuration ++ "ms ease-out") }
          else s
        else s
      let s := load s src
      some (if present img.dataSrcset then { s with tempSrcset := img.dataSrcset } else s)

/-- Embeds `onLoadSuccess` (lines 131-157). -/
def onLoadSuccess (img : LazyImage) (cfg : LazyLoadConfig) (s : Preload) : Preload :=
  let s := { s with src := img.dataSrc }
  let s := if present img.dataSrcset then { s with srcset := img.dataSrcset } else s
  let s := if present img.dataSizes then { s with sizes := img.dataSizes } else s
  let s := if cfg.enableBlurEffect then setTimeout s 50 LazyTimer.unblur else s
  let s := setTimeout s cfg.fadeInDuration LazyTimer.fadeIn
  { s with log := s.log ++ [LazyEffect.dispatchEvent "lazyloaded" s.retryCount] }

/-- Embeds `onLoadError` (lines 160-186). -/
def onLoadError (cfg : LazyLoadConfig) (s : Preload) : Preload :=
  if s.retryCount < cfg.retryAttempts then
    let s := { s with retryCount := s.retryCount + 1 }
    let s := { s with log := s.log ++ [LazyEffect.consoleWarn s.retryCount cfg.retryAttempts] }
    setTimeout s (cfg.retryDelay * s.retryCount) LazyTimer.retry
  else
    let s := { s with log := s.log ++ [LazyEffect.consoleError] }
    let s := if present cfg.fallbackImage then { s with src := cfg.fallbackImage } else s
    let parent := s.parent.map (fun c => classAdd "load-error-omd" (classRemove "loading-omd" c))
    let s := { s with parent := parent }
    let s := { s with classList := classAdd "load-error" (classRemove "loading" s.classList) }
    { s with log := s.log ++ [LazyEffect.dispatchEvent "lazyloaderror" s.retryCount] }

/-- The address of a retry (line 166). -/
def retryUrl (src : String) (retryCount : Nat) : String :=
  src ++ (if src.data.contains (Char.ofNat 63) then "&" else "?") ++ "retry=" ++
    toString retryCount

/-- The body of a timer runs. -/
def runTimer (img : LazyImage) (s : Preload) : LazyTimer → Preload
  | LazyTimer.retry => load s (retryUrl (img.dataSrc.getD "") s.retryCount)
  | LazyTimer.unblur => { s with filter := some "none" }
  | LazyTimer.fadeIn =>
    { s with parent := s.parent.map (fun c => classAdd "loaded-omd" (classRemove "loading-omd" c)),
             grandParent := s.grandParent.map (classAdd "lazy-head-om"),
             classList := classAdd "loaded" (classRemove "loading" s.classList) }

/-- What the browser can do next. -/
inductive LoadEvent where
  /-- the load of `tempImage` succeeds: `onload` -/
  | loaded
  /-- the load of `tempImage` fails: `onerror` -/
  | failed
  /-- time passes; no pending timer is skipped -/
  | wait (ms : Nat)
  /-- the earliest pending timer, being due, fires -/
  | timer
  deriving DecidableEq

/-- Splits off the timer that fires next: the earliest due, and among
equals the one scheduled first. -/
def nextTimer : List (Nat × LazyTimer) → Option ((Nat × LazyTimer) × List (Nat × LazyTimer))
  | [] => none
  | t :: ts =>
    match nextTimer ts with
    | none => some (t, [])
    | some (u, rest) =>
      if t.1 ≤ u.1 then some (t, ts) else some (u, t :: rest)

/-- One step of the browser; `none` when the event cannot happen in `s`. -/
def loadStep (img : LazyImage) (cfg : LazyLoadConfig) (s : Preload) :
    LoadEvent → Option Preload
  | LoadEvent.loaded =>
    match s.loading with
    | none => none
    | some _ => some (onLoadSuccess img cfg { s with loading := none })
  | LoadEvent.failed =>
    match s.loading with
    | none => none
    | some _ => some (onLoadError cfg { s with loading := none })
  | LoadEvent.wait ms =>
    if s.timers.all (fun t => s.now + ms ≤ t.1) then some { s with now := s.now + ms } else none
  | LoadEvent.timer =>
    match nextTimer s.timers with
    | none => none
    | some (t, rest) =>
      if t.1 ≤ s.now then some (runTimer img { s with timers := rest } t.2) else none

/-- Runs a sequence of events. -/
def loadRun (img : LazyImage) (cfg : LazyLoadConfig) (s : Preload) :
    List LoadEvent → Option Preload
  | [] => some s
  | e :: es =>
    match loadStep img cfg s e with
    | none => none
    | some s1 => loadRun img cfg s1 es

/-- The addresses loaded, in order. -/
def loads : List LazyEffect → List String
  | [] => []
  | LazyEffect.load url :: rest => url :: loads rest
  | _ :: rest => loads rest

/-- The delays of the retry timers scheduled, in order. -/
def retryDelays : List LazyEffect → List Nat
  | [] => []
  | LazyEffect.setTimeout delay LazyTimer.retry :: rest => delay :: retryDelays rest
  | _ :: rest => retryDelays rest

/-- How often the error event has been dispatched. -/
def loadErrors : List LazyEffect → Nat
  | [] => 0
  | LazyEffect.dispatchEvent name _ :: rest =>
    (if name = "lazyloaderror" then 1 else 0) + loadErrors rest
  | _ :: rest => loadErrors rest

/-- The events of a run in which no load succeeds. -/
def keepsFailing : LoadEvent → Bool
  | LoadEvent.loaded => false
  | _ => true

/-- The address of the `k`-th load: the image itself, then the retries. -/
def loadUrl (src : String) : Nat → String
  | 0 => src
  | k + 1 => retryUrl src (k + 1)

/-- The failure of the load after `k` retries, followed by the delay of the
next retry and by that retry. -/
def failedLoad (cfg : LazyLoadConfig) (k : Nat) : List LoadEvent :=
  [LoadEvent.failed, LoadEvent.wait (cfg.retryDelay * (k + 1)), LoadEvent.timer]

/-- The first `n` loads fail and are retried, the first one `k` retries in. -/
def failedLoads (cfg : LazyLoadConfig) : Nat → Nat → List LoadEvent
  | _, 0 => []
  | k, n + 1 => failedLoad cfg k ++ failedLoads cfg (k + 1) n

/-- A call of `preloadImage` on an image whose loads have all failed so far;
the three phases are: a load in progress, a retry pending, the error state. -/
structure FailingLoad (cfg : LazyLoadConfig) (img : LazyImage) (src : String)
    (s : Preload) : Prop where
  count_le : s.retryCount ≤ cfg.retryAttempts
  delays : retryDelays s.log =
    (List.range s.retryCount).map (fun k => cfg.retryDelay * (k + 1))
  phase :
    (s.loading = some (loadUrl src s.retryCount) ∧ s.timers = [] ∧
      loads s.log = (List.range (s.retryCount + 1)).map (loadUrl src) ∧ loadErrors s.log = 0 ∧
      s.classList = classAdd "loading" img.classList ∧
      s.parent = img.parent.map (classAdd "loading-omd")) ∨
    (s.loading = none ∧ (∃ due, s.timers = [(due, LazyTimer.retry)]) ∧ 0 < s.retryCount ∧
      loads s.log = (List.range s.retryCount).map (loadUrl src) ∧ loadErrors s.log = 0 ∧
      s.classList = classAdd "loading" img.classList ∧
      s.parent = img.parent.map (classAdd "loading-omd")) ∨
    (s.loading = none ∧ s.timers = [] ∧ s.retryCount = cfg.retryAttempts ∧
      loads s.log = (List.range (s.retryCount + 1)).map (loadUrl src) ∧ loadErrors s.log = 1 ∧
      s.classList = classAdd "load-error" (classRemove "loading" (classAdd "loading" img.classList)) ∧
      s.parent = img.parent.map
        (fun c => classAdd "load-error-omd" (classRemove "loading-omd" (classAdd "loading-omd" c))))

/-- One point of the series: the pair `[x, y]`. -/
structure Point where
  x : Int
  y : Int
  deriving DecidableEq

/-- The argument `yrange`. -/
structure YRange where
  min : Int
  max : Int
  deriving DecidableEq

/-- The `while` loop of `generateDayWiseTimeSeries` (lines 495-502) from the
values `i`, `baseval` and `series` on; `random i` is what `Math.random()`
returns in the iteration `i`. -/
def timeSeriesLoop (random : Nat → ℚ) (count : Int) (yrange : YRange) (i : Nat) (baseval : Int)
    (series : List Point) : List Point :=
  if (i : Int) < count then
    let x := baseval
    let y := ⌊random i * ((yrange.max - yrange.min + 1 : Int) : ℚ)⌋ + yrange.min
    timeSeriesLoop random count yrange (i + 1) (baseval + 86400000) (series ++ [{ x := x, y := y }])
  else series
termination_by (count - i).toNat
decreasing_by omega

/-- Embeds `generateDayWiseTimeSeries` (lines 492-504). -/
def generateDayWiseTimeSeries (random : Nat → ℚ) (baseval count : Int) (yrange : YRange) :
    List Point :=
  timeSeriesLoop random count yrange 0 baseval []

/-- The call of line 22: `new Date('11 Feb 2017 GMT').getTime()` is
1486771200000. -/
def chartData (random : Nat → ℚ) : List Point :=
  generateDayWiseTimeSeries random 1486771200000 20 { min := 10, max := 60 }

/-- A source of random values that always yields one half. -/
def half : Nat → ℚ := fun _ => 1 / 2

/-- An image with an address and a parent, as the page writes it. -/
def photo : LazyImage :=
  { dataSrc := some "/img/a.jpg", dataSrcset := none, dataSizes := none,
    dataPlaceholder := none, classList := ["lazy-omd"], parent := some ["lazy-div"],
    grandParent := some [] }

end Plugin

/-! # The search modal (assets/front/js/global-search.js)

The fields of `GlobalSearchManager` that the embedded methods read or write,
the class lists and inline styles of the elements they edit, and the `fetch`
calls they make.  The page is taken to hold every element the constructor
looks up, as the methods use them without a test; where the source tests an
element (`resultsCount`) the model keeps the test.  A tab without a
`data-type` gives `currentFilter` the value `undefined`, which every method
embedded here treats as it treats the text `undefined`. -/

namespace GlobalSearch

open Dom

/-- A value stored in `activeFilters`: the text of an input, or the flag
written for the checkbox. -/
inductive FilterValue where
  | text (s : String)
  | flag (b : Bool)
  deriving DecidableEq

/-- The filter inputs as `collectFilters` reads them (lines 261-290): the
`value` of the element with each id (`none`: `?.value` is `undefined`, as
when the page has no such element) and `checked` for the checkbox. -/
structure FilterInputs where
  filterCategory : Option String
  filterCountry : Option String
  filterSort : Option String
  filterPriceMin : Option String
  filterPriceMax : Option String
  filterAvailability : Option String
  filterVerified : Option Bool
  filterInvestmentMin : Option String
  filterInvestmentMax : Option String
  filterROI : Option String
  filterRisk : Option String
  filterTimeline : Option String
  filterOpportunityType : Option String
  filterStatus : Option String
  deriving DecidableEq

/-- An item of `data.products`, with the fields `createProductCard` reads. -/
structure Product where
  slug : String
  name : String
  description : String
  image : String
  category : String
  deriving DecidableEq

/-- An item of `data.investments`, with the fields `createInvestmentCard`
reads. -/
structure Opportunity where
  id : String
  name : String
  description : String
  image : String
  expected_roi : String
  deriving DecidableEq

/-- The body of a search response as `displayResults` destructures it
(line 498): each key may be absent. -/
structure SearchData where
  products : Option (List Product)
  investments : Option (List Opportunity)
  total : Option Int
  deriving DecidableEq

/-- A call of `fetch` (lines 474-480): the path and the entries of the
`URLSearchParams` that make its query string. -/
structure SearchRequest where
  method : String
  path : String
  params : List (String × String)
  deriving DecidableEq

/-- The manager and the elements it edits.  `preloader`, `emptyState`,
`noResults` and `resultsContainer` are the class lists of the four state
elements; `productsSection` and `investmentsSection` are the `style.display`
of the two sections; `productsResults` and `investmentsResults` hold the
items whose cards are the content of the two lists; `resultsCount` is `none`
when the page has no such element; `input` is the value of the search
field. -/
structure Search where
  currentFilter : String
  minSearchLength : Nat
  activeFilters : List (String × FilterValue)
  input : String
  preloader : List String
  emptyState : List String
  noResults : List String
  resultsContainer : List String
  resultsCount : Option String
  productsSection : String
  investmentsSection : String
  productsCount : String
  investmentsCount : String
  productsResults : List Product
  investmentsResults : List Opportunity
  requests : List SearchRequest
  deriving DecidableEq

/-- The fields set by the constructor (lines 48-53) on a page whose
elements are in the state `page`. -/
def newManager (page : Search) : Search :=
  { page with currentFilter := "all", minSearchLength := 2, activeFilters := [] }

/-- An assignment `object[key] = value`: an existing key keeps its place. -/
def setProperty (object : List (String × FilterValue)) (key : String) (value : FilterValue) :
    List (String × FilterValue) :=
  if object.any (fun e => e.1 == key) then
    object.map (fun e => if e.1 == key then (key, value) else e)
  else object ++ [(key, value)]

/-- The statement `if (value) filters[key] = value` on the value of an input. -/
def setIfValue (filters : List (String × FilterValue)) (key : String) (value : Option String) :
    List (String × FilterValue) :=
  if present value then setProperty filters key (FilterValue.text (value.getD "")) else filters

/-- Embeds `collectFilters` (lines 257-303): the manager with `activeFilters`
assigned, and the object returned. -/
def collectFilters (s : Search) (inputs : FilterInputs) :
    Search × List (String × FilterValue) :=
  let filters : List (String × FilterValue) := []
  let filters := setIfValue filters "category" inputs.filterCategory
  let filters := setIfValue filters "country" inputs.filterCountry
  let filters := setIfValue filters "sort" inputs.filterSort
  let filters :=
    if s.currentFilter = "all" ∨ s.currentFilter = "products" then
      let filters := setIfValue filters "price_min" inputs.filterPriceMin
      let filters := setIfValue filters "price_max" inputs.filterPriceMax
      let filters := setIfValue filters "availability" inputs.filterAvailability
      if inputs.filterVerified = some true then
        setProperty filters "verified" (FilterValue.flag true)
      else filters
    else filters
  let filters :=
    if s.currentFilter = "all" ∨ s.currentFilter = "investments" then
      let filters := setIfValue filters "investment_min" inputs.filterInvestmentMin
      let filters := setIfValue filters "investment_max" inputs.filterInvestmentMax
      let filters := setIfValue filters "roi" inputs.filterROI
      let filters := setIfValue filters "risk" inputs.filterRisk
      let filters := setIfValue filters "timeline" inputs.filterTimeline
      let filters := setIfValue filters "opportunity_type" inputs.filterOpportunityType
      setIfValue filters "status" inputs.filterStatus
    else filters
  ({ s with activeFilters := filters }, filters)

/-- Embeds `hideAllStates` (lines 630-637). -/
def hideAllStates (s : Search) : Search :=
  { s with preloader := classRemove "active" s.preloader,
           emptyState := classRemove "active" s.emptyState,
           noResults := classAdd "d-none" (classRemove "active" s.noResults),
           resultsContainer := classAdd "d-none" (classRemove "active" s.resultsContainer) }

/-- Embeds `showLoading` (lines 614-617). -/
def showLoading (s : Search) : Search :=
  let s := hideAllStates s
  { s with preloader := classAdd "active" s.preloader }

/-- Embeds `showEmptyState` (lines 619-622). -/
def showEmptyState (s : Search) : Search :=
  let s := hideAllStates s
  { s with emptyState := classAdd "active" s.emptyState }

/-- Embeds `showNoResults` (lines 624-628). -/
def showNoResults (s : Search) : Search :=
  let s := hideAllStates s
  { s with noResults := classAdd "active" (classRemove "d-none" s.noResults) }

/-- The block of `displayResults` that renders the products (lines 516-527). -/
def renderProducts (s : Search) (products : List Product) : Search :=
  if s.currentFilter = "all" ∨ s.currentFilter = "products" then
    if products.length > 0 then
      { s with productsSection := "block", productsCount := toString products.length,
               productsResults := products }
    else { s with productsSection := "none" }
  else { s with productsSection := "none" }

/-- The block of `displayResults` that renders the investments (lines 529-540). -/
def renderInvestments (s : Search) (investments : List Opportunity) : Search :=
  if s.currentFilter = "all" ∨ s.currentFilter = "investments" then
    if investments.length > 0 then
      { s with investmentsSection := "block", investmentsCount := toString investments.length,
               investmentsResults := investments }
    else { s with investmentsSection := "none" }
  else { s with investmentsSection := "none" }

/-- Embeds `displayResults` (lines 497-541). -/
def displayResults (s : Search) (data : SearchData) : Search :=
  let products := data.products.getD []
  let investments := data.investments.getD []
  let total := data.total.getD 0
  if products.length = 0 ∧ investments.length = 0 then showNoResults s
  else
    let s := hideAllStates s
    let s := { s with resultsContainer := classAdd "active" (classRemove "d-none" s.resultsContainer) }
    let s := if s.resultsCount.isSome then { s with resultsCount := some (toString total) } else s
    let s := renderProducts s products
    renderInvestments s investments

/-- The text `URLSearchParams.append` stores for a filter value. -/
def valueText : FilterValue → String
  | FilterValue.text s => s
  | FilterValue.flag true => "true"
  | FilterValue.flag false => "false"

/-- Embeds `handleSearch` (lines 452-495) up to the call of `fetch`, which
is added to `requests`; `query.length` counts UTF-16 code units. -/
def handleSearch (s : Search) (query : String) : Search :=
  if (InvestmentsManager.utf16 query).length < s.minSearchLength then showEmptyState s
  else
    let s := showLoading s
    let params := [("q", query), ("type", s.currentFilter)] ++
      s.activeFilters.map (fun e => (e.1, valueText e.2))
    { s with requests := s.requests ++
        [{ method := "GET", path := "/api/search", params := params }] }

/-- How the `fetch` of `handleSearch` ends: a body of a response that is
`ok`, or a failure (a network error, a status that is not `ok`, a body that
is not JSON). -/
inductive SearchOutcome where
  | ok (data : SearchData)
  | failed
  deriving DecidableEq

/-- The rest of `handleSearch` (lines 482-494), once the `fetch` has ended. -/
def searchDone (s : Search) : SearchOutcome → Search
  | SearchOutcome.ok data => displayResults s data
  | SearchOutcome.failed => showNoResults s

/-- Embeds `handleTabChange` (lines 211-226) for a tab whose `data-type` is
`type`; the class `active` of the tabs and the panels of
`updateFilterVisibility` are outside the model. -/
def handleTabChange (s : Search) (type : String) : Search :=
  let s := { s with currentFilter := type }
  let query := InvestmentsManager.trimText s.input
  if (InvestmentsManager.utf16 query).length ≥ s.minSearchLength then handleSearch s query
  else s

/-- Which of the four state elements carry the class `active`: the
preloader, the empty state, the no-results state, the results container. -/
def activeStates (s : Search) : List Bool :=
  [hasClass "active" s.preloader, hasClass "active" s.emptyState,
   hasClass "active" s.noResults, hasClass "active" s.resultsContainer]

/-- The keys of the common filters. -/
def commonFilters : List String := ["category", "country", "sort"]

/-- The keys of the product filters. -/
def productFilters : List String := ["price_min", "price_max", "availability", "verified"]

/-- The keys of the investment filters. -/
def investmentFilters : List String :=
  ["investment_min", "investment_max", "roi", "risk", "timeline", "opportunity_type", "status"]

/-- The text of an input when it is not empty. -/
def nonEmpty (value : Option String) : Option FilterValue :=
  if present value then some (FilterValue.text (value.getD "")) else none

/-- What the input of a key contributes, in the words of the claim: its
value when that is not empty, and for `verified` the flag when the box is
checked. -/
def inputOf (inputs : FilterInputs) (key : String) : Option FilterValue :=
  if key = "category" then nonEmpty inputs.filterCategory
  else if key = "country" then nonEmpty inputs.filterCountry
  else if key = "sort" then nonEmpty inputs.filterSort
  else if key = "price_min" then nonEmpty inputs.filterPriceMin
  else if key = "price_max" then nonEmpty inputs.filterPriceMax
  else if key = "availability" then nonEmpty inputs.filterAvailability
  else if key = "verified" then
    (if inputs.filterVerified = some true then some (FilterValue.flag true) else none)
  else if key = "investment_min" then nonEmpty inputs.filterInvestmentMin
  else if key = "investment_max" then nonEmpty inputs.filterInvestmentMax
  else if key = "roi" then nonEmpty inputs.filterROI
  else if key = "risk" then nonEmpty inputs.filterRisk
  else if key = "timeline" then nonEmpty inputs.filterTimeline
  else if key = "opportunity_type" then nonEmpty inputs.filterOpportunityType
  else if key = "status" then nonEmpty inputs.filterStatus
  else none

/-- The object of the claim: a key is present when its input contributes a
value and the key is a common filter, a product filter on the tabs `all` and
`products`, or an investment filter on the tabs `all` and `investments`. -/
def expectedFilter (inputs : FilterInputs) (tab : String) (key : String) : Option FilterValue :=
  if commonFilters.contains key ∨
      (productFilters.contains key ∧ (tab = "all" ∨ tab = "products")) ∨
      (investmentFilters.contains key ∧ (tab = "all" ∨ tab = "investments")) then
    inputOf inputs key
  else none

/-- A page on which nothing is shown yet. -/
def blankPage : Search :=
  newManager
    { currentFilter := "", minSearchLength := 0, activeFilters := [], input := "",
      preloader := ["search-preloader"], emptyState := ["search-empty-state", "active"],
      noResults := ["search-no-results", "d-none"],
      resultsContainer := ["search-results", "d-none"], resultsCount := some "",
      productsSection := "", investmentsSection := "", productsCount := "",
      investmentsCount := "", productsResults := [], investmentsResults := [], requests := [] }

/-- A response that holds one investment and no product. -/
def oneInvestment : SearchData :=
  { products := some [],
    investments := some [{ id := "7", name := "Solar park", description := "", image := "",
                           expected_roi := "12" }],
    total := some 1 }

/-- The user searches `solar` on the tab `all`, moves to the tab `products`
while the request is outstanding, and the response to the first request
arrives: it holds one investment and no product. -/
def lateResponse : Search :=
  searchDone
    (handleTabChange (handleSearch { blankPage with input := "solar" } "solar") "products")
    (SearchOutcome.ok oneInvestment)

/-- A form in which the category, the minimum price, the checkbox and the
risk are set. -/
def someInputs : FilterInputs :=
  { filterCategory := some "3", filterCountry := some "", filterSort := none,
    filterPriceMin := some "0", filterPriceMax := some "", filterAvailability := some "",
    filterVerified := some true, filterInvestmentMin := some "", filterInvestmentMax := some "",
    filterROI := some "", filterRisk := some "low", filterTimeline := some "",
    filterOpportunityType := some "", filterStatus := some "" }

end GlobalSearch

/-! # The product filters (assets/front/js/products-filter.js)

`applyFilters` (lines 97-118) up to its call of `fetch`.  The query string is
kept as the entries of the `URLSearchParams` it is serialised from. -/

namespace ProductsFilter

open Dom

/-- The value of an entry of a `FormData`: a text, or the file of a file
input. -/
inductive EntryValue where
  | text (s : String)
  | file (name : String)
  deriving DecidableEq

/-- A call of `fetch` (lines 118-127): the path and the entries of the
`URLSearchParams` that make its query string. -/
structure FilterRequest where
  method : String
  pathname : String
  params : List (String × String)
  deriving DecidableEq

/-- The page as `applyFilters` reads and writes it: `form` is the entry list
of `filtersForm` (what `new FormData(this.form)` holds, in form order),
`sortSelect` the value of that element (`none`: the page has none),
`pathname` is `window.location.pathname`; `opacity` and `pointerEvents` are
the inline styles of `productsContainer` and `loadingShimmer` is the class
list of that element (`none`: the page has no such element). -/
structure FilterPage where
  form : List (String × EntryValue)
  sortSelect : Option String
  pathname : String
  productsContainer : Option (String × String)
  loadingShimmer : Option (List String)
  requests : List FilterRequest
  deriving DecidableEq

/-- Embeds `showLoading` (lines 151-159). -/
def showLoading (s : FilterPage) : FilterPage :=
  { s with productsContainer := s.productsContainer.map (fun _ => ("0.5", "none")),
           loadingShimmer := s.loadingShimmer.map (classRemove "d-none") }

/-- The method `FormData.set` after the first entry of that name has been
looked for: that entry is replaced and the later ones of the name removed. -/
def replaceFirst (name : String) (value : EntryValue) :
    List (String × EntryValue) → List (String × EntryValue)
  | [] => []
  | e :: es =>
    if e.1 = name then (name, value) :: es.filter (fun x => x.1 != name)
    else e :: replaceFirst name value es

/-- The method `FormData.set(name, value)`: the entry is appended when the
name is new. -/
def formDataSet (entries : List (String × EntryValue)) (name : String) (value : EntryValue) :
    List (String × EntryValue) :=
  if entries.any (fun e => e.1 == name) then replaceFirst name value entries
  else entries ++ [(name, value)]

/-- The test `if (value)` of line 112: a file is an object. -/
def truthy : EntryValue → Bool
  | EntryValue.text s => s != ""
  | EntryValue.file _ => true

/-- The text `URLSearchParams.append` stores for the value of an entry. -/
def entryText : EntryValue → String
  | EntryValue.text s => s
  | EntryValue.file _ => "[object File]"

/-- The loop of lines 111-115 from the entries still to visit and the
`params` built so far. -/
def appendEntries : List (String × EntryValue) → List (String × String) → List (String × String)
  | [], params => params
  | (key, value) :: rest, params =>
    if truthy value then appendEntries rest (params ++ [(key, entryText value)])
    else appendEntries rest params

/-- Embeds `applyFilters` (lines 97-127) up to the call of `fetch`, which is
added to `requests`. -/
def applyFilters (s : FilterPage) : FilterPage :=
  let s := showLoading s
  let formData := s.form
  let formData :=
    match s.sortSelect with
    | some value => formDataSet formData "sort" (EntryValue.text value)
    | none => formData
  let params := appendEntries formData []
  { s with requests := s.requests ++
      [{ method := "GET", pathname := s.pathname, params := params }] }

/-- The entries of the form that the claim expects in the query string:
those with a value that is not empty, as texts. -/
def nonEmptyEntries (entries : List (String × EntryValue)) : List (String × String) :=
  (entries.filter (fun e => truthy e.2)).map (fun e => (e.1, entryText e.2))

/-- A filter form with a search text, an empty category, a price and its
own sort field. -/
def shopPage : FilterPage :=
  { form := [("search", EntryValue.text "lamp"), ("category", EntryValue.text ""),
             ("sort", EntryValue.text "latest"), ("price_max", EntryValue.text "90")],
    sortSelect := some "price_asc", pathname := "/products",
    productsContainer := some ("1", "auto"), loadingShimmer := some ["shimmer", "d-none"],
    requests := [] }

end ProductsFilter

namespace InvestmentsManager

/-! ## Lemmas on the handlers -/

theorem run_append (cfg : Config) : ∀ (es fs : List Event) (s : State),
    run cfg s (es ++ fs) = (run cfg s es).bind (fun s1 => run cfg s1 fs)
  | [], _, _ => rfl
  | e :: es, fs, s => by
    simp only [List.cons_append, run]
    cases step cfg s e with
    | none => rfl
    | some s1 => exact run_append cfg es fs s1

theorem handleError_retryCount_le (cfg : Config) (s : State) (status : String) (c : JsVal)
    (h : s.retryCount ≤ cfg.maxRetries) :
    (handleError cfg s status c).retryCount ≤ cfg.maxRetries := by
  unfold handleError
  dsimp only
  split
  · simp only [setTimeout, showRetryMessage, html]
    omega
  · simp only [hideShimmerLoader, setTimeout]
    exact h

theorem loadInvestments_retryCount (cfg : Config) (s : State) (c : JsVal) :
    (loadInvestments cfg s c).retryCount = 0 := by
  simp [loadInvestments, fetchInvestments, showShimmerLoader, setTimeout]

theorem tabClick_retryCount_le (cfg : Config) (s : State) (b : Nat) (c : JsVal)
    (h : s.retryCount ≤ cfg.maxRetries) :
    (tabClick cfg s b c).retryCount ≤ cfg.maxRetries := by
  unfold tabClick
  split
  · exact h
  · split
    · exact h
    · rw [loadInvestments_retryCount]; exact Nat.zero_le _

theorem repeatHandler_inv (P : State → Prop) (f : State → State)
    (hf : ∀ s, P s → P (f s)) : ∀ (n : Nat) (s : State), P s → P (repeatHandler f n s)
  | 0, _, h => h
  | n + 1, s, h => repeatHandler_inv P f hf n (f s) (hf s h)

theorem runTimer_retryCount_le (cfg : Config) (s : State) (t : Timer)
    (h : s.retryCount ≤ cfg.maxRetries) :
    (runTimer cfg s t).retryCount ≤ cfg.maxRetries := by
  cases t with
  | minimumLoading xs =>
    simp only [runTimer]
    split
    · exact h
    · exact Nat.zero_le _
  | retry c => simpa [runTimer, fetchInvestments] using h
  | shimmer => simpa [runTimer, html] using h
  | hideShimmer cb =>
    cases cb <;>
      simpa [runTimer, runCallback, renderEmptyState, renderErrorState, html, setTimeout] using h
  | bindViewAll =>
    simp only [runTimer]
    split <;> exact h
  | bindRetry =>
    simp only [runTimer]
    split <;> exact h

theorem handleSuccess_retryCount_le (cfg : Config) (s : State) (r : Option Response)
    (h : s.retryCount ≤ cfg.maxRetries) :
    (handleSuccess cfg s r).retryCount ≤ cfg.maxRetries := by
  unfold handleSuccess
  split
  · exact handleError_retryCount_le cfg s _ _ h
  · exact h

theorem step_retryCount_le (cfg : Config) (s s1 : State) (e : Event)
    (h : s.retryCount ≤ cfg.maxRetries) (hs : step cfg s e = some s1) :
    s1.retryCount ≤ cfg.maxRetries := by
  cases e with
  | tab b =>
    simp only [step] at hs
    split at hs
    · cases hs
    · cases hs
      exact tabClick_retryCount_le cfg s b _ h
  | ajax handle outcome =>
    simp only [step] at hs
    split at hs
    · cases hs
    · cases outcome with
      | success r =>
        cases hs
        exact handleSuccess_retryCount_le cfg _ r h
      | error st =>
        cases hs
        simp only [onComplete, onError]
        split
        · exact handleError_retryCount_le cfg _ st _ h
        · exact h
  | wait ms =>
    simp only [step] at hs
    split at hs
    · cases hs; exact h
    · cases hs
  | timer =>
    simp only [step] at hs
    split at hs
    · cases hs
    · split at hs
      · cases hs
        exact runTimer_retryCount_le cfg _ _ h
      · cases hs
  | tryAgain =>
    simp only [step] at hs
    split at hs
    · cases hs
      apply repeatHandler_inv (fun s => s.retryCount ≤ cfg.maxRetries) _ _ _ _ h
      intro s2 _
      show (retryClick cfg s2).retryCount ≤ cfg.maxRetries
      rw [retryClick, loadInvestments_retryCount]; exact Nat.zero_le _
    · cases hs
  | viewAll =>
    simp only [step] at hs
    split at hs
    · cases hs
      apply repeatHandler_inv (fun s => s.retryCount ≤ cfg.maxRetries) _ _ _ _ h
      intro s2 h2
      show (viewAllClick cfg s2).retryCount ≤ cfg.maxRetries
      unfold viewAllClick
      split
      · exact h2
      · exact tabClick_retryCount_le cfg s2 0 _ h2
    · cases hs

theorem run_retryCount_le (cfg : Config) : ∀ (es : List Event) (s s1 : State),
    s.retryCount ≤ cfg.maxRetries → run cfg s es = some s1 → s1.retryCount ≤ cfg.maxRetries
  | [], s, s1, h, hr => by
    simp only [run] at hr
    cases hr
    exact h
  | e :: es, s, s1, h, hr => by
    simp only [run] at hr
    split at hr
    · cases hr
    · rename_i s2 hs
      exact run_retryCount_le cfg es s2 s1 (step_retryCount_le cfg s s2 e h hs) hr

theorem failedAttempt_run (cfg : Config) (s : State) (c : JsVal) (h : Nat) (status : String)
    (ht : s.timers = []) (hf : s.inFlight = [requestFor cfg h c]) (hn : s.nextHandle = h + 1)
    (hk : s.retryCount < cfg.maxRetries) (h1 : status ≠ "timeout") (h2 : status ≠ "abort") :
    run cfg s (failedAttempt cfg h status) =
      some { s with
        isLoading := true
        retryCount := s.retryCount + 1
        currentRequest := some (h + 1)
        now := s.now + cfg.retryDelay
        nextHandle := h + 2
        inFlight := [requestFor cfg (h + 1) c]
        timers := []
        container := View.retryMessage (s.retryCount + 1) cfg.maxRetries
        log := s.log ++ [Effect.consoleError status,
          Effect.html (View.retryMessage (s.retryCount + 1) cfg.maxRetries),
          Effect.setTimeout cfg.retryDelay (Timer.retry c), Effect.consoleLog (s.retryCount + 1),
          Effect.ajax (requestFor cfg (h + 1) c)] } := by
  obtain ⟨isLoading, currentCategory, retryCount, currentRequest, now, nextHandle, inFlight,
    timers, container, activeButton, log⟩ := s
  simp only at ht hf hn hk
  subst ht hf hn
  simp [failedAttempt, run, step, findRequest, requestFor, removeRequest, onComplete, onError,
    handleError, h1, h2, hk, showRetryMessage, html, setTimeout, popTimer, runTimer,
    fetchInvestments]

theorem failedAttempts_run (cfg : Config) (c : JsVal) : ∀ (statuses : List String) (s : State)
    (h : Nat), s.timers = [] → s.inFlight = [requestFor cfg h c] → s.nextHandle = h + 1 →
    s.retryCount + statuses.length ≤ cfg.maxRetries →
    (∀ st ∈ statuses, st ≠ "timeout" ∧ st ≠ "abort") →
    ∃ s1, run cfg s (failedAttempts cfg h statuses) = some s1 ∧ s1.timers = [] ∧
      s1.inFlight = [requestFor cfg (h + statuses.length) c] ∧
      s1.nextHandle = h + statuses.length + 1 ∧
      s1.retryCount = s.retryCount + statuses.length ∧
      s1.log = s.log ++ retryLog cfg c h s.retryCount statuses ∧
      s1.currentCategory = s.currentCategory ∧
      s1.now = s.now + statuses.length * cfg.retryDelay
  | [], s, h, ht, hf, hn, _, _ => by
    refine ⟨s, rfl, ht, ?_, ?_, ?_, ?_, rfl, ?_⟩
    · simpa using hf
    · simpa using hn
    · simp
    · simp [retryLog]
    · simp
  | st :: rest, s, h, ht, hf, hn, hk, hs => by
    have hst := hs st (List.mem_cons_self _ _)
    have hlt : s.retryCount < cfg.maxRetries := by
      simp only [List.length_cons] at hk
      omega
    obtain ⟨s2, hrun, g1, g2, g3, g4, g5, g6, g7⟩ :
        ∃ s2, run cfg s (failedAttempt cfg h st) = some s2 ∧ s2.timers = [] ∧
          s2.inFlight = [requestFor cfg (h + 1) c] ∧ s2.nextHandle = h + 1 + 1 ∧
          s2.retryCount = s.retryCount + 1 ∧
          s2.log = s.log ++ retryLog cfg c h s.retryCount [st] ∧
          s2.currentCategory = s.currentCategory ∧ s2.now = s.now + cfg.retryDelay :=
      ⟨_, failedAttempt_run cfg s c h st ht hf hn hlt hst.1 hst.2, rfl, rfl, rfl, rfl, rfl, rfl,
        rfl⟩
    obtain ⟨s1, h1, h2, h3, h4, h5, h6, h7, h8⟩ :=
      failedAttempts_run cfg c rest s2 (h + 1) g1 g2 g3
        (by simp only [List.length_cons] at hk; omega)
        (fun x hx => hs x (List.mem_cons_of_mem _ hx))
    refine ⟨s1, ?_, h2, ?_, ?_, ?_, ?_, ?_, ?_⟩
    · simp only [failedAttempts, run_append, hrun, Option.bind]
      exact h1
    · rw [h3]; simp only [List.length_cons]; congr 2; omega
    · rw [h4]; simp only [List.length_cons]; omega
    · rw [h5, g4]; simp only [List.length_cons]; omega
    · rw [h6, g5, g4]; simp [retryLog]
    · rw [h7, g6]
    · rw [h8, g7]; simp only [List.length_cons]; ring

theorem lastAttempt_run (cfg : Config) (s : State) (c : JsVal) (h : Nat) (status : String)
    (ht : s.timers = []) (hf : s.inFlight = [requestFor cfg h c])
    (hk : s.retryCount = cfg.maxRetries) (h2 : status ≠ "abort") :
    run cfg s [Event.ajax h (Outcome.error status), Event.wait 400, Event.timer] =
      some { s with
        isLoading := false
        currentRequest := none
        now := s.now + 400
        inFlight := []
        timers := [(s.now + 400 + 100, Timer.bindRetry)]
        container := View.error 0
        log := s.log ++ [Effect.consoleError status,
          Effect.setTimeout 400 (Timer.hideShimmer Callback.renderErrorState),
          Effect.html (View.error 0), Effect.setTimeout 100 Timer.bindRetry] } := by
  obtain ⟨isLoading, currentCategory, retryCount, currentRequest, now, nextHandle, inFlight,
    timers, container, activeButton, log⟩ := s
  simp only at ht hf hk
  subst ht hf hk
  simp [run, step, findRequest, requestFor, removeRequest, onComplete, onError,
    handleError, h2, html, setTimeout, popTimer, runTimer, hideShimmerLoader, runCallback,
    renderErrorState]

theorem loadInvestments_run (cfg : Config) (s : State) (c : JsVal)
    (ht : s.timers = []) (hf : s.inFlight = []) :
    run cfg (loadInvestments cfg s c) [Event.wait 300, Event.timer] =
      some { s with
        isLoading := true
        currentCategory := c
        retryCount := 0
        currentRequest := some s.nextHandle
        now := s.now + 300
        nextHandle := s.nextHandle + 1
        inFlight := [requestFor cfg s.nextHandle c]
        timers := []
        container := View.shimmer
        log := s.log ++ [Effect.setTimeout 300 Timer.shimmer,
          Effect.ajax (requestFor cfg s.nextHandle c), Effect.html View.shimmer] } := by
  obtain ⟨isLoading, currentCategory, retryCount, currentRequest, now, nextHandle, inFlight,
    timers, container, activeButton, log⟩ := s
  simp only at ht hf
  subst ht hf
  cases currentRequest <;>
    simp [loadInvestments, abort, findRequest, run, step, showShimmerLoader, setTimeout,
      fetchInvestments, popTimer, runTimer, html]

theorem timeouts_append (xs ys : List Effect) :
    timeouts (xs ++ ys) = timeouts xs ++ timeouts ys := by
  induction xs with
  | nil => rfl
  | cons x xs ih => cases x <;> simp [timeouts, ih]

theorem fetches_append (xs ys : List Effect) :
    fetches (xs ++ ys) = fetches xs ++ fetches ys := by
  induction xs with
  | nil => rfl
  | cons x xs ih => cases x <;> simp [fetches, ih]

theorem renders_append (xs ys : List Effect) :
    renders (xs ++ ys) = renders xs ++ renders ys := by
  induction xs with
  | nil => rfl
  | cons x xs ih => cases x <;> simp [renders, ih]

theorem timeouts_retryLog (cfg : Config) (c : JsVal) : ∀ (statuses : List String) (h k : Nat),
    timeouts (retryLog cfg c h k statuses) =
      List.replicate statuses.length (cfg.retryDelay, Timer.retry c)
  | [], _, _ => rfl
  | _ :: rest, h, k => by
    simp [retryLog, timeouts, timeouts_retryLog cfg c rest (h + 1) (k + 1), List.replicate_succ]

theorem fetches_retryLog (cfg : Config) (c : JsVal) : ∀ (statuses : List String) (h k : Nat),
    fetches (retryLog cfg c h k statuses) =
      (List.range statuses.length).map (fun i => requestFor cfg (h + 1 + i) c)
  | [], _, _ => rfl
  | _ :: rest, h, k => by
    have ih := fetches_retryLog cfg c rest (h + 1) (k + 1)
    simp [retryLog, fetches, ih, List.range_succ_eq_map]
    intro i _
    rw [show h + 1 + 1 + i = h + 1 + (i + 1) by omega]

theorem renders_retryLog (cfg : Config) (c : JsVal) : ∀ (statuses : List String) (h k : Nat),
    renders (retryLog cfg c h k statuses) =
      (List.range statuses.length).map (fun i => View.retryMessage (k + 1 + i) cfg.maxRetries)
  | [], _, _ => rfl
  | _ :: rest, h, k => by
    have ih := renders_retryLog cfg c rest (h + 1) (k + 1)
    simp [retryLog, renders, ih, List.range_succ_eq_map]
    intro i _
    omega

theorem filter_handle_of_find_none (xs : List Request) (h : Nat)
    (hf : xs.find? (fun r => r.handle == h) = none) :
    xs.filter (fun r => r.handle != h) = xs := by
  rw [List.filter_eq_self]
  intro r hr
  have := List.find?_eq_none.mp hf r hr
  simpa [bne] using this

theorem abort_fields (cfg : Config) (s : State) (h : Nat) :
    abort cfg s h =
      { s with
        currentRequest := if (findRequest s h).isSome then none else s.currentRequest
        inFlight := s.inFlight.filter (fun r => r.handle != h)
        log := s.log ++ (if (findRequest s h).isSome then [Effect.abort h] else []) } := by
  unfold abort
  cases hf : findRequest s h with
  | none =>
    simp only [Option.isSome_none, Bool.false_eq_true, if_false, List.append_nil]
    rw [filter_handle_of_find_none s.inFlight h hf]
  | some r =>
    simp [onComplete, onError, removeRequest]

theorem canonical_failures_run (cfg : Config) (s0 : State) (c : JsVal)
    (statuses : List String) (last : String)
    (ht : s0.timers = []) (hf : s0.inFlight = []) (hlen : statuses.length = cfg.maxRetries)
    (hs : ∀ st ∈ statuses, st ≠ "timeout" ∧ st ≠ "abort")
    (hl : last ≠ "timeout" ∧ last ≠ "abort") :
    ∃ s1 s2 delta,
      run cfg (loadInvestments cfg s0 c)
        ([Event.wait 300, Event.timer] ++ failedAttempts cfg s0.nextHandle statuses) = some s1 ∧
      s1.log = s0.log ++ delta ∧
      timeouts delta =
        (300, Timer.shimmer) :: List.replicate cfg.maxRetries (cfg.retryDelay, Timer.retry c) ∧
      fetches delta =
        (List.range (cfg.maxRetries + 1)).map (fun i => requestFor cfg (s0.nextHandle + i) c) ∧
      renders delta = View.shimmer ::
        (List.range cfg.maxRetries).map (fun i => View.retryMessage (i + 1) cfg.maxRetries) ∧
      s1.retryCount = cfg.maxRetries ∧
      run cfg s1 [Event.ajax (s0.nextHandle + cfg.maxRetries) (Outcome.error last),
        Event.wait 400, Event.timer] = some s2 ∧
      s2.log = s1.log ++ [Effect.consoleError last,
        Effect.setTimeout 400 (Timer.hideShimmer Callback.renderErrorState),
        Effect.html (View.error 0), Effect.setTimeout 100 Timer.bindRetry] ∧
      s2.container = View.error 0 ∧ s2.retryCount = cfg.maxRetries ∧ s2.isLoading = false := by
  have h0 := loadInvestments_run cfg s0 c ht hf
  obtain ⟨s1, h1, h2, h3, h4, h5, h6, -, -⟩ :=
    failedAttempts_run cfg c statuses _ s0.nextHandle
      (show ({ s0 with
        isLoading := true
        currentCategory := c
        retryCount := 0
        currentRequest := some s0.nextHandle
        now := s0.now + 300
        nextHandle := s0.nextHandle + 1
        inFlight := [requestFor cfg s0.nextHandle c]
        timers := []
        container := View.shimmer
        log := s0.log ++ [Effect.setTimeout 300 Timer.shimmer,
          Effect.ajax (requestFor cfg s0.nextHandle c), Effect.html View.shimmer] }
          : State).timers = [] from rfl) rfl rfl
      (by show 0 + statuses.length ≤ cfg.maxRetries; omega) hs
  have hrc : s1.retryCount = cfg.maxRetries := by
    rw [h5]; show 0 + statuses.length = cfg.maxRetries; omega
  rw [hlen] at h3
  have h7 := lastAttempt_run cfg s1 c (s0.nextHandle + cfg.maxRetries) last h2 h3 hrc hl.2
  refine ⟨s1, _, [Effect.setTimeout 300 Timer.shimmer,
    Effect.ajax (requestFor cfg s0.nextHandle c), Effect.html View.shimmer] ++
    retryLog cfg c s0.nextHandle 0 statuses, ?_, ?_, ?_, ?_, ?_, hrc, h7, rfl, rfl, hrc, rfl⟩
  · rw [run_append, h0]
    exact h1
  · rw [h6]
    show s0.log ++ _ ++ _ = s0.log ++ _
    rw [List.append_assoc]
  · rw [timeouts_append, timeouts_retryLog, hlen]
    rfl
  · rw [fetches_append, fetches_retryLog, hlen, List.range_succ_eq_map]
    simp [fetches, Function.comp, Nat.add_assoc, Nat.add_comm 1]
  · rw [renders_append, renders_retryLog, hlen]
    simp [renders, Nat.add_comm]


/-! ## Every schedule of failures -/

theorem failures_append (xs ys : List Effect) :
    failures (xs ++ ys) = failures xs + failures ys := by
  induction xs with
  | nil => simp [failures]
  | cons x xs ih =>
    cases x <;> simp [failures, ih]
    omega

theorem popTimer_perm : ∀ (ts : List (Nat × Timer)) (t : Nat × Timer) (rest : List (Nat × Timer)),
    popTimer ts = some (t, rest) → ts.Perm (t :: rest)
  | [], _, _, h => by simp [popTimer] at h
  | x :: xs, t, rest, h => by
    simp only [popTimer] at h
    split at h
    · cases h
      rename_i hn
      cases xs with
      | nil => exact List.Perm.refl _
      | cons y ys =>
        simp only [popTimer] at hn
        split at hn
        · cases hn
        · split at hn <;> cases hn
    · rename_i u rest1 hu
      have ih := popTimer_perm xs u rest1 hu
      split at h
      · cases h
        exact List.Perm.refl _
      · cases h
        exact (List.Perm.cons x ih).trans (List.Perm.swap _ _ _)

theorem RetryRun.start (cfg : Config) (s0 : State) (c : JsVal)
    (ht : s0.timers = []) (hf : s0.inFlight = []) :
    RetryRun cfg s0 c [Effect.setTimeout 300 Timer.shimmer,
      Effect.ajax (requestFor cfg s0.nextHandle c)] (loadInvestments cfg s0 c) := by
  have hl : loadInvestments cfg s0 c =
      { s0 with
        isLoading := true
        currentCategory := c
        retryCount := 0
        currentRequest := some s0.nextHandle
        nextHandle := s0.nextHandle + 1
        inFlight := [requestFor cfg s0.nextHandle c]
        timers := [(s0.now + 300, Timer.shimmer)]
        log := s0.log ++ [Effect.setTimeout 300 Timer.shimmer,
          Effect.ajax (requestFor cfg s0.nextHandle c)] } := by
    cases hc : s0.currentRequest <;>
      simp [loadInvestments, hc, abort, findRequest, hf, ht, showShimmerLoader, setTimeout,
        fetchInvestments]
  rw [hl]
  refine ⟨rfl, ?_, Nat.zero_le _, rfl, rfl, ?_, Or.inl ⟨rfl, rfl, rfl, rfl, rfl⟩, rfl⟩
  · intro t htm
    simp only [List.mem_singleton] at htm
    subst htm
    exact Or.inl rfl
  · rfl


theorem RetryRun.wait (cfg : Config) (s0 s : State) (c : JsVal) (delta : List Effect)
    (inv : RetryRun cfg s0 c delta s) (ms : Nat) :
    RetryRun cfg s0 c delta { s with now := s.now + ms } :=
  ⟨inv.log_eq, inv.timers_kind, inv.count_le, inv.retries, inv.handle, inv.fetched, inv.phase,
    inv.messages⟩

theorem errorViewsScheduled_append (xs ys : List Effect) :
    errorViewsScheduled (xs ++ ys) = errorViewsScheduled xs + errorViewsScheduled ys := by
  simp only [errorViewsScheduled, timeouts_append, List.countP_append]

theorem retryMessages_append (xs ys : List Effect) :
    retryMessages (xs ++ ys) = retryMessages xs ++ retryMessages ys := by
  simp only [retryMessages, renders_append, List.filter_append]

theorem retriesScheduled_append (xs ys : List Effect) :
    retriesScheduled (xs ++ ys) = retriesScheduled xs ++ retriesScheduled ys := by
  simp only [retriesScheduled, timeouts_append, List.filter_append]

theorem RetryRun.fail (cfg : Config) (s0 s s1 : State) (c : JsVal) (delta : List Effect)
    (inv : RetryRun cfg s0 c delta s) (h : Nat) (status : String)
    (h1 : status ≠ "timeout") (h2 : status ≠ "abort")
    (hs : step cfg s (Event.ajax h (Outcome.error status)) = some s1) :
    ∃ delta1, RetryRun cfg s0 c delta1 s1 := by
  rcases inv.phase with ⟨hin, hcnt, hlen, hfail, herr⟩ | ⟨hin, -⟩ | ⟨hin, -⟩
  · by_cases hh : s0.nextHandle + s.retryCount = h
    · have hfind : findRequest s h = some (requestFor cfg (s0.nextHandle + s.retryCount) c) := by
        simp [findRequest, hin, requestFor, hh]
      simp only [step, hfind, Option.some.injEq] at hs
      subst hs
      have hrm : List.filter (fun r => r.handle != h)
          [requestFor cfg (s0.nextHandle + s.retryCount) c] = [] := by
        simp [requestFor, hh]
      have hcat : (requestFor cfg (s0.nextHandle + s.retryCount) c).categoryId = c := rfl
      rw [hcat]
      by_cases hk : s.retryCount < cfg.maxRetries
      · have hres : onComplete (onError cfg (removeRequest s h) status c) =
            { s with
              isLoading := false
              retryCount := s.retryCount + 1
              currentRequest := none
              inFlight := []
              timers := s.timers ++ [(s.now + cfg.retryDelay, Timer.retry c)]
              container := View.retryMessage (s.retryCount + 1) cfg.maxRetries
              log := s.log ++ [Effect.consoleError status,
                Effect.html (View.retryMessage (s.retryCount + 1) cfg.maxRetries),
                Effect.setTimeout cfg.retryDelay (Timer.retry c)] } := by
          simp [onComplete, onError, h2, handleError, removeRequest, hk, h1, showRetryMessage,
            html, setTimeout, hin, hrm]
        rw [hres]
        refine ⟨delta ++ [Effect.consoleError status,
          Effect.html (View.retryMessage (s.retryCount + 1) cfg.maxRetries),
          Effect.setTimeout cfg.retryDelay (Timer.retry c)], ?_, ?_, ?_, ?_, ?_, ?_, ?_, ?_⟩
        · show s.log ++ _ = s0.log ++ (delta ++ _)
          rw [inv.log_eq, List.append_assoc]
        · intro t htm
          rcases List.mem_append.mp htm with htm | htm
          · exact inv.timers_kind t htm
          · rw [List.mem_singleton.mp htm]
            exact Or.inr (Or.inl rfl)
        · exact hk
        · rw [retriesScheduled_append, inv.retries]
          show _ ++ [_] = List.replicate (s.retryCount + 1) _
          rw [List.replicate_succ']
        · show s.nextHandle = _
          simp only [fetches_append, fetches, List.append_nil]
          exact inv.handle
        · simp only [fetches_append, fetches, List.append_nil]
          exact inv.fetched
        · refine Or.inr (Or.inl ⟨rfl, ?_, ?_, ?_, ?_⟩)
          · show List.countP _ (s.timers ++ [_]) = 1
            rw [List.countP_append, hcnt]
            rfl
          · simp only [fetches_append, fetches, List.append_nil]
            exact hlen
          · rw [failures_append, hfail]
            rfl
          · rw [errorViewsScheduled_append, herr]
            rfl
        · rw [retryMessages_append, inv.messages]
          show _ ++ [View.retryMessage (s.retryCount + 1) cfg.maxRetries] =
            List.map _ (List.range (s.retryCount + 1))
          rw [List.range_succ, List.map_append]
          rfl
      · have hmax : s.retryCount = cfg.maxRetries :=
          Nat.le_antisymm inv.count_le (Nat.le_of_not_lt hk)
        have hres : onComplete (onError cfg (removeRequest s h) status c) =
            { s with
              isLoading := false
              currentRequest := none
              inFlight := []
              timers := s.timers ++ [(s.now + 400, Timer.hideShimmer Callback.renderErrorState)]
              log := s.log ++ [Effect.consoleError status,
                Effect.setTimeout 400 (Timer.hideShimmer Callback.renderErrorState)] } := by
          simp [onComplete, onError, h2, handleError, removeRequest, hk, hideShimmerLoader,
            setTimeout, hin, hrm]
        rw [hres]
        refine ⟨delta ++ [Effect.consoleError status,
          Effect.setTimeout 400 (Timer.hideShimmer Callback.renderErrorState)],
          ?_, ?_, ?_, ?_, ?_, ?_, ?_, ?_⟩
        · show s.log ++ _ = s0.log ++ (delta ++ _)
          rw [inv.log_eq, List.append_assoc]
        · intro t htm
          rcases List.mem_append.mp htm with htm | htm
          · exact inv.timers_kind t htm
          · rw [List.mem_singleton.mp htm]
            exact Or.inr (Or.inr (Or.inl rfl))
        · exact inv.count_le
        · rw [retriesScheduled_append, inv.retries]
          show _ ++ [] = _
          rw [List.append_nil]
        · show s.nextHandle = _
          simp only [fetches_append, fetches, List.append_nil]
          exact inv.handle
        · simp only [fetches_append, fetches, List.append_nil]
          exact inv.fetched
        · refine Or.inr (Or.inr ⟨rfl, ?_, ?_, ?_, ?_, hmax⟩)
          · show List.countP _ (s.timers ++ [_]) = 0
            rw [List.countP_append, hcnt]
            rfl
          · simp only [fetches_append, fetches, List.append_nil]
            exact hlen
          · rw [failures_append, hfail]
            rfl
          · rw [errorViewsScheduled_append, herr]
            rfl
        · rw [retryMessages_append, inv.messages]
          exact List.append_nil _
    · simp [step, findRequest, hin, requestFor, hh] at hs
  · simp [step, findRequest, hin] at hs
  · simp [step, findRequest, hin] at hs

theorem RetryRun.frame (cfg : Config) (s0 s s1 : State) (c : JsVal) (delta extra : List Effect)
    (inv : RetryRun cfg s0 c delta s)
    (hrc : s1.retryCount = s.retryCount) (hin : s1.inFlight = s.inFlight)
    (hnh : s1.nextHandle = s.nextHandle) (hlog : s1.log = s.log ++ extra)
    (hk : ∀ t ∈ s1.timers, t.2 = Timer.shimmer ∨ t.2 = Timer.retry c ∨
      t.2 = Timer.hideShimmer Callback.renderErrorState ∨ t.2 = Timer.bindRetry)
    (hcnt : s1.timers.countP (fun t => isRetry t.2) = s.timers.countP (fun t => isRetry t.2))
    (hf : fetches extra = []) (hr : retriesScheduled extra = [])
    (hfl : failures extra = 0) (he : errorViewsScheduled extra = 0)
    (hm : retryMessages extra = []) :
    RetryRun cfg s0 c (delta ++ extra) s1 := by
  have hfd : fetches (delta ++ extra) = fetches delta := by
    rw [fetches_append, hf, List.append_nil]
  have hfa : failures (delta ++ extra) = failures delta := by
    rw [failures_append, hfl, Nat.add_zero]
  have hev : errorViewsScheduled (delta ++ extra) = errorViewsScheduled delta := by
    rw [errorViewsScheduled_append, he, Nat.add_zero]
  refine ⟨?_, hk, ?_, ?_, ?_, ?_, ?_, ?_⟩
  · rw [hlog, inv.log_eq, List.append_assoc]
  · rw [hrc]; exact inv.count_le
  · rw [retriesScheduled_append, hr, List.append_nil, hrc]; exact inv.retries
  · rw [hfd, hnh]; exact inv.handle
  · rw [hfd]; exact inv.fetched
  · rw [hfd, hfa, hev, hrc, hin, hcnt]; exact inv.phase
  · rw [retryMessages_append, hm, List.append_nil, hrc]; exact inv.messages

theorem RetryRun.timer (cfg : Config) (s0 s s1 : State) (c : JsVal) (delta : List Effect)
    (inv : RetryRun cfg s0 c delta s) (hs : step cfg s Event.timer = some s1) :
    ∃ delta1, RetryRun cfg s0 c delta1 s1 := by
  simp only [step] at hs
  cases hp : popTimer s.timers with
  | none =>
    rw [hp] at hs
    cases hs
  | some p =>
    obtain ⟨⟨due, tm⟩, rest⟩ := p
    rw [hp] at hs
    simp only at hs
    split at hs
    · simp only [Option.some.injEq] at hs
      subst hs
      have hperm := popTimer_perm _ _ _ hp
      have hmem : (due, tm) ∈ s.timers := hperm.symm.subset (List.mem_cons_self _ _)
      have hrest : ∀ x ∈ rest, x ∈ s.timers :=
        fun x hx => hperm.symm.subset (List.mem_cons_of_mem _ hx)
      have hcount : s.timers.countP (fun t => isRetry t.2) =
          ((due, tm) :: rest).countP (fun t => isRetry t.2) := hperm.countP_eq _
      have hkr : ∀ t ∈ rest, t.2 = Timer.shimmer ∨ t.2 = Timer.retry c ∨
          t.2 = Timer.hideShimmer Callback.renderErrorState ∨ t.2 = Timer.bindRetry :=
        fun t ht => inv.timers_kind t (hrest t ht)
      rcases inv.timers_kind _ hmem with hk | hk | hk | hk <;> simp only at hk <;> subst hk
      · refine ⟨_, RetryRun.frame cfg s0 s _ c delta [Effect.html View.shimmer] inv rfl rfl rfl
          rfl hkr ?_ rfl rfl rfl rfl rfl⟩
        rw [hcount]
        rfl
      · have hc1 : rest.countP (fun t => isRetry t.2) + 1 =
            s.timers.countP (fun t => isRetry t.2) := by
          rw [hcount, List.countP_cons]
          rfl
        rcases inv.phase with ⟨-, hcnt, -⟩ | ⟨hin, hcnt, hlen, hfail, herr⟩ | ⟨-, hcnt, -⟩
        · omega
        · have hnh : s.nextHandle = s0.nextHandle + s.retryCount := by
            rw [inv.handle, hlen]
          refine ⟨delta ++ [Effect.consoleLog s.retryCount,
            Effect.ajax (requestFor cfg s.nextHandle c)], ?_, hkr, inv.count_le, ?_, ?_, ?_, ?_,
            ?_⟩
          · simp [runTimer, fetchInvestments, inv.log_eq]
          · rw [retriesScheduled_append, inv.retries]
            exact List.append_nil _
          · simp only [runTimer, fetchInvestments, fetches_append, fetches, List.length_append,
              List.length_singleton]
            rw [inv.handle]
            omega
          · simp only [fetches_append, fetches, List.length_append, List.length_singleton,
              List.range_succ, List.map_append, List.map_cons, List.map_nil]
            rw [← inv.fetched, inv.handle]
          · refine Or.inl ⟨?_, ?_, ?_, ?_, ?_⟩
            · simp [runTimer, fetchInvestments, hin, hnh]
            · show rest.countP _ = 0
              omega
            · simp only [fetches_append, fetches, List.length_append, List.length_singleton,
                hlen]
              rfl
            · rw [failures_append, hfail]
              rfl
            · rw [errorViewsScheduled_append, herr]
              rfl
          · rw [retryMessages_append, inv.messages]
            exact List.append_nil _
        · omega

      · refine ⟨_, RetryRun.frame cfg s0 s _ c delta
          [Effect.html (View.error 0), Effect.setTimeout 100 Timer.bindRetry] inv rfl rfl rfl
          (by simp [runTimer, runCallback, renderErrorState, html, setTimeout])
          ?_ ?_ rfl rfl rfl rfl rfl⟩
        · intro t ht
          rcases List.mem_append.mp ht with ht | ht
          · exact hkr t ht
          · rw [List.mem_singleton.mp ht]
            exact Or.inr (Or.inr (Or.inr rfl))
        · show List.countP _ (rest ++ [_]) = _
          rw [hcount, List.countP_append]
          rfl
      · have hc1 : rest.countP (fun t => isRetry t.2) =
            s.timers.countP (fun t => isRetry t.2) := by
          rw [hcount]
          rfl
        simp only [runTimer]
        split
        · exact ⟨_, RetryRun.frame cfg s0 s _ c delta [] inv rfl rfl rfl
            (List.append_nil _).symm hkr hc1 rfl rfl rfl rfl rfl⟩
        · exact ⟨_, RetryRun.frame cfg s0 s _ c delta [] inv rfl rfl rfl
            (List.append_nil _).symm hkr hc1 rfl rfl rfl rfl rfl⟩

    · cases hs

theorem RetryRun.step (cfg : Config) (s0 s s1 : State) (c : JsVal) (delta : List Effect)
    (inv : RetryRun cfg s0 c delta s) (e : Event) (he : failureOnly e = true)
    (hs : step cfg s e = some s1) : ∃ delta1, RetryRun cfg s0 c delta1 s1 := by
  cases e with
  | tab b => cases he
  | ajax h outcome =>
    cases outcome with
    | success r => cases he
    | error status =>
      simp only [failureOnly, Bool.and_eq_true, bne_iff_ne, ne_eq] at he
      exact RetryRun.fail cfg s0 s s1 c delta inv h status he.1 he.2 hs
  | wait ms =>
    simp only [InvestmentsManager.step] at hs
    split at hs
    · simp only [Option.some.injEq] at hs
      subst hs
      exact ⟨delta, RetryRun.wait cfg s0 s c delta inv ms⟩
    · cases hs
  | timer => exact RetryRun.timer cfg s0 s s1 c delta inv hs
  | tryAgain => cases he
  | viewAll => cases he

theorem RetryRun.run (cfg : Config) (s0 : State) (c : JsVal) :
    ∀ (es : List Event) (s s1 : State) (delta : List Effect), RetryRun cfg s0 c delta s →
      (∀ e ∈ es, failureOnly e = true) → run cfg s es = some s1 →
      ∃ delta1, RetryRun cfg s0 c delta1 s1
  | [], s, s1, delta, inv, _, hr => by
    simp only [InvestmentsManager.run, Option.some.injEq] at hr
    subst hr
    exact ⟨delta, inv⟩
  | e :: es, s, s1, delta, inv, he, hr => by
    simp only [InvestmentsManager.run] at hr
    split at hr
    · cases hr
    · rename_i s2 hs2
      obtain ⟨delta2, inv2⟩ :=
        RetryRun.step cfg s0 s s2 c delta inv e (he e (List.mem_cons_self _ _)) hs2
      exact RetryRun.run cfg s0 c es s2 s1 delta2 inv2
        (fun x hx => he x (List.mem_cons_of_mem _ hx)) hr

theorem RetryRun.summary (cfg : Config) (s0 s : State) (c : JsVal) (delta : List Effect)
    (inv : RetryRun cfg s0 c delta s) :
    s.log = s0.log ++ delta ∧ s.retryCount ≤ cfg.maxRetries ∧
    retriesScheduled delta = List.replicate s.retryCount (cfg.retryDelay, Timer.retry c) ∧
    fetches delta =
      (List.range (fetches delta).length).map (fun i => requestFor cfg (s0.nextHandle + i) c) ∧
    (fetches delta).length ≤ s.retryCount + 1 ∧
    errorViewsScheduled delta ≤ 1 ∧
    (errorViewsScheduled delta = 1 →
      s.retryCount = cfg.maxRetries ∧ failures delta = cfg.maxRetries + 1 ∧
      (fetches delta).length = cfg.maxRetries + 1 ∧ s.inFlight = []) := by
  refine ⟨inv.log_eq, inv.count_le, inv.retries, inv.fetched, ?_, ?_, ?_⟩
  · rcases inv.phase with ⟨-, -, h, -⟩ | ⟨-, -, h, -⟩ | ⟨-, -, h, -⟩ <;> omega
  · rcases inv.phase with ⟨-, -, -, -, h⟩ | ⟨-, -, -, -, h⟩ | ⟨-, -, -, -, h, -⟩ <;> omega
  · intro he
    rcases inv.phase with ⟨-, -, -, -, h⟩ | ⟨-, -, -, -, h⟩ | ⟨hin, -, hl, hf, -, hm⟩
    · omega
    · omega
    · exact ⟨hm, by omega, by omega, hin⟩

/-! ## The claims on the loader -/

/-- C1 (divergence): after `energy` has been selected and its card rendered,
the retry timer left behind by the failed `tech` request is still pending; it
fires, fetches `tech` again, and the response replaces the card of `energy`
while `energy` is still the current category and the active tab. -/
theorem stale_retry_overwrites_render :
    (run twoTabs init energyShown).map
        (fun s => (s.currentCategory, s.activeButton, s.container, s.timers)) =
      some (JsVal.str "energy", some 1, View.cards [item 2 "Solar"],
        [(3100, Timer.retry (JsVal.str "tech"))]) ∧
    (run twoTabs init (energyShown ++ staleRetry)).map
        (fun s => (s.currentCategory, s.activeButton, s.container, fetches s.log)) =
      some (JsVal.str "energy", some 1, View.cards [item 1 "Acme"],
        [requestFor twoTabs 0 (JsVal.str "tech"), requestFor twoTabs 1 (JsVal.str "energy"),
         requestFor twoTabs 2 (JsVal.str "tech")]) :=
  ⟨rfl, rfl⟩

/-- The retry policy from a quiet state: from `loadInvestments(c)` called
with no timer pending and no request in flight, when the fetch and every re-fetch of `c` fail with a
status that is neither `timeout` nor `abort`:
(1) the run in which each failure is followed by the retry delay schedules
exactly `maxRetries` retry timers, each of `retryDelay` ms, issues
`maxRetries + 1` requests, all for `c`, shows the attempts `1 .. maxRetries`,
and only the failure of the last retry renders the error view;
(2) however such failures, waits and timer firings are interleaved, the retry
timers scheduled so far are `retryCount ≤ maxRetries` timers of `retryDelay`
ms for `c`, and the error view is scheduled at most once and only when
`maxRetries` retries have been scheduled and `maxRetries + 1` requests have
failed. -/
theorem retries_exactly_maxRetries (cfg : Config) (s0 : State) (c : JsVal)
    (statuses : List String) (last : String)
    (ht : s0.timers = []) (hf : s0.inFlight = []) (hlen : statuses.length = cfg.maxRetries)
    (hs : ∀ st ∈ statuses, st ≠ "timeout" ∧ st ≠ "abort")
    (hl : last ≠ "timeout" ∧ last ≠ "abort") :
    (∃ s1 s2 delta,
        run cfg (loadInvestments cfg s0 c)
          ([Event.wait 300, Event.timer] ++ failedAttempts cfg s0.nextHandle statuses) = some s1 ∧
        s1.log = s0.log ++ delta ∧
        timeouts delta =
          (300, Timer.shimmer) :: List.replicate cfg.maxRetries (cfg.retryDelay, Timer.retry c) ∧
        fetches delta =
          (List.range (cfg.maxRetries + 1)).map (fun i => requestFor cfg (s0.nextHandle + i) c) ∧
        renders delta = View.shimmer ::
          (List.range cfg.maxRetries).map (fun i => View.retryMessage (i + 1) cfg.maxRetries) ∧
        s1.retryCount = cfg.maxRetries ∧
        run cfg s1 [Event.ajax (s0.nextHandle + cfg.maxRetries) (Outcome.error last),
          Event.wait 400, Event.timer] = some s2 ∧
        s2.log = s1.log ++ [Effect.consoleError last,
          Effect.setTimeout 400 (Timer.hideShimmer Callback.renderErrorState),
          Effect.html (View.error 0), Effect.setTimeout 100 Timer.bindRetry] ∧
        s2.container = View.error 0 ∧ s2.retryCount = cfg.maxRetries ∧ s2.isLoading = false) ∧
    (∀ (es : List Event) (s : State), (∀ e ∈ es, failureOnly e = true) →
      run cfg (loadInvestments cfg s0 c) es = some s →
      ∃ delta, s.log = s0.log ++ delta ∧ s.retryCount ≤ cfg.maxRetries ∧
        retriesScheduled delta =
          List.replicate s.retryCount (cfg.retryDelay, Timer.retry c) ∧
        fetches delta = (List.range (fetches delta).length).map
          (fun i => requestFor cfg (s0.nextHandle + i) c) ∧
        (fetches delta).length ≤ s.retryCount + 1 ∧
        errorViewsScheduled delta ≤ 1 ∧
        (errorViewsScheduled delta = 1 →
          s.retryCount = cfg.maxRetries ∧ failures delta = cfg.maxRetries + 1 ∧
          (fetches delta).length = cfg.maxRetries + 1 ∧ s.inFlight = [])) := by
  refine ⟨canonical_failures_run cfg s0 c statuses last ht hf hlen hs hl, ?_⟩
  intro es s hes hr
  obtain ⟨delta, inv⟩ := RetryRun.run cfg s0 c es _ s _ (RetryRun.start cfg s0 c ht hf) hes hr
  exact ⟨delta, RetryRun.summary cfg s0 s c delta inv⟩

/-- An instance of the retry policy: three failures of `energy` from page
load, with the default policy. -/
theorem retries_exactly_maxRetries_witness :
    (∃ s1 s2 delta,
        run twoTabs (loadInvestments twoTabs init (JsVal.str "energy"))
          ([Event.wait 300, Event.timer] ++
            failedAttempts twoTabs init.nextHandle ["error", "parsererror", "error"]) = some s1 ∧
        s1.log = init.log ++ delta ∧
        timeouts delta = (300, Timer.shimmer) ::
          List.replicate twoTabs.maxRetries (twoTabs.retryDelay, Timer.retry (JsVal.str "energy")) ∧
        fetches delta = (List.range (twoTabs.maxRetries + 1)).map
          (fun i => requestFor twoTabs (init.nextHandle + i) (JsVal.str "energy")) ∧
        renders delta = View.shimmer :: (List.range twoTabs.maxRetries).map
          (fun i => View.retryMessage (i + 1) twoTabs.maxRetries) ∧
        s1.retryCount = twoTabs.maxRetries ∧
        run twoTabs s1 [Event.ajax (init.nextHandle + twoTabs.maxRetries) (Outcome.error "error"),
          Event.wait 400, Event.timer] = some s2 ∧
        s2.log = s1.log ++ [Effect.consoleError "error",
          Effect.setTimeout 400 (Timer.hideShimmer Callback.renderErrorState),
          Effect.html (View.error 0), Effect.setTimeout 100 Timer.bindRetry] ∧
        s2.container = View.error 0 ∧ s2.retryCount = twoTabs.maxRetries ∧
        s2.isLoading = false) ∧
    (∀ (es : List Event) (s : State), (∀ e ∈ es, failureOnly e = true) →
      run twoTabs (loadInvestments twoTabs init (JsVal.str "energy")) es = some s →
      ∃ delta, s.log = init.log ++ delta ∧ s.retryCount ≤ twoTabs.maxRetries ∧
        retriesScheduled delta =
          List.replicate s.retryCount (twoTabs.retryDelay, Timer.retry (JsVal.str "energy")) ∧
        fetches delta = (List.range (fetches delta).length).map
          (fun i => requestFor twoTabs (init.nextHandle + i) (JsVal.str "energy")) ∧
        (fetches delta).length ≤ s.retryCount + 1 ∧
        errorViewsScheduled delta ≤ 1 ∧
        (errorViewsScheduled delta = 1 →
          s.retryCount = twoTabs.maxRetries ∧ failures delta = twoTabs.maxRetries + 1 ∧
          (fetches delta).length = twoTabs.maxRetries + 1 ∧ s.inFlight = [])) :=
  retries_exactly_maxRetries twoTabs init (JsVal.str "energy") ["error", "parsererror", "error"]
    "error" rfl rfl rfl (by decide) (by decide)

/-- C2 (divergence): the user opens `energy` at 500 ms, while the retry
timer that the failed request of `tech` left behind is pending, and from
then on every request fails with the status `error`.  `loadInvestments` has
set `retryCount` to 0, but the timer of `tech` is not cleared and its
retries count on the same counter: when request 4, the second retry of
`tech`, fails at 6300 ms, the error view is scheduled, and `energy` has been
retried once (request 3) with its second retry still pending.  In the whole
run two retries of `energy` are scheduled, not `maxRetries = 3`, and the
error view is scheduled twice. -/
theorem retries_share_counter :
    twoTabs.maxRetries = 3 ∧
    (run twoTabs init energyOpened).map
        (fun s => (s.now, s.currentCategory, s.retryCount, s.inFlight, s.timers)) =
      some (500, JsVal.str "energy", 0, [requestFor twoTabs 1 (JsVal.str "energy")],
        [(3100, Timer.retry (JsVal.str "tech")), (800, Timer.shimmer)]) ∧
    (run twoTabs init (energyOpened ++ everythingFails)).map
        (fun s => (s.now, (fetches s.log).map (fun r => r.categoryId), retriesScheduled s.log,
          errorViewsScheduled s.log, s.timers)) =
      some (6300,
        [JsVal.str "tech", JsVal.str "energy", JsVal.str "tech", JsVal.str "energy",
         JsVal.str "tech"],
        [(3000, Timer.retry (JsVal.str "tech")), (3000, Timer.retry (JsVal.str "energy")),
         (3000, Timer.retry (JsVal.str "tech")), (3000, Timer.retry (JsVal.str "energy"))],
        1,
        [(6700, Timer.retry (JsVal.str "energy")),
         (6700, Timer.hideShimmer Callback.renderErrorState)]) ∧
    (run twoTabs init (energyOpened ++ everythingFails ++ lastRetryFails)).map
        (fun s => (s.now, s.retryCount, s.container,
          (fetches s.log).map (fun r => r.categoryId), retriesScheduled s.log,
          errorViewsScheduled s.log, failures s.log, s.inFlight)) =
      some (7200, 3, View.error 0,
        [JsVal.str "tech", JsVal.str "energy", JsVal.str "tech", JsVal.str "energy",
         JsVal.str "tech", JsVal.str "energy"],
        [(3000, Timer.retry (JsVal.str "tech")), (3000, Timer.retry (JsVal.str "energy")),
         (3000, Timer.retry (JsVal.str "tech")), (3000, Timer.retry (JsVal.str "energy"))],
        2, 6, []) :=
  ⟨rfl, rfl, rfl, rfl⟩

/-- C3: in every state `handleError` with status `timeout` leaves
`retryCount` as it is, schedules no retry and only the 400 ms callback that
renders the error view; the `error` callback of a request passes a timeout
on to `handleError`. -/
theorem handleError_timeout_terminal (cfg : Config) (s : State) (c : JsVal) :
    handleError cfg s "timeout" c =
      { s with
        isLoading := false
        timers := s.timers ++ [(s.now + 400, Timer.hideShimmer Callback.renderErrorState)]
        log := s.log ++ [Effect.consoleError "timeout",
          Effect.setTimeout 400 (Timer.hideShimmer Callback.renderErrorState)] } ∧
    (handleError cfg s "timeout" c).retryCount = s.retryCount ∧
    onError cfg s "timeout" c = handleError cfg s "timeout" c ∧
    ∀ s2 : State,
      (runTimer cfg s2 (Timer.hideShimmer Callback.renderErrorState)).container = View.error 0 := by
  refine ⟨?_, ?_, ?_, ?_⟩
  · simp [handleError, hideShimmerLoader, setTimeout]
  · simp [handleError, hideShimmerLoader, setTimeout]
  · simp [onError]
  · intro s2
    rfl

/-- C4 (counterexample): while the request for `tech` is outstanding
(`isLoading = true`) a click on the `energy` tab changes nothing: the category
stays `tech`, nothing is aborted and no request for `energy` is issued. -/
theorem tabClick_ignored_while_loading :
    ∃ s, run twoTabs init [Event.tab 0, Event.wait 100] = some s ∧
      s.isLoading = true ∧ s.currentCategory = JsVal.str "tech" ∧
      twoTabs.tabs.get? 1 = some (JsVal.str "energy") ∧
      s.inFlight = [requestFor twoTabs 0 (JsVal.str "tech")] ∧
      step twoTabs s (Event.tab 1) = some s :=
  ⟨_, rfl, rfl, rfl, rfl, rfl, rfl⟩

/-- C4 (amended): when `isLoading` is false, a click on a tab whose id
differs from `currentCategory` aborts the request held in `currentRequest`
if it is still in flight, makes the tab active, sets `currentCategory` to the
id, `retryCount` to 0 and `isLoading` to true, and issues exactly one
request, for the id, which becomes `currentRequest`. -/
theorem tabClick_other_category_when_idle (cfg : Config) (s : State) (button : Nat)
    (categoryId : JsVal) (hl : s.isLoading = false) (hne : categoryId ≠ s.currentCategory) :
    (tabClick cfg s button categoryId).currentCategory = categoryId ∧
    (tabClick cfg s button categoryId).retryCount = 0 ∧
    (tabClick cfg s button categoryId).isLoading = true ∧
    (tabClick cfg s button categoryId).activeButton = some button ∧
    (tabClick cfg s button categoryId).currentRequest = some s.nextHandle ∧
    (tabClick cfg s button categoryId).inFlight =
      s.inFlight.filter (fun r => some r.handle != s.currentRequest) ++
        [requestFor cfg s.nextHandle categoryId] ∧
    fetches (tabClick cfg s button categoryId).log =
      fetches s.log ++ [requestFor cfg s.nextHandle categoryId] ∧
    (tabClick cfg s button categoryId).timers = s.timers ++ [(s.now + 300, Timer.shimmer)] ∧
    (tabClick cfg s button categoryId).container = s.container := by
  have ht : tabClick cfg s button categoryId =
      loadInvestments cfg (updateActiveButton s button) categoryId := by
    simp [tabClick, hl, hne]
  rw [ht]
  cases hc : s.currentRequest with
  | none =>
    simp [loadInvestments, updateActiveButton, hc, showShimmerLoader, setTimeout,
      fetchInvestments, fetches_append, fetches]
    exact (List.filter_eq_self.mpr (fun r _ => by simp)).symm
  | some h =>
    simp only [loadInvestments, updateActiveButton, hc, abort_fields]
    simp only [showShimmerLoader, setTimeout, fetchInvestments, fetches_append]
    refine ⟨trivial, trivial, trivial, trivial, trivial, ?_, ?_, trivial, trivial⟩
    · congr 2
    · generalize (findRequest _ h).isSome = b
      cases b <;> simp [fetches]

/-- C4 (witness): from the initial state a click on the `energy` tab. -/
theorem tabClick_other_category_when_idle_witness :
    (tabClick twoTabs init 1 (JsVal.str "energy")).currentCategory = JsVal.str "energy" ∧
    (tabClick twoTabs init 1 (JsVal.str "energy")).retryCount = 0 ∧
    (tabClick twoTabs init 1 (JsVal.str "energy")).isLoading = true ∧
    (tabClick twoTabs init 1 (JsVal.str "energy")).activeButton = some 1 ∧
    (tabClick twoTabs init 1 (JsVal.str "energy")).currentRequest = some init.nextHandle ∧
    (tabClick twoTabs init 1 (JsVal.str "energy")).inFlight =
      init.inFlight.filter (fun r => some r.handle != init.currentRequest) ++
        [requestFor twoTabs init.nextHandle (JsVal.str "energy")] ∧
    fetches (tabClick twoTabs init 1 (JsVal.str "energy")).log =
      fetches init.log ++ [requestFor twoTabs init.nextHandle (JsVal.str "energy")] ∧
    (tabClick twoTabs init 1 (JsVal.str "energy")).timers =
      init.timers ++ [(init.now + 300, Timer.shimmer)] ∧
    (tabClick twoTabs init 1 (JsVal.str "energy")).container = init.container :=
  tabClick_other_category_when_idle twoTabs init 1 (JsVal.str "energy") rfl (by decide)

/-- C5: a click on a tab whose id is the current category leaves the whole
state as it is, effect log included: nothing is requested, scheduled or
rendered. -/
theorem tabClick_same_category_noop (cfg : Config) (s : State) (button : Nat)
    (h : cfg.tabs.get? button = some s.currentCategory) :
    step cfg s (Event.tab button) = some s := by
  simp only [step, h, tabClick]
  split
  · rfl
  · simp

/-- C5 (witness): `tech` is current and its tab is clicked again. -/
theorem tabClick_same_category_noop_witness :
    ∃ s, run twoTabs init (techLoading ++ [Event.ajax 0 (okBody []), Event.wait 600,
        Event.timer]) = some s ∧
      twoTabs.tabs.get? 0 = some s.currentCategory ∧ step twoTabs s (Event.tab 0) = some s :=
  ⟨_, rfl, rfl, tabClick_same_category_noop twoTabs _ 0 rfl⟩

/-- C6: a response that is absent, or whose `success` flag is absent or
false, is handled as `handleError` handles a failure of the current category
with any status other than `timeout`: the two states differ in nothing but
the status printed on the console, the timer added is the retry or the error
callback, and no render of items is scheduled. -/
theorem handleSuccess_invalid_as_failure (cfg : Config) (s : State)
    (response : Option Response) (status : String)
    (hr : response = none ∨
      ∃ r, response = some r ∧ (r.success = none ∨ r.success = some false))
    (hst : status ≠ "timeout") :
    handleSuccess cfg s response =
      handleError cfg s "Invalid response format" s.currentCategory ∧
    sameLoader (handleSuccess cfg s response) (handleError cfg s status s.currentCategory) ∧
    (handleSuccess cfg s response).log.drop (s.log.length + 1) =
      (handleError cfg s status s.currentCategory).log.drop (s.log.length + 1) ∧
    (handleSuccess cfg s response).timers = s.timers ++
      [if s.retryCount < cfg.maxRetries then (s.now + cfg.retryDelay, Timer.retry s.currentCategory)
       else (s.now + 400, Timer.hideShimmer Callback.renderErrorState)] := by
  have hinv : invalidResponse response = true := by
    rcases hr with hr | ⟨r, hr, hr2 | hr2⟩
    · simp [hr, invalidResponse]
    · simp [hr, invalidResponse, hr2]
    · simp [hr, invalidResponse, hr2]
  have h1 : handleSuccess cfg s response =
      handleError cfg s "Invalid response format" s.currentCategory := by
    simp [handleSuccess, hinv]
  have hd : ∀ (a : Effect) (xs : List Effect),
      (s.log ++ a :: xs).drop (s.log.length + 1) = xs := by
    intro a xs
    rw [show s.log ++ a :: xs = (s.log ++ [a]) ++ xs by simp]
    rw [List.drop_left' (by simp)]
  have h2 : ("Invalid response format" : String) ≠ "timeout" := by decide
  refine ⟨h1, ?_, ?_, ?_⟩
  · rw [h1]
    by_cases hk : s.retryCount < cfg.maxRetries <;>
      simp [sameLoader, handleError, hk, hst, showRetryMessage, html, setTimeout,
        hideShimmerLoader]
  · rw [h1]
    by_cases hk : s.retryCount < cfg.maxRetries <;>
      simp [handleError, hk, hst, h2, showRetryMessage, html, setTimeout,
        hideShimmerLoader, hd]
  · rw [h1]
    by_cases hk : s.retryCount < cfg.maxRetries <;>
      simp [handleError, hk, showRetryMessage, html, setTimeout, hideShimmerLoader]

/-- C6 (witness): the body `{success: false}` against a network error. -/
theorem handleSuccess_invalid_as_failure_witness :
    handleSuccess twoTabs init (some { success := some false, investments := none }) =
      handleError twoTabs init "Invalid response format" init.currentCategory ∧
    sameLoader (handleSuccess twoTabs init (some { success := some false, investments := none }))
      (handleError twoTabs init "error" init.currentCategory) ∧
    (handleSuccess twoTabs init (some { success := some false, investments := none })).log.drop
        (init.log.length + 1) =
      (handleError twoTabs init "error" init.currentCategory).log.drop (init.log.length + 1) ∧
    (handleSuccess twoTabs init (some { success := some false, investments := none })).timers =
      init.timers ++
        [if init.retryCount < twoTabs.maxRetries then
          (init.now + twoTabs.retryDelay, Timer.retry init.currentCategory)
         else (init.now + 400, Timer.hideShimmer Callback.renderErrorState)] :=
  handleSuccess_invalid_as_failure twoTabs init (some { success := some false, investments := none })
    "error" (Or.inr ⟨_, rfl, Or.inr rfl⟩) (by decide)

/-- C7: a response with a true `success` flag and no items only schedules the
600 ms timer; when it fires, `retryCount` becomes 0, `isLoading` false and the
only thing scheduled is the 400 ms callback `renderEmptyState`; that callback
puts the empty-state view in the container and schedules the binding of its
View All button.  Neither step schedules a retry or the error view. -/
theorem handleSuccess_empty_renders_empty_state (cfg : Config) (s : State)
    (r : Response) (hv : r.success = some true) (he : r.investments = some []) :
    handleSuccess cfg s (some r) =
      { s with
        timers := s.timers ++ [(s.now + 600, Timer.minimumLoading [])]
        log := s.log ++ [Effect.setTimeout 600 (Timer.minimumLoading [])] } ∧
    (∀ s1 : State, runTimer cfg s1 (Timer.minimumLoading []) =
      { s1 with
        isLoading := false
        retryCount := 0
        timers := s1.timers ++ [(s1.now + 400, Timer.hideShimmer Callback.renderEmptyState)]
        log := s1.log ++ [Effect.setTimeout 400 (Timer.hideShimmer Callback.renderEmptyState)] }) ∧
    (∀ s2 : State, runTimer cfg s2 (Timer.hideShimmer Callback.renderEmptyState) =
      { s2 with
        container := View.empty 0
        timers := s2.timers ++ [(s2.now + 100, Timer.bindViewAll)]
        log := s2.log ++ [Effect.html (View.empty 0), Effect.setTimeout 100 Timer.bindViewAll] }) := by
  refine ⟨?_, ?_, ?_⟩
  · simp [handleSuccess, invalidResponse, investmentsOf, hv, he, setTimeout]
  · intro s1
    simp [runTimer, renderInvestments, hideShimmerLoader, setTimeout]
  · intro s2
    simp [runTimer, runCallback, renderEmptyState, html, setTimeout]

/-- C7 (witness): the body `{success: true, investments: []}`. -/
theorem handleSuccess_empty_renders_empty_state_witness :
    handleSuccess twoTabs init (some { success := some true, investments := some [] }) =
      { init with
        timers := init.timers ++ [(init.now + 600, Timer.minimumLoading [])]
        log := init.log ++ [Effect.setTimeout 600 (Timer.minimumLoading [])] } ∧
    (∀ s1 : State, runTimer twoTabs s1 (Timer.minimumLoading []) =
      { s1 with
        isLoading := false
        retryCount := 0
        timers := s1.timers ++ [(s1.now + 400, Timer.hideShimmer Callback.renderEmptyState)]
        log := s1.log ++ [Effect.setTimeout 400 (Timer.hideShimmer Callback.renderEmptyState)] }) ∧
    (∀ s2 : State, runTimer twoTabs s2 (Timer.hideShimmer Callback.renderEmptyState) =
      { s2 with
        container := View.empty 0
        timers := s2.timers ++ [(s2.now + 100, Timer.bindViewAll)]
        log := s2.log ++ [Effect.html (View.empty 0), Effect.setTimeout 100 Timer.bindViewAll] }) :=
  handleSuccess_empty_renders_empty_state twoTabs init
    { success := some true, investments := some [] } rfl rfl

/-- C8: in the error view with its handler bound, a click on Try Again sets
`retryCount` to 0 and `isLoading` to true, keeps `currentCategory`, and issues
one request, for `currentCategory`, which becomes `currentRequest`. -/
theorem tryAgain_resets_and_reloads (cfg : Config) (s : State)
    (hv : s.container = View.error 1) :
    ∃ s1, step cfg s Event.tryAgain = some s1 ∧
      s1.retryCount = 0 ∧ s1.isLoading = true ∧ s1.currentCategory = s.currentCategory ∧
      s1.currentRequest = some s.nextHandle ∧
      s1.inFlight = s.inFlight.filter (fun r => some r.handle != s.currentRequest) ++
        [requestFor cfg s.nextHandle s.currentCategory] ∧
      fetches s1.log = fetches s.log ++ [requestFor cfg s.nextHandle s.currentCategory] := by
  refine ⟨retryClick cfg s, ?_, ?_⟩
  · simp [step, hv, repeatHandler]
  · cases hc : s.currentRequest with
    | none =>
      simp [retryClick, loadInvestments, hc, showShimmerLoader, setTimeout,
        fetchInvestments, fetches_append, fetches]
      exact (List.filter_eq_self.mpr (fun r _ => by simp)).symm
    | some h =>
      simp only [retryClick, loadInvestments, hc, abort_fields]
      simp only [showShimmerLoader, setTimeout, fetchInvestments, fetches_append]
      refine ⟨trivial, trivial, trivial, trivial, ?_, ?_⟩
      · congr 2
      · generalize (findRequest _ h).isSome = b
        cases b <;> simp [fetches]

/-- C8 (witness): the terminal error view of `tech` after a timeout, with the
button bound 100 ms after the view appeared. -/
theorem tryAgain_resets_and_reloads_witness :
    ∃ s, run twoTabs init (techLoading ++ [Event.ajax 0 (Outcome.error "timeout"),
        Event.wait 400, Event.timer, Event.wait 100, Event.timer]) = some s ∧
      s.container = View.error 1 ∧
      ∃ s1, step twoTabs s Event.tryAgain = some s1 ∧
        s1.retryCount = 0 ∧ s1.isLoading = true ∧ s1.currentCategory = s.currentCategory ∧
        s1.currentRequest = some s.nextHandle ∧
        s1.inFlight = s.inFlight.filter (fun r => some r.handle != s.currentRequest) ++
          [requestFor twoTabs s.nextHandle s.currentCategory] ∧
        fetches s1.log = fetches s.log ++ [requestFor twoTabs s.nextHandle s.currentCategory] :=
  ⟨_, rfl, rfl, tryAgain_resets_and_reloads twoTabs _ rfl⟩

/-- C9: in every state reachable from the initial one by tab clicks, request
outcomes of any kind, timer firings and clicks on the Try Again and View All
buttons, `0 ≤ retryCount ≤ maxRetries`. -/
theorem retryCount_le_maxRetries (cfg : Config) (s : State) (h : Reachable cfg s) :
    0 ≤ s.retryCount ∧ s.retryCount ≤ cfg.maxRetries := by
  obtain ⟨es, hes⟩ := h
  exact ⟨Nat.zero_le _, run_retryCount_le cfg es init s (Nat.zero_le _) hes⟩

/-- C9 (witness): the state after three failed attempts on `tech`. -/
theorem retryCount_le_maxRetries_witness :
    ∃ s, run twoTabs init (techLoading ++ failedAttempts twoTabs 0 ["error", "error", "error"]) =
        some s ∧ s.retryCount = 3 ∧ (0 ≤ s.retryCount ∧ s.retryCount ≤ twoTabs.maxRetries) :=
  ⟨_, rfl, rfl, retryCount_le_maxRetries twoTabs _
    ⟨techLoading ++ failedAttempts twoTabs 0 ["error", "error", "error"], rfl⟩⟩

/-- C10 (counterexample): with `maxRetries = 3`, the third failure takes the
counter to 3, which is not below 3, and a retry is scheduled all the same; the
fourth failure enters the error path and leaves the counter at 3. -/
theorem handleError_counter_against_claim :
    (run twoTabs init (techLoading ++ failedAttempts twoTabs 0 ["error", "error"])).map
        (fun s => (s.retryCount, s.timers)) = some (2, []) ∧
    (run twoTabs init (techLoading ++ failedAttempts twoTabs 0 ["error", "error"] ++
        [Event.ajax 2 (Outcome.error "error")])).map (fun s => (s.retryCount, s.timers)) =
      some (3, [(9300, Timer.retry (JsVal.str "tech"))]) ∧
    ¬ (3 < twoTabs.maxRetries) ∧
    (run twoTabs init (techLoading ++ failedAttempts twoTabs 0 ["error", "error", "error"])).map
        (fun s => (s.retryCount, s.timers)) = some (3, []) ∧
    (run twoTabs init (techLoading ++ failedAttempts twoTabs 0 ["error", "error", "error"] ++
        [Event.ajax 3 (Outcome.error "error")])).map (fun s => (s.retryCount, s.timers)) =
      some (3, [(9700, Timer.hideShimmer Callback.renderErrorState)]) :=
  ⟨rfl, rfl, by decide, rfl, rfl⟩

/-- C10 (amended): `handleError` schedules a retry, after `retryDelay`, exactly
when the counter before the call is below `maxRetries` and the status is not
`timeout`, and the counter is incremented by one exactly in that case;
otherwise the counter is left as it is and the error view is scheduled. -/
theorem handleError_retry_decision (cfg : Config) (s : State) (status : String) (c : JsVal) :
    ((handleError cfg s status c).timers =
        s.timers ++ [(s.now + cfg.retryDelay, Timer.retry c)] ↔
      (s.retryCount < cfg.maxRetries ∧ status ≠ "timeout")) ∧
    ((handleError cfg s status c).timers =
        s.timers ++ [(s.now + 400, Timer.hideShimmer Callback.renderErrorState)] ↔
      ¬ (s.retryCount < cfg.maxRetries ∧ status ≠ "timeout")) ∧
    ((handleError cfg s status c).retryCount = s.retryCount + 1 ↔
      (s.retryCount < cfg.maxRetries ∧ status ≠ "timeout")) ∧
    ((handleError cfg s status c).retryCount = s.retryCount ↔
      ¬ (s.retryCount < cfg.maxRetries ∧ status ≠ "timeout")) ∧
    (handleError cfg s status c).isLoading = false := by
  by_cases hk : s.retryCount < cfg.maxRetries ∧ status ≠ "timeout"
  · simp [handleError, hk, showRetryMessage, html, setTimeout]
  · simp [handleError, hk, hideShimmerLoader, setTimeout]

/-! ## The claims on the timers, the requests and the formatting functions -/

theorem retryClick_isLoading (cfg : Config) (s : State) :
    (retryClick cfg s).isLoading = true := by
  simp [retryClick, loadInvestments, fetchInvestments, showShimmerLoader, setTimeout]

theorem tabClick_of_loading (cfg : Config) (s : State) (b : Nat) (c : JsVal)
    (h : s.isLoading = true) : tabClick cfg s b c = s := by
  simp [tabClick, h]

theorem step_isLoading_false (cfg : Config) (s s1 : State) (e : Event)
    (hl : s.isLoading = true) (hs : step cfg s e = some s1) (h1 : s1.isLoading = false) :
    (∃ h o, e = Event.ajax h o) ∨
      (e = Event.timer ∧ ∃ d xs rest,
        popTimer s.timers = some ((d, Timer.minimumLoading xs), rest)) := by
  cases e with
  | tab b =>
    simp only [step] at hs
    split at hs
    · cases hs
    · simp only [Option.some.injEq] at hs
      rw [tabClick_of_loading cfg s b _ hl] at hs
      subst hs
      rw [hl] at h1
      cases h1
  | ajax h o => exact Or.inl ⟨h, o, rfl⟩
  | wait ms =>
    simp only [step] at hs
    split at hs
    · simp only [Option.some.injEq] at hs
      subst hs
      rw [show ({ s with now := s.now + ms } : State).isLoading = s.isLoading from rfl, hl] at h1
      cases h1
    · cases hs
  | timer =>
    simp only [step] at hs
    cases hp : popTimer s.timers with
    | none =>
      rw [hp] at hs
      cases hs
    | some p =>
      obtain ⟨⟨d, t⟩, rest⟩ := p
      rw [hp] at hs
      simp only at hs
      split at hs
      · simp only [Option.some.injEq] at hs
        subst hs
        cases t with
        | minimumLoading xs => exact Or.inr ⟨rfl, d, xs, rest, rfl⟩
        | retry c =>
          simp [runTimer, fetchInvestments] at h1
        | shimmer =>
          simp [runTimer, html, hl] at h1
        | hideShimmer cb =>
          cases cb <;>
            simp [runTimer, runCallback, renderEmptyState, renderErrorState, html, setTimeout,
              hl] at h1
        | bindViewAll =>
          simp only [runTimer] at h1
          split at h1 <;> simp [hl] at h1
        | bindRetry =>
          simp only [runTimer] at h1
          split at h1 <;> simp [hl] at h1
      · cases hs
  | tryAgain =>
    simp only [step] at hs
    split at hs
    · simp only [Option.some.injEq] at hs
      subst hs
      rename_i k _
      have := repeatHandler_inv (fun s => s.isLoading = true) (retryClick cfg)
        (fun s2 _ => retryClick_isLoading cfg s2) k s hl
      rw [this] at h1
      cases h1
    · cases hs
  | viewAll =>
    simp only [step] at hs
    split at hs
    · simp only [Option.some.injEq] at hs
      subst hs
      rename_i k _
      have := repeatHandler_inv (fun s => s.isLoading = true) (viewAllClick cfg)
        (fun s2 h2 => by
          show (viewAllClick cfg s2).isLoading = true
          unfold viewAllClick
          split
          · exact h2
          · rw [tabClick_of_loading cfg s2 0 _ h2]; exact h2) k s hl
      rw [this] at h1
      cases h1
    · cases hs

theorem step_timer_due (cfg : Config) (s s1 : State) (t : Nat × Timer)
    (rest : List (Nat × Timer)) (hp : popTimer s.timers = some (t, rest))
    (hs : step cfg s Event.timer = some s1) :
    t.1 ≤ s.now ∧ s1 = runTimer cfg { s with timers := rest } t.2 := by
  simp only [step, hp] at hs
  split at hs
  · rename_i hd
    simp only [Option.some.injEq] at hs
    exact ⟨hd, hs.symm⟩
  · cases hs

/-- The delay of `handleSuccess`: a response with a true `success` flag
changes nothing but the timer
queue: `handleSuccess` schedules exactly one timer, of 600 ms, and leaves the
container, `isLoading` and `retryCount` as they are.  The timer cannot fire
before 600 ms have passed; its body is what calls `renderInvestments` and
sets `isLoading` to false and `retryCount` to 0.  Until then `isLoading`,
once true, is not set to false by time passing, by a click or by another
timer: only the handling of a request that ends or a minimum-loading timer
can do it. -/
theorem handleSuccess_delays_render (cfg : Config) (s : State) (r : Response)
    (hv : r.success = some true) :
    handleSuccess cfg s (some r) =
      { s with
        timers := s.timers ++ [(s.now + 600, Timer.minimumLoading (r.investments.getD []))]
        log := s.log ++ [Effect.setTimeout 600 (Timer.minimumLoading (r.investments.getD []))] } ∧
    (∀ (s2 s3 : State) (rest : List (Nat × Timer)),
      popTimer s2.timers =
        some ((s.now + 600, Timer.minimumLoading (r.investments.getD [])), rest) →
      step cfg s2 Event.timer = some s3 →
      s.now + 600 ≤ s2.now ∧
        s3 = runTimer cfg { s2 with timers := rest }
          (Timer.minimumLoading (r.investments.getD []))) ∧
    (∀ s2 : State, runTimer cfg s2 (Timer.minimumLoading (r.investments.getD [])) =
      if (r.investments.getD []).any cardThrows then s2
      else { renderInvestments s2 (r.investments.getD []) with
        isLoading := false, retryCount := 0 }) ∧
    (∀ (s2 s3 : State) (e : Event), s2.isLoading = true → step cfg s2 e = some s3 →
      s3.isLoading = false →
      (∃ h o, e = Event.ajax h o) ∨
        (e = Event.timer ∧ ∃ d xs rest,
          popTimer s2.timers = some ((d, Timer.minimumLoading xs), rest))) := by
  refine ⟨?_, ?_, ?_, ?_⟩
  · simp [handleSuccess, invalidResponse, investmentsOf, hv, setTimeout]
  · intro s2 s3 rest hp hs
    exact step_timer_due cfg s2 s3 _ rest hp hs
  · intro s2
    rfl
  · intro s2 s3 e hl hs h1
    exact step_isLoading_false cfg s2 s3 e hl hs h1

/-- An instance of the delay: the response `{success: true, investments: [Acme]}`. -/
theorem handleSuccess_delays_render_witness :
    ({ success := some true, investments := some [item 1 "Acme"] } : Response).success =
      some true ∧
    handleSuccess twoTabs init (some { success := some true, investments := some [item 1 "Acme"] }) =
      { init with
        timers := init.timers ++ [(init.now + 600, Timer.minimumLoading [item 1 "Acme"])]
        log := init.log ++ [Effect.setTimeout 600 (Timer.minimumLoading [item 1 "Acme"])] } :=
  ⟨rfl, (handleSuccess_delays_render twoTabs init
    { success := some true, investments := some [item 1 "Acme"] } rfl).1⟩

/-- C11 (divergence): the error view of `tech` is on screen; the user clicks
Try Again at 1000 ms and the response arrives at 1050 ms, so `handleSuccess`
starts the 600 ms timer, due at 1650 ms, with `isLoading` true.  The handler
of Try Again does not test `isLoading`, as the handler of the tabs does: a
second click at 1100 ms issues request 2, which fails at 1150 ms, and
`handleError` sets `isLoading` to false while the 600 ms timer is still
pending. -/
theorem isLoading_cleared_during_delay :
    (run twoTabs init responseWaiting).map
        (fun s => (s.now, s.isLoading, s.container, s.timers)) =
      some (1050, true, View.error 1,
        [(1300, Timer.shimmer), (1650, Timer.minimumLoading [item 1 "Acme"])]) ∧
    (run twoTabs init (responseWaiting ++ tryAgainFails.take 2)).map
        (fun s => (s.now, s.isLoading, s.inFlight)) =
      some (1100, true, [requestFor twoTabs 2 (JsVal.str "tech")]) ∧
    (run twoTabs init (responseWaiting ++ tryAgainFails)).map
        (fun s => (s.now, s.isLoading, s.container, s.timers)) =
      some (1150, false, View.retryMessage 1 3,
        [(1300, Timer.shimmer), (1650, Timer.minimumLoading [item 1 "Acme"]),
         (1400, Timer.shimmer), (4150, Timer.retry (JsVal.str "tech"))]) :=
  ⟨rfl, rfl, rfl⟩

theorem join_cons (c : String) (cs : List String) :
    String.join (c :: cs) = c ++ String.join cs := by
  apply String.ext
  simp [String.join_eq, String.data_append]

theorem join_append (xs ys : List String) :
    String.join (xs ++ ys) = String.join xs ++ String.join ys := by
  apply String.ext
  simp [String.join_eq, String.data_append]

theorem utf16_append (a b : String) : utf16 (a ++ b) = utf16 a ++ utf16 b := by
  simp [utf16, String.data_append]

theorem codeUnits_length (c : Char) :
    (codeUnits c).length = 1 ∨ (codeUnits c).length = 2 := by
  unfold codeUnits
  split <;> simp

theorem utf16_eq_nil (s : String) : utf16 s = [] ↔ s = "" := by
  constructor
  · intro h
    apply String.ext
    cases hd : s.data with
    | nil => rfl
    | cons c cs =>
      simp only [utf16, hd, List.flatMap_cons] at h
      have := congrArg List.length h
      rcases codeUnits_length c with h1 | h1 <;> simp [h1] at this
  · intro h
    subst h
    rfl

theorem truncateText_none_iff (text : JsVal) (n : Nat) :
    truncateText text n = none ↔ (truthy text && !isString text) = true := by
  cases text with
  | undefined => simp [truncateText, truthy]
  | null => simp [truncateText, truthy]
  | bool b => cases b <;> simp [truncateText, truthy, isString]
  | num k =>
    by_cases hk : toDouble k = Num.finite 0 <;> simp [truncateText, truthy, isString, hk]
  | nan => simp [truncateText, truthy]
  | infinity b => simp [truncateText, truthy, isString]
  | str s =>
    by_cases hs : s = ""
    · simp [truncateText, truthy, isString, hs]
    · simp only [truncateText, truthy, isString]
      split
      · simp
      · split <;> simp

theorem countryCode_none_iff (env : Browser) (country : JsVal) :
    countryCode env country = none ↔ (truthy country && !isString country) = true := by
  cases country with
  | undefined => simp [countryCode, truthy]
  | null => simp [countryCode, truthy]
  | bool b => cases b <;> simp [countryCode, truthy, isString]
  | num k =>
    by_cases hk : toDouble k = Num.finite 0 <;> simp [countryCode, truthy, isString, hk]
  | nan => simp [countryCode, truthy]
  | infinity b => simp [countryCode, truthy, isString]
  | str s =>
    by_cases hs : s = "" <;> simp [countryCode, truthy, isString, hs]

theorem buildInvestmentCard_none_iff (env : Browser) (cfg : Config) (investment : Investment)
    (index : Nat) :
    buildInvestmentCard env cfg investment index = none ↔ cardThrows investment = true := by
  have h1 := countryCode_none_iff env investment.country
  have h2 := truncateText_none_iff investment.description 150
  unfold buildInvestmentCard cardThrows
  cases hc : countryCode env investment.country with
  | none =>
    rw [hc] at h1
    simp [h1.mp rfl]
  | some code =>
    cases hd : truncateText investment.description 150 with
    | none =>
      rw [hd] at h2
      simp [h2.mp rfl]
    | some d =>
      rw [hc] at h1
      rw [hd] at h2
      have g1 : ¬ (truthy investment.country && !isString investment.country) = true :=
        fun h => by simpa using h1.mpr h
      have g2 : ¬ (truthy investment.description && !isString investment.description) = true :=
        fun h => by simpa using h2.mpr h
      simp only [Bool.or_eq_true]
      constructor
      · intro h
        cases h
      · intro h
        rcases h with h | h
        · exact absurd h g1
        · exact absurd h g2

theorem cardsLoop_concat (env : Browser) (cfg : Config) :
    ∀ (xs : List Investment) (cards : List (List Nat)) (k : Nat) (acc : List Nat),
      cards.length = xs.length →
      (∀ (i : Nat) (h1 : i < xs.length) (h2 : i < cards.length),
        buildInvestmentCard env cfg (xs.get ⟨i, h1⟩) (k + i) = some (cards.get ⟨i, h2⟩)) →
      cardsLoop env cfg xs k acc = some (acc ++ List.flatten cards)
  | [], cards, k, acc, hlen, _ => by
    have : cards = [] := List.length_eq_zero.mp hlen
    subst this
    simp [cardsLoop]
  | x :: xs, [], k, acc, hlen, _ => by
    simp at hlen
  | x :: xs, c :: cs, k, acc, hlen, hc => by
    have h0 := hc 0 (by simp) (by simp)
    simp only [List.get_eq_getElem, List.getElem_cons_zero, Nat.add_zero] at h0
    simp only [cardsLoop, h0]
    rw [cardsLoop_concat env cfg xs cs (k + 1) (acc ++ c)
      (by simpa using hlen)
      (fun i h1 h2 => by
        have := hc (i + 1) (by simpa using h1) (by simpa using h2)
        simp only [List.get_eq_getElem, List.getElem_cons_succ] at this
        simp only [List.get_eq_getElem]
        rw [← this]
        congr 1
        omega)]
    rw [List.flatten_cons, List.append_assoc]

/-- C12: when `cards` lists the results of `buildInvestmentCard(investments[i], i)`
for `i = 0 .. N-1`, the string that `renderInvestments` builds is their
concatenation in that order, and for a list that is not empty the callback
of `handleSuccess` schedules, and `hideShimmerLoader` then puts in the
container, the cards of exactly this list. -/
theorem cardsHtml_concat (env : Browser) (cfg : Config) (investments : List Investment)
    (cards : List (List Nat)) (hlen : cards.length = investments.length)
    (hc : ∀ (i : Nat) (h1 : i < investments.length) (h2 : i < cards.length),
      buildInvestmentCard env cfg (investments.get ⟨i, h1⟩) i = some (cards.get ⟨i, h2⟩))
    (hne : investments ≠ []) :
    cardsHtml env cfg investments = some (List.flatten cards) ∧
    (∀ s : State, runTimer cfg s (Timer.minimumLoading investments) =
      { s with
        isLoading := false
        retryCount := 0
        timers := s.timers ++ [(s.now + 400, Timer.hideShimmer (Callback.showCards investments))]
        log := s.log ++
          [Effect.setTimeout 400 (Timer.hideShimmer (Callback.showCards investments))] }) ∧
    (∀ s : State, runTimer cfg s (Timer.hideShimmer (Callback.showCards investments)) =
      { s with
        container := View.cards investments
        log := s.log ++ [Effect.html (View.cards investments)] }) := by
  refine ⟨?_, ?_, ?_⟩
  · have := cardsLoop_concat env cfg investments cards 0 (utf16 "") hlen
      (fun i h1 h2 => by simpa using hc i h1 h2)
    rw [cardsHtml, this]
    rfl
  · intro s
    have hthrow : investments.any cardThrows = false := by
      rw [Bool.eq_false_iff]
      intro h
      obtain ⟨x, hx, hxt⟩ := List.any_eq_true.mp h
      obtain ⟨i, hi, rfl⟩ := List.getElem_of_mem hx
      have h2 : i < cards.length := by omega
      have := hc i hi h2
      rw [List.get_eq_getElem, (buildInvestmentCard_none_iff env cfg _ i).mpr hxt] at this
      cases this
    have hl : ¬ investments.length = 0 := fun h => hne (List.length_eq_zero.mp h)
    simp [runTimer, hthrow, renderInvestments, hl, hideShimmerLoader, setTimeout]
  · intro s
    rfl

/-- C12 (witness): two items on the English page. -/
theorem cardsHtml_concat_witness :
    ∃ a b, buildInvestmentCard englishPage twoTabs (item 1 "Acme") 0 = some a ∧
      buildInvestmentCard englishPage twoTabs (item 2 "Solar") 1 = some b ∧
      cardsHtml englishPage twoTabs [item 1 "Acme", item 2 "Solar"] =
        some (List.flatten [a, b]) :=
  ⟨_, _, rfl, rfl,
    (cardsHtml_concat englishPage twoTabs [item 1 "Acme", item 2 "Solar"] [_, _] rfl
      (fun i h1 _ => by
        match i, h1 with
        | 0, _ => rfl
        | 1, _ => rfl) (by decide)).1⟩

theorem flatten_around (L : List (List Nat)) (k : Nat) (h : k + 2 < L.length) :
    List.flatten L =
      List.flatten (L.take k) ++
        (L.get ⟨k, by omega⟩ ++ L.get ⟨k + 1, by omega⟩ ++ L.get ⟨k + 2, h⟩) ++
        List.flatten (L.drop (k + 3)) := by
  have h1 : L = L.take k ++ (L.get ⟨k, by omega⟩ :: L.get ⟨k + 1, by omega⟩ ::
      L.get ⟨k + 2, h⟩ :: L.drop (k + 3)) := by
    rw [List.get_eq_getElem, List.get_eq_getElem, List.get_eq_getElem,
      ← List.drop_eq_getElem_cons, ← List.drop_eq_getElem_cons, ← List.drop_eq_getElem_cons,
      List.take_append_drop]
  conv => lhs; rw [h1]
  simp only [List.flatten_append, List.flatten_cons, List.append_assoc]

theorem occurs_of_pieces (L : List (List Nat)) (k : Nat) (h : k + 2 < L.length) (x : List Nat)
    (hx : L.get ⟨k, by omega⟩ ++ L.get ⟨k + 1, by omega⟩ ++ L.get ⟨k + 2, h⟩ = x) :
    ∃ pre post, List.flatten L = pre ++ x ++ post :=
  ⟨List.flatten (L.take k), List.flatten (L.drop (k + 3)),
    by rw [← hx]; exact flatten_around L k h⟩

theorem buildInvestmentCard_parts (env : Browser) (cfg : Config) (investment : Investment)
    (index : Nat) (h : cardThrows investment = false) :
    ∃ code description, countryCode env investment.country = some code ∧
      truncateText investment.description 150 = some description ∧
      buildInvestmentCard env cfg investment index =
        some (List.flatten (cardParts env cfg investment index code
          (countryName investment.country_name)
          (formatInvestment env investment.minimum_investment)
          (formatInvestment env investment.maximum_investment)
          (categoriesHtml investment.categories) description)) := by
  have hb : buildInvestmentCard env cfg investment index ≠ none := by
    intro hn
    rw [(buildInvestmentCard_none_iff env cfg investment index).mp hn] at h
    cases h
  unfold buildInvestmentCard at hb ⊢
  cases hc : countryCode env investment.country with
  | none => simp [hc] at hb
  | some code =>
    cases hd : truncateText investment.description 150 with
    | none => simp [hc, hd] at hb
    | some d => exact ⟨code, d, rfl, rfl, rfl⟩

theorem cardParts_length (env : Browser) (cfg : Config) (investment : Investment) (index : Nat)
    (code : String) (name : JsVal) (lo hi cats : String) (d : List Nat) :
    (cardParts env cfg investment index code name lo hi cats d).length = 113 := rfl

/-- C13 (divergence): the card of an item whose id, image, country and url
carry markup holds the four values as they came, the country only
lower-cased: the image closes the `src` attribute and opens a `script`
element.  Passed through `escapeHtml`, the image would have been written with
`&gt;` and `&lt;`, as the name of an item is. -/
theorem buildInvestmentCard_raw_fields :
    ∃ html, buildInvestmentCard englishPage twoTabs hostile 0 = some html ∧
      (∃ pre post, html =
        pre ++ utf16 "                     data-opportunity-id=\"7\"><b>\">\n" ++ post) ∧
      (∃ pre post, html = pre ++
        utf16 "                                         src=\"\"><script>alert(1)</script>\"\n" ++
        post) ∧
      (∃ pre post, html = pre ++
        utf16
          "                                         data-src=\"\"><script>alert(1)</script>\"\n" ++
        post) ∧
      (∃ pre post, html = pre ++
        utf16
          "                                             src=\"https://flagcdn.com/sa\"><i>.svg\"\n" ++
        post) ∧
      (∃ pre post, html = pre ++
        utf16
          "                                onclick=\"window.location.href=\x27\x27;alert(1);//\x27\">\n" ++
        post) ∧
      escapeHtml hostile.image = "\"&gt;&lt;script&gt;alert(1)&lt;/script&gt;" ∧
      escapeHtml (JsVal.str "<Acme>") = "&lt;Acme&gt;" := by
  obtain ⟨code, d, hc, hd, hb⟩ := buildInvestmentCard_parts englishPage twoTabs hostile 0 rfl
  have hcode : code = "sa\"><i>" := by
    have : countryCode englishPage hostile.country = some "sa\"><i>" := by decide
    rw [this] at hc
    exact (Option.some.inj hc).symm
  subst hcode
  refine ⟨_, hb, ?_, ?_, ?_, ?_, ?_, by decide, by decide⟩
  · exact occurs_of_pieces _ 5 (by rw [cardParts_length]; decide) _
      (by set_option maxRecDepth 8000 in rfl)
  · exact occurs_of_pieces _ 13 (by rw [cardParts_length]; decide) _
      (by set_option maxRecDepth 8000 in rfl)
  · exact occurs_of_pieces _ 16 (by rw [cardParts_length]; decide) _
      (by set_option maxRecDepth 8000 in rfl)
  · exact occurs_of_pieces _ 33 (by rw [cardParts_length]; decide) _
      (by set_option maxRecDepth 8000 in rfl)
  · exact occurs_of_pieces _ 101 (by rw [cardParts_length]; decide) _
      (by set_option maxRecDepth 8000 in rfl)

theorem halvings_le (fuel : Nat) : ∀ n k : Nat, n < 2 ^ (k + 1) → halvings fuel n ≤ k := by
  induction fuel with
  | zero => intro n k _; simp [halvings]
  | succ f ih =>
    intro n k h
    simp only [halvings]
    split
    · rename_i h2
      cases k with
      | zero => simp at h; omega
      | succ k =>
        have h3 : n / 2 < 2 ^ (k + 1) := by
          rw [Nat.div_lt_iff_lt_mul (by decide)]
          rw [Nat.pow_succ] at h
          exact h
        have := ih (n / 2) k h3
        omega
    · exact Nat.zero_le _

theorem roundHalfEven_bounds (p q : Nat) (hq : 0 < q) :
    2 * p ≤ 2 * (q * roundHalfEven p q) + q ∧ 2 * (q * roundHalfEven p q) ≤ 2 * p + q := by
  have hdm := Nat.div_add_mod p q
  have hr := Nat.mod_lt p hq
  simp only [roundHalfEven]
  split
  · omega
  · split
    · rw [Nat.mul_add, Nat.mul_one]; omega
    · split
      · omega
      · rw [Nat.mul_add, Nat.mul_one]; omega

theorem roundHalfEven_one (p : Nat) : roundHalfEven p 1 = p := by
  simp [roundHalfEven, Nat.mod_one]

theorem nearestDouble_natCast (v : Nat) (h1 : 1 ≤ v) (h : v < 2 ^ 53) :
    ∃ e : Nat, e ≤ 52 ∧ nearestDouble v 1 = (v * 2 ^ (52 - e), (e : Int) - 52) := by
  have he : floorLog2 v ≤ 52 := halvings_le v v 52 h
  refine ⟨floorLog2 v, he, ?_⟩
  generalize hee : floorLog2 v = e at he
  have hexp : exponent v 1 = (e : Int) := by
    simp only [exponent, if_pos h1, Nat.div_one, hee]
  have hmax : max ((e : Int) - 52) (-1074) = (e : Int) - 52 := by omega
  have hdown : (-((e : Int) - 52)).toNat = 52 - e := by omega
  have hup : ((e : Int) - 52).toNat = 0 := by omega
  simp only [nearestDouble, hexp, hmax, hdown, hup, Nat.pow_zero, Nat.mul_one,
    roundHalfEven_one]

theorem toDouble_natCast (v : Nat) (h : v < 2 ^ 53) : toDouble (v : ℚ) = Num.finite v := by
  by_cases h0 : v = 0
  · subst h0
    decide
  obtain ⟨e, he, hd⟩ := nearestDouble_natCast v (by omega) h
  have hdown : (-((e : Int) - 52)).toNat = 52 - e := by omega
  have hup : ((e : Int) - 52).toNat = 0 := by omega
  have hD : 0 < 2 ^ (52 - e) := Nat.pow_pos (by decide)
  have hbig : (2 : Nat) ^ 53 ≤ 16 ^ 256 := by decide
  have hno : ¬ (16 ^ 256 * 2 ^ (52 - e) ≤ v * 2 ^ (52 - e)) := by
    intro hle
    have := Nat.le_of_mul_le_mul_right hle hD
    omega
  have hnn : ¬ ((v : ℚ) < 0) := not_lt.mpr (Nat.cast_nonneg v)
  simp only [toDouble, Rat.num_natCast, Int.natAbs_ofNat, Rat.den_natCast, hd, hdown, hup,
    Nat.pow_zero, Nat.mul_one, if_neg hno, if_neg hnn, one_mul]
  congr 1
  rw [Rat.mkRat_eq_div]
  push_cast
  field_simp

theorem toDouble_intCast (v : Int) (h0 : 0 ≤ v) (h : v < 2 ^ 53) :
    toDouble (v : ℚ) = Num.finite v := by
  obtain ⟨n, rfl⟩ := Int.eq_ofNat_of_zero_le h0
  have := toDouble_natCast n (by exact_mod_cast h)
  simpa using this

theorem toDouble_ne_nan (v : ℚ) : toDouble v ≠ Num.nan := by
  unfold toDouble
  simp only []
  split <;> simp

theorem toFixed1_one_decimal (d : ℚ) (den : Nat) (hden : 0 < den) (h1 : (den : ℚ) ≤ d)
    (h2 : d < 10 ^ 20 * den) :
    toFixed1 (Num.finite d) den =
      toString (tenths d.num.natAbs (d.den * den) / 10) ++ "." ++
        toString (tenths d.num.natAbs (d.den * den) % 10) := by
  have hdpos : (0 : ℚ) < d := lt_of_lt_of_le (by exact_mod_cast hden) h1
  have hnum : 0 < d.num := Rat.num_pos.mpr hdpos
  have hP : ((d.num.natAbs : Nat) : ℚ) = d * d.den := by
    rw [← Int.cast_natCast, Int.natAbs_of_nonneg (le_of_lt hnum), Rat.mul_den_eq_num]
  have hdd : (0 : ℚ) < d.den := by exact_mod_cast d.den_pos
  have hQP : d.den * den ≤ d.num.natAbs := by
    have : ((d.den * den : Nat) : ℚ) ≤ ((d.num.natAbs : Nat) : ℚ) := by
      rw [hP]
      push_cast
      nlinarith
    exact_mod_cast this
  have hPQ : d.num.natAbs < 10 ^ 20 * (d.den * den) := by
    have : ((d.num.natAbs : Nat) : ℚ) < ((10 ^ 20 * (d.den * den) : Nat) : ℚ) := by
      rw [hP]
      push_cast
      nlinarith
    exact_mod_cast this
  have hQ : 0 < d.den * den := Nat.mul_pos d.den_pos hden
  have hnn : ¬ (d < 0) := not_lt.mpr (le_of_lt hdpos)
  simp only [toFixed1, hnn, false_and, if_false, String.empty_append]
  generalize d.num.natAbs = P at hQP hPQ ⊢
  generalize d.den * den = Q at hQP hPQ hQ ⊢
  have he : floorLog2 (P / Q) ≤ 66 := by
    apply halvings_le
    have h5 : P / Q < 10 ^ 20 := by
      rw [Nat.div_lt_iff_lt_mul hQ]
      exact hPQ
    have h6 : (10 : Nat) ^ 20 ≤ 2 ^ 67 := by decide
    omega
  generalize hee : floorLog2 (P / Q) = e at he
  have hexp : exponent P Q = (e : Int) := by
    simp only [exponent, if_pos hQP, hee]
  have hmax : max ((e : Int) - 52) (-1074) = (e : Int) - 52 := by omega
  have hdown : (-((e : Int) - 52)).toNat = 52 - e := by omega
  have hup : ((e : Int) - 52).toNat = e - 52 := by omega
  have hd : nearestDouble P Q =
      (roundHalfEven (P * 2 ^ (52 - e)) (Q * 2 ^ (e - 52)), (e : Int) - 52) := by
    simp only [nearestDouble, hexp, hmax, hdown, hup]
  have hA : 1 ≤ 2 ^ (52 - e) := Nat.pow_pos (by decide)
  have hB : 1 ≤ 2 ^ (e - 52) := Nat.pow_pos (by decide)
  have hB2 : 2 ^ (e - 52) ≤ 2 ^ 14 := Nat.pow_le_pow_right (by decide) (by omega)
  have hno : ¬ (10 ^ 21 * 2 ^ (52 - e) ≤
      roundHalfEven (P * 2 ^ (52 - e)) (Q * 2 ^ (e - 52)) * 2 ^ (e - 52)) := by
    generalize 2 ^ (52 - e) = A at hA
    generalize 2 ^ (e - 52) = B at hB hB2
    obtain ⟨-, hb2⟩ := roundHalfEven_bounds (P * A) (Q * B) (Nat.mul_pos hQ hB)
    generalize roundHalfEven (P * A) (Q * B) = m at hb2
    intro hle
    have k1 : Q * (10 ^ 21 * A) ≤ Q * (m * B) := Nat.mul_le_mul_left Q hle
    have k2 : Q * B * m = Q * (m * B) := by ring
    have k3 : P * A < 10 ^ 20 * Q * A := Nat.mul_lt_mul_of_pos_right hPQ hA
    have k4 : Q * (10 ^ 21 * A) = 10 ^ 21 * (Q * A) := by ring
    have k5 : 10 ^ 20 * Q * A = 10 ^ 20 * (Q * A) := by ring
    have k6 : Q * B ≤ Q * 2 ^ 14 := Nat.mul_le_mul_left Q hB2
    have k7 : Q ≤ Q * A := Nat.le_mul_of_pos_right Q hA
    rw [k2] at hb2
    rw [k4] at k1
    rw [k5] at k3
    norm_num at k1 k3 k6
    generalize Q * A = X at k1 k3 k7
    generalize Q * (m * B) = Z at k1 hb2
    generalize P * A = Y at k3 hb2
    generalize Q * B = W at k6 hb2
    omega
  simp only [hd, hdown, hup, if_neg hno]

/-- C14 (counterexample): exactly 1,000 is printed with the `K` suffix and
exactly 1,000,000 with the `M` suffix, where the claim has the plain number
`1,000` and `1000.0` thousands; and the amount `10 ^ 27` is printed without a
decimal, as `$1e+21M`. -/
theorem formatInvestment_at_thresholds :
    formatInvestment englishPage (JsVal.num 1000) = "$1.0K" ∧
    formatInvestment englishPage (JsVal.num 1000000) = "$1.0M" ∧
    "$" ++ englishPage.toLocaleString (Num.finite 1000) = "$1,000" ∧
    "$" ++ toFixed1 (Num.finite 1000000) 1000 ++ "K" = "$1000.0K" ∧
    formatInvestment englishPage (JsVal.num 1000000000000000000000000000) = "$1e+21M" := by
  refine ⟨by decide, by decide, by decide, by decide, ?_⟩
  set_option maxRecDepth 4000 in decide

/-- C14 (amended): an amount that is a number is read as a double `d`; it is
shown as `$0` when `d` is zero, as `$` + `(d / 1,000,000).toFixed(1)` + `M`
when `d ≥ 1,000,000`, as `$` + `(d / 1,000).toFixed(1)` + `K` when
`1,000 ≤ d < 1,000,000`, and as `$` + `d.toLocaleString()` below 1,000,
negative amounts included; `Infinity` is shown as `$InfinityM` and
`-Infinity` as `$` + its `toLocaleString()`; a missing amount, `NaN`, an
empty string and a string that `Number` does not read as a number are shown
as `$0`, any other string by the bands of the number that `parseFloat` reads.
`toFixed(1)` writes one decimal (1,500.5 is `$1.5K`, 1,234,567 is `$1.2M`),
in the whole `K` band and in the `M` band below `10 ^ 26`, and from a
quotient of `10 ^ 21` on the exponent form (`10 ^ 27` is `$1e+21M`). -/
theorem formatInvestment_bands (env : Browser) :
    (∀ v : ℚ, toDouble v ≠ Num.nan) ∧
    (∀ v d : ℚ, toDouble v = Num.finite d →
      formatInvestment env (JsVal.num v) =
        if d = 0 then "$0"
        else if 1000000 ≤ d then "$" ++ toFixed1 (Num.finite d) 1000000 ++ "M"
        else if 1000 ≤ d then "$" ++ toFixed1 (Num.finite d) 1000 ++ "K"
        else "$" ++ env.toLocaleString (Num.finite d)) ∧
    (∀ v : ℚ, toDouble v = Num.infinity false →
      formatInvestment env (JsVal.num v) = "$InfinityM") ∧
    (∀ v : ℚ, toDouble v = Num.infinity true →
      formatInvestment env (JsVal.num v) = "$" ++ env.toLocaleString (Num.infinity true)) ∧
    formatInvestment env (JsVal.infinity false) = "$InfinityM" ∧
    formatInvestment env (JsVal.infinity true) =
      "$" ++ env.toLocaleString (Num.infinity true) ∧
    formatInvestment env JsVal.nan = "$0" ∧
    formatInvestment env JsVal.undefined = "$0" ∧
    formatInvestment env JsVal.null = "$0" ∧
    formatInvestment env (JsVal.str "") = "$0" ∧
    (∀ s : String, env.toNumber s = Num.nan → formatInvestment env (JsVal.str s) = "$0") ∧
    (∀ (s : String) (d : ℚ), s ≠ "" → env.toNumber s ≠ Num.nan →
      env.parseFloat s = Num.finite d →
      formatInvestment env (JsVal.str s) =
        if 1000000 ≤ d then "$" ++ toFixed1 (Num.finite d) 1000000 ++ "M"
        else if 1000 ≤ d then "$" ++ toFixed1 (Num.finite d) 1000 ++ "K"
        else "$" ++ env.toLocaleString (Num.finite d)) ∧
    (∀ d : ℚ, 1000 ≤ d → d < 1000000 → ∃ t : Nat,
      toFixed1 (Num.finite d) 1000 = toString (t / 10) ++ "." ++ toString (t % 10)) ∧
    (∀ d : ℚ, 1000000 ≤ d → d < 10 ^ 26 → ∃ t : Nat,
      toFixed1 (Num.finite d) 1000000 = toString (t / 10) ++ "." ++ toString (t % 10)) ∧
    (∀ v : Int, 0 ≤ v → v < 2 ^ 53 → toDouble v = Num.finite v) ∧
    toDouble (mkRat 3001 2) = Num.finite (mkRat 3001 2) ∧
    toDouble 9007199254740993 = Num.finite 9007199254740992 ∧
    formatInvestment env (JsVal.num (mkRat 3001 2)) = "$1.5K" ∧
    formatInvestment env (JsVal.num 1234567) = "$1.2M" ∧
    formatInvestment env (JsVal.num 1000000000000000000000000000) = "$1e+21M" ∧
    formatInvestment englishPage (JsVal.num (mkRat 1999 2)) = "$999.5" ∧
    formatInvestment englishPage (JsVal.num (-5)) = "$-5" ∧
    formatInvestment englishPage (JsVal.str "2500") = "$2.5K" := by
  refine ⟨toDouble_ne_nan, ?_, ?_, ?_, ?_, ?_, ?_, ?_, ?_, ?_, ?_, ?_,
    fun d h1 h2 => ⟨_, toFixed1_one_decimal d 1000 (by decide) (by norm_num; exact h1)
      (by norm_num; linarith)⟩,
    fun d h1 h2 => ⟨_, toFixed1_one_decimal d 1000000 (by decide) (by norm_num; exact h1)
      (by norm_num; linarith)⟩,
    toDouble_intCast,
    by decide, by decide, rfl, rfl, ?_, by decide, by decide, by decide⟩
  · intro v d hd
    by_cases h0 : d = 0
    · simp [formatInvestment, truthy, hd, h0]
    · by_cases h1 : (1000000 : ℚ) ≤ d
      · simp [formatInvestment, truthy, toNumber, parseFloat, atLeast, hd, h0, h1]
      · by_cases h2 : (1000 : ℚ) ≤ d
        · simp [formatInvestment, truthy, toNumber, parseFloat, atLeast, hd, h0, h1, h2]
        · simp [formatInvestment, truthy, toNumber, parseFloat, atLeast, hd, h0, h1, h2]
  · intro v hd
    simp [formatInvestment, truthy, toNumber, parseFloat, atLeast, hd, toFixed1]
  · intro v hd
    simp [formatInvestment, truthy, toNumber, parseFloat, atLeast, hd]
  · simp [formatInvestment, truthy, toNumber, parseFloat, atLeast, toFixed1]
  · simp [formatInvestment, truthy, toNumber, parseFloat, atLeast]
  · simp [formatInvestment, truthy]
  · simp [formatInvestment, truthy]
  · simp [formatInvestment, truthy]
  · simp [formatInvestment, truthy]
  · intro s hs
    simp [formatInvestment, toNumber, hs]
  · intro s d hs hn hp
    have hn2 : (env.toNumber s == Num.nan) = false := by simpa using hn
    by_cases h1 : (1000000 : ℚ) ≤ d
    · simp [formatInvestment, truthy, toNumber, parseFloat, atLeast, hs, hn2, hp, h1]
    · by_cases h2 : (1000 : ℚ) ≤ d
      · simp [formatInvestment, truthy, toNumber, parseFloat, atLeast, hs, hn2, hp, h1, h2]
      · simp [formatInvestment, truthy, toNumber, parseFloat, atLeast, hs, hn2, hp, h1, h2]
  · set_option maxRecDepth 4000 in rfl

theorem trim_parts (cs : List Nat) :
    ∃ lead trail, cs = lead ++ trim cs ++ trail ∧
      (∀ u ∈ lead, jsWhiteSpace u = true) ∧ (∀ u ∈ trail, jsWhiteSpace u = true) ∧
      (∀ u, (trim cs).head? = some u → jsWhiteSpace u = false) ∧
      (∀ u, (trim cs).getLast? = some u → jsWhiteSpace u = false) := by
  have h1 := List.takeWhile_append_dropWhile jsWhiteSpace cs
  have h2 := List.takeWhile_append_dropWhile jsWhiteSpace (cs.dropWhile jsWhiteSpace).reverse
  have h3 : cs.dropWhile jsWhiteSpace =
      trim cs ++ ((cs.dropWhile jsWhiteSpace).reverse.takeWhile jsWhiteSpace).reverse := by
    have := congrArg List.reverse h2
    simp only [List.reverse_append, List.reverse_reverse] at this
    exact this.symm
  refine ⟨cs.takeWhile jsWhiteSpace,
    ((cs.dropWhile jsWhiteSpace).reverse.takeWhile jsWhiteSpace).reverse, ?_, ?_, ?_, ?_, ?_⟩
  · rw [List.append_assoc, ← h3, h1]
  · intro u hu
    exact List.mem_takeWhile_imp hu
  · intro u hu
    exact List.mem_takeWhile_imp (List.mem_reverse.mp hu)
  · intro u hu
    have hne : trim cs ≠ [] := by
      intro h
      rw [h] at hu
      cases hu
    have h4 := List.head?_dropWhile_not jsWhiteSpace cs
    rw [h3, List.head?_append_of_ne_nil _ hne, hu] at h4
    exact h4
  · intro u hu
    have h4 := List.head?_dropWhile_not jsWhiteSpace (cs.dropWhile jsWhiteSpace).reverse
    have h5 : (trim cs).getLast? =
        ((cs.dropWhile jsWhiteSpace).reverse.dropWhile jsWhiteSpace).head? := by
      rw [trim, List.getLast?_reverse]
    rw [← h5, hu] at h4
    exact h4

theorem trim_contiguous (cs : List Nat) : ∃ pre post, cs = pre ++ trim cs ++ post := by
  obtain ⟨lead, trail, h, -⟩ := trim_parts cs
  exact ⟨lead, trail, h⟩

theorem trim_length_le (cs : List Nat) : (trim cs).length ≤ cs.length := by
  obtain ⟨pre, post, h⟩ := trim_contiguous cs
  have := congrArg List.length h
  simp only [List.length_append] at this
  omega

theorem jsWhiteSpace_iff (u : Nat) :
    jsWhiteSpace u = true ↔
      u ∈ [9, 10, 11, 12, 13, 32, 160, 5760, 8192, 8193, 8194, 8195, 8196, 8197, 8198, 8199,
        8200, 8201, 8202, 8232, 8233, 8239, 8287, 12288, 65279] := by
  simp only [jsWhiteSpace, Bool.or_eq_true, Bool.and_eq_true, beq_iff_eq, decide_eq_true_eq,
    List.mem_cons, List.mem_singleton, List.not_mem_nil, or_false]
  omega

theorem escapeChar_units (c : Char) :
    (escapeChar c).flatMap codeUnits = (codeUnits c).flatMap escapeUnit := by
  unfold escapeChar
  by_cases h1 : c.toNat = 38
  · simp [h1, codeUnits, escapeUnit, utf16]
  by_cases h2 : c.toNat = 60
  · simp [h2, codeUnits, escapeUnit, utf16]
  by_cases h3 : c.toNat = 62
  · simp [h3, codeUnits, escapeUnit, utf16]
  by_cases h4 : c.toNat = 160
  · simp [h4, codeUnits, escapeUnit, utf16]
  by_cases h5 : c.toNat < 65536
  · simp [h1, h2, h3, h4, h5, codeUnits, escapeUnit]
  · have a1 : ∀ x k : Nat, k < 55296 → ¬ (55296 + x = k) := fun x k hk => by omega
    have a2 : ∀ x k : Nat, k < 55296 → ¬ (56320 + x = k) := fun x k hk => by omega
    simp [h1, h2, h3, h4, h5, codeUnits, escapeUnit, a1, a2]

theorem escapeHtmlUnits_utf16 (t : String) :
    escapeHtmlUnits (utf16 t) = utf16 (escapeHtml (JsVal.str t)) := by
  have h1 : escapeHtmlUnits (utf16 t) = (utf16 t).flatMap escapeUnit := by
    unfold escapeHtmlUnits
    split
    · rename_i h
      rw [List.isEmpty_iff] at h
      rw [h]
      rfl
    · rfl
  have h2 : escapeHtml (JsVal.str t) = serializeText t := by
    by_cases ht : t = ""
    · subst ht
      rfl
    · simp [escapeHtml, truthy, ht, toStr]
  rw [h1, h2, utf16, utf16, serializeText, List.flatMap_assoc, List.flatMap_assoc]
  exact (List.flatMap_congr (fun c _ => escapeChar_units c)).symm

/-- C15: `truncateText` returns the empty string for an absent or empty
text and the text itself when its length is at most `maxLength`.  Otherwise
it returns a part of the text followed by `...`: the first `maxLength` code
units of the text (what `length` counts and `substring` cuts) are white space,
then the part, then white space, and the part neither starts nor ends with
white space; white space is the set that `trim` removes.  The description of
a card is the item description truncated to 150 code units, then escaped,
which for a text that is not cut is `escapeHtml` of the text. -/
theorem truncateText_cases (s : String) (maxLength : Nat) :
    truncateText JsVal.undefined maxLength = some [] ∧
    truncateText JsVal.null maxLength = some [] ∧
    truncateText (JsVal.str "") maxLength = some [] ∧
    ((utf16 s).length ≤ maxLength → truncateText (JsVal.str s) maxLength = some (utf16 s)) ∧
    (maxLength < (utf16 s).length → ∃ lead part trail,
      (utf16 s).take maxLength = lead ++ part ++ trail ∧
      (∀ u ∈ lead, jsWhiteSpace u = true) ∧ (∀ u ∈ trail, jsWhiteSpace u = true) ∧
      (∀ u, part.head? = some u → jsWhiteSpace u = false) ∧
      (∀ u, part.getLast? = some u → jsWhiteSpace u = false) ∧
      truncateText (JsVal.str s) maxLength = some (part ++ utf16 "...")) ∧
    (∀ u : Nat, jsWhiteSpace u = true ↔
      u ∈ [9, 10, 11, 12, 13, 32, 160, 5760, 8192, 8193, 8194, 8195, 8196, 8197, 8198, 8199,
        8200, 8201, 8202, 8232, 8233, 8239, 8287, 12288, 65279]) ∧
    truncateText (JsVal.str "  ab  cd  ") 5 = some (utf16 "ab...") ∧
    truncateText (JsVal.str "ab cdef") 3 = some (utf16 "ab...") ∧
    truncateText (JsVal.str "abcdef") 3 = some (utf16 "abc...") ∧
    truncateText (JsVal.str "😀😀😀") 6 = some (utf16 "😀😀😀") ∧
    truncateText (JsVal.str "😀😀😀") 4 = some (utf16 "😀😀...") ∧
    truncateText (JsVal.str "😀😀😀") 3 = some [55357, 56832, 55357, 46, 46, 46] ∧
    (∀ (env : Browser) (cfg : Config) (investment : Investment) (index : Nat)
      (html : List Nat),
      buildInvestmentCard env cfg investment index = some html →
      ∃ description pre post, truncateText investment.description 150 = some description ∧
        html = pre ++ (utf16 "                    <p class=\"parag__\">" ++
          escapeHtmlUnits description ++ utf16 "</p>\n") ++ post) ∧
    (∀ t : String, escapeHtmlUnits (utf16 t) = utf16 (escapeHtml (JsVal.str t))) := by
  refine ⟨rfl, rfl, rfl, ?_, ?_, jsWhiteSpace_iff, by decide, by decide, by decide, by decide,
    by decide, by decide, ?_, escapeHtmlUnits_utf16⟩
  · intro hl
    by_cases hs : s = ""
    · subst hs
      rfl
    · have ht : truthy (JsVal.str s) = true := by simp [truthy, hs]
      simp [truncateText, ht, hl]
  · intro hl
    have hs : s ≠ "" := by
      intro h
      subst h
      simp [utf16] at hl
    have ht : truthy (JsVal.str s) = true := by simp [truthy, hs]
    obtain ⟨lead, trail, h1, h2, h3, h4, h5⟩ := trim_parts ((utf16 s).take maxLength)
    refine ⟨lead, _, trail, h1, h2, h3, h4, h5, ?_⟩
    simp [truncateText, ht, Nat.not_le.mpr hl]
  · intro env cfg investment index html hb
    have ht : cardThrows investment = false := by
      rw [Bool.eq_false_iff]
      intro h
      rw [(buildInvestmentCard_none_iff env cfg investment index).mpr h] at hb
      cases hb
    obtain ⟨code, d, -, hd, hb2⟩ := buildInvestmentCard_parts env cfg investment index ht
    rw [hb2] at hb
    obtain ⟨pre, post, hpp⟩ := occurs_of_pieces
      (cardParts env cfg investment index code (countryName investment.country_name)
        (formatInvestment env investment.minimum_investment)
        (formatInvestment env investment.maximum_investment)
        (categoriesHtml investment.categories) d) 52
      (by rw [cardParts_length]; decide) _ rfl
    exact ⟨d, pre, post, hd, by rw [← Option.some.inj hb]; exact hpp⟩

theorem occurs_window (L : List String) (k n : Nat) :
    ∃ pre post, String.join L = pre ++ String.join ((L.drop k).take n) ++ post := by
  refine ⟨String.join (L.take k), String.join ((L.drop k).drop n), ?_⟩
  rw [String.append_assoc, ← join_append, ← join_append, List.take_append_drop,
    List.take_append_drop]

theorem retryHtml_attempt (cfg : Config) (attemptNumber : Nat) :
    ∃ pre post, retryHtml cfg attemptNumber =
      pre ++ ("<p>Retrying automatically... Attempt " ++ toString attemptNumber ++ " of " ++
        toString cfg.maxRetries ++ "</p>\n") ++ post := by
  obtain ⟨pre, post, h⟩ := occurs_window (retryParts cfg attemptNumber) 11 5
  refine ⟨pre ++ "                        ", post, ?_⟩
  rw [retryHtml, h]
  have : String.join (((retryParts cfg attemptNumber).drop 11).take 5) =
      "                        " ++ ("<p>Retrying automatically... Attempt " ++
        toString attemptNumber ++ " of " ++ toString cfg.maxRetries ++ "</p>\n") := by
    simp only [retryParts, List.drop_succ_cons, List.drop_zero, List.take_succ_cons,
      List.take_zero, join_cons, String.join, List.foldl_nil]
    apply String.ext
    simp [String.data_append]
  rw [this]
  simp only [String.append_assoc]

theorem serializeText_chars (s : String) (c : Char) (hc : c ∈ (serializeText s).data) :
    c.toNat ≠ 60 ∧ c.toNat ≠ 62 := by
  simp only [serializeText, List.mem_flatMap] at hc
  obtain ⟨a, -, ha⟩ := hc
  unfold escapeChar at ha
  split at ha
  · have : ∀ x ∈ "&amp;".data, x.toNat ≠ 60 ∧ x.toNat ≠ 62 := by decide
    exact this c ha
  · split at ha
    · have : ∀ x ∈ "&lt;".data, x.toNat ≠ 60 ∧ x.toNat ≠ 62 := by decide
      exact this c ha
    · split at ha
      · have : ∀ x ∈ "&gt;".data, x.toNat ≠ 60 ∧ x.toNat ≠ 62 := by decide
        exact this c ha
      · split at ha
        · have : ∀ x ∈ "&nbsp;".data, x.toNat ≠ 60 ∧ x.toNat ≠ 62 := by decide
          exact this c ha
        · rename_i h60 h62 _
          rw [List.mem_singleton] at ha
          subst ha
          exact ⟨by simpa using h60, by simpa using h62⟩

/-- The retry messages from a quiet state: with `maxRetries = 3`, from
`loadInvestments(c)` called with no timer pending and no request in flight,
three failures that are neither timeouts nor aborts put in the container, in
this order, the shimmer and the retry messages of attempts 1, 2 and 3; the
fourth failure puts the error view there and no further message.  The text
of the message of attempt `k` reads `Attempt k of 3`, and a failure handled
with `retryCount = k - 1` calls `showRetryMessage(k)`.  However such
failures, waits and timer firings are interleaved, the retry messages shown
so far are those of attempts `1 .. retryCount` in this order, and they are
the three of them once the error view is scheduled. -/
theorem retry_messages_in_order (cfg : Config) (s0 : State) (c : JsVal)
    (statuses : List String) (last : String) (hmax : cfg.maxRetries = 3)
    (ht : s0.timers = []) (hf : s0.inFlight = []) (hlen : statuses.length = 3)
    (hs : ∀ st ∈ statuses, st ≠ "timeout" ∧ st ≠ "abort")
    (hl : last ≠ "timeout" ∧ last ≠ "abort") :
    (∃ s1 s2 delta,
      run cfg (loadInvestments cfg s0 c)
        ([Event.wait 300, Event.timer] ++ failedAttempts cfg s0.nextHandle statuses) = some s1 ∧
      s1.log = s0.log ++ delta ∧
      renders delta = [View.shimmer, View.retryMessage 1 3, View.retryMessage 2 3,
        View.retryMessage 3 3] ∧
      run cfg s1 [Event.ajax (s0.nextHandle + 3) (Outcome.error last),
        Event.wait 400, Event.timer] = some s2 ∧
      renders s2.log = renders s1.log ++ [View.error 0] ∧ s2.container = View.error 0) ∧
    (∀ k : Nat, ∃ pre post, retryHtml cfg k =
      pre ++ ("<p>Retrying automatically... Attempt " ++ toString k ++ " of " ++
        toString 3 ++ "</p>\n") ++ post) ∧
    (∀ (s : State) (status : String) (categoryId : JsVal),
      s.retryCount < 3 → status ≠ "timeout" →
      (handleError cfg s status categoryId).container =
        View.retryMessage (s.retryCount + 1) 3) ∧
    (∀ (es : List Event) (s : State), (∀ e ∈ es, failureOnly e = true) →
      run cfg (loadInvestments cfg s0 c) es = some s →
      ∃ delta, s.log = s0.log ++ delta ∧ s.retryCount ≤ 3 ∧
        retryMessages delta =
          (List.range s.retryCount).map (fun i => View.retryMessage (i + 1) 3) ∧
        (errorViewsScheduled delta = 1 →
          retryMessages delta =
            [View.retryMessage 1 3, View.retryMessage 2 3, View.retryMessage 3 3])) := by
  refine ⟨?_, ?_, ?_, ?_⟩
  · obtain ⟨s1, s2, delta, h1, h2, -, -, h5, -, h7, h8, h9, -, -⟩ :=
      canonical_failures_run cfg s0 c statuses last ht hf (by rw [hlen, hmax]) hs hl
    rw [hmax] at h5 h7
    refine ⟨s1, s2, delta, h1, h2, ?_, h7, ?_, h9⟩
    · rw [h5]
      rfl
    · rw [h8, renders_append]
      rfl
  · intro k
    have := retryHtml_attempt cfg k
    rw [hmax] at this
    exact this
  · intro s status categoryId hk hst
    simp [handleError, hmax, hk, hst, showRetryMessage, html, setTimeout]
  · intro es s hes hr
    obtain ⟨delta, inv⟩ :=
      RetryRun.run cfg s0 c es _ s _ (RetryRun.start cfg s0 c ht hf) hes hr
    have hm := inv.messages
    have hle := inv.count_le
    rw [hmax] at hm hle
    refine ⟨delta, inv.log_eq, hle, hm, ?_⟩
    intro he
    have h3 := ((RetryRun.summary cfg s0 s c delta inv).2.2.2.2.2.2 he).1
    rw [hmax] at h3
    rw [hm, h3]
    rfl

/-- An instance of the retry messages: three failures of `energy` from page
load, with the default policy. -/
theorem retry_messages_in_order_witness :
    twoTabs.maxRetries = 3 ∧
    ∃ s1 s2 delta,
      run twoTabs (loadInvestments twoTabs init (JsVal.str "energy"))
        ([Event.wait 300, Event.timer] ++
          failedAttempts twoTabs init.nextHandle ["error", "error", "parsererror"]) = some s1 ∧
      s1.log = init.log ++ delta ∧
      renders delta = [View.shimmer, View.retryMessage 1 3, View.retryMessage 2 3,
        View.retryMessage 3 3] ∧
      run twoTabs s1 [Event.ajax (init.nextHandle + 3) (Outcome.error "error"),
        Event.wait 400, Event.timer] = some s2 ∧
      renders s2.log = renders s1.log ++ [View.error 0] ∧ s2.container = View.error 0 :=
  ⟨rfl, (retry_messages_in_order twoTabs init (JsVal.str "energy")
    ["error", "error", "parsererror"] "error" rfl rfl rfl rfl (by decide) (by decide)).1⟩

/-- C16 (divergence): the user clicks Try Again at 1100 ms, while the 600 ms
timer of the response to the first click is pending; `loadInvestments` sets
`retryCount` to 0 and from then on every request fails with the status
`error`.  The failure at 1150 ms shows `Attempt 1 of 3`; the 600 ms timer
fires at 1650 ms and sets the shared `retryCount` back to 0, so the failure
of the retry at 4250 ms shows `Attempt 1 of 3` again, where the second
failure of the run should show `Attempt 2 of 3`. -/
theorem attempt_one_shown_twice :
    twoTabs.maxRetries = 3 ∧
    (run twoTabs init (responseWaiting ++ tryAgainFails.take 2)).map
        (fun s => (s.now, s.retryCount, failures s.log, retryMessages s.log, s.timers)) =
      some (1100, 0, 1, [],
        [(1300, Timer.shimmer), (1650, Timer.minimumLoading [item 1 "Acme"]),
         (1400, Timer.shimmer)]) ∧
    (run twoTabs init (responseWaiting ++ tryAgainFails)).map
        (fun s => (s.now, s.retryCount, failures s.log, retryMessages s.log)) =
      some (1150, 1, 2, [View.retryMessage 1 3]) ∧
    (run twoTabs init (responseWaiting ++ tryAgainFails ++ retryFails)).map
        (fun s => (s.now, s.retryCount, failures s.log, retryMessages s.log, s.container,
          (fetches s.log).map (fun r => r.handle))) =
      some (4250, 1, 3, [View.retryMessage 1 3, View.retryMessage 1 3], View.retryMessage 1 3,
        [0, 1, 2, 3]) ∧
    (∃ pre post, retryHtml twoTabs 1 =
      pre ++ "<p>Retrying automatically... Attempt 1 of 3</p>\n" ++ post) := by
  refine ⟨rfl, rfl, rfl, rfl, ?_⟩
  obtain ⟨pre, post, h⟩ := retryHtml_attempt twoTabs 1
  exact ⟨pre, post, h⟩

/-- C17 (divergence): `energy` was selected at 500 ms while the retry timer
of the failed `tech` request was pending; the timer is still in the queue at
3100 ms, and when it fires it issues a request for `tech` and overwrites
`currentRequest`, which held the request of `energy`. -/
theorem stale_retry_timer_fires :
    (run twoTabs init energyPending).map
        (fun s => (s.currentCategory, s.currentRequest, s.inFlight, s.timers)) =
      some (JsVal.str "energy", some 1, [requestFor twoTabs 1 (JsVal.str "energy")],
        [(3100, Timer.retry (JsVal.str "tech"))]) ∧
    (run twoTabs init (energyPending ++ [Event.timer])).map
        (fun s => (s.currentCategory, s.currentRequest, s.inFlight, fetches s.log)) =
      some (JsVal.str "energy", some 2,
        [requestFor twoTabs 1 (JsVal.str "energy"), requestFor twoTabs 2 (JsVal.str "tech")],
        [requestFor twoTabs 0 (JsVal.str "tech"), requestFor twoTabs 1 (JsVal.str "energy"),
         requestFor twoTabs 2 (JsVal.str "tech")]) :=
  ⟨rfl, rfl⟩

/-- C18: `fetchInvestments` issues one request, a `GET` to `config.ajaxUrl`,
whose `category_id` is `all` when the id is `null` or `undefined` and the id
itself otherwise; the parameter differs from the id exactly when the id is
`null` or `undefined`. -/
theorem fetchInvestments_request (cfg : Config) (s : State) (categoryId : JsVal) :
    fetchInvestments cfg s categoryId =
      { s with
        currentRequest := some s.nextHandle
        nextHandle := s.nextHandle + 1
        inFlight := s.inFlight ++ [requestFor cfg s.nextHandle categoryId]
        log := s.log ++ [Effect.ajax (requestFor cfg s.nextHandle categoryId)] } ∧
    fetches (fetchInvestments cfg s categoryId).log =
      fetches s.log ++ [requestFor cfg s.nextHandle categoryId] ∧
    requestFor cfg s.nextHandle categoryId =
      { handle := s.nextHandle, categoryId := categoryId, method := "GET", url := cfg.ajaxUrl,
        category_id :=
          if categoryId = JsVal.null ∨ categoryId = JsVal.undefined then JsVal.str "all"
          else categoryId } ∧
    ((requestFor cfg s.nextHandle categoryId).category_id ≠ categoryId ↔
      categoryId = JsVal.null ∨ categoryId = JsVal.undefined) := by
  refine ⟨rfl, ?_, ?_, ?_⟩
  · simp [fetchInvestments, fetches_append, fetches]
  · cases categoryId <;> simp [requestFor, orAll]
  · cases categoryId <;> simp [requestFor, orAll]

/-- C19: the `error` callback with status `abort` does not call `handleError`
and leaves the state as it is; a request that ends with `abort` only leaves
the network, and `complete` clears `currentRequest`: `retryCount`,
`isLoading`, `currentCategory`, the container, the timers and the log are
unchanged.  The same holds when `loadInvestments` aborts the request, up to
the abort written in the log. -/
theorem aborted_request_ignored (cfg : Config) (s : State) (categoryId : JsVal) (h : Nat) :
    onError cfg s "abort" categoryId = s ∧
    (∀ r : Request, findRequest s h = some r →
      step cfg s (Event.ajax h (Outcome.error "abort")) =
        some { s with
          currentRequest := none
          inFlight := s.inFlight.filter (fun r => r.handle != h) }) ∧
    (∀ r : Request, findRequest s h = some r →
      abort cfg s h =
        { s with
          currentRequest := none
          inFlight := s.inFlight.filter (fun r => r.handle != h)
          log := s.log ++ [Effect.abort h] }) := by
  refine ⟨?_, ?_, ?_⟩
  · simp [onError]
  · intro r hr
    simp [step, hr, onError, onComplete, removeRequest]
  · intro r hr
    rw [abort_fields]
    simp [hr]

/-- C20 (divergence): `escapeHtml` returns a text with a double quote as it
is, so in the card the name `x" onerror="alert(1)` closes the `alt` attribute
and adds an `onerror` attribute to the image.  What `escapeHtml` does remove
are the characters `<` and `>`. -/
theorem escapeHtml_keeps_double_quote :
    escapeHtml (JsVal.str "x\" onerror=\"alert(1)") = "x\" onerror=\"alert(1)" ∧
    (∃ html pre post, buildInvestmentCard englishPage twoTabs hostile 0 = some html ∧
      html = pre ++
        utf16 "                                         alt=\"x\" onerror=\"alert(1)\"/>\n" ++
        post) ∧
    (∀ (s : String) (c : Char), c ∈ (serializeText s).data → c.toNat ≠ 60 ∧ c.toNat ≠ 62) := by
  refine ⟨by decide, ?_, serializeText_chars⟩
  obtain ⟨code, d, -, -, hb⟩ := buildInvestmentCard_parts englishPage twoTabs hostile 0 rfl
  obtain ⟨pre, post, hpp⟩ := occurs_of_pieces
    (cardParts englishPage twoTabs hostile 0 code (countryName hostile.country_name)
      (formatInvestment englishPage hostile.minimum_investment)
      (formatInvestment englishPage hostile.maximum_investment)
      (categoriesHtml hostile.categories) d) 19
    (by rw [cardParts_length]; decide)
    (utf16 "                                         alt=\"x\" onerror=\"alert(1)\"/>\n")
    (by set_option maxRecDepth 8000 in rfl)
  exact ⟨_, pre, post, hb, hpp⟩

/-! ## The claims on the lengths and the rounding of the formatting functions -/

/-- C28: on a string `truncateText` returns a text of at most `maxLength + 3`
code units, the string itself (at most `maxLength` code units) when it fits,
and otherwise a part followed by the ellipsis, the part being a contiguous
piece of the first `maxLength` code units; on any other value it returns the
empty text or throws.  Lengths are those of JavaScript: UTF-16 code units. -/
theorem truncateText_length_bound (maxLength : Nat) :
    (∀ s : String, ∃ r, truncateText (JsVal.str s) maxLength = some r ∧
      r.length ≤ maxLength + 3 ∧
      ((utf16 s).length ≤ maxLength → r = utf16 s ∧ r.length ≤ maxLength) ∧
      (maxLength < (utf16 s).length → ∃ part : List Nat, r = part ++ utf16 "..." ∧
        part.length ≤ maxLength ∧
        ∃ pre post, (utf16 s).take maxLength = pre ++ part ++ post)) ∧
    (∀ (text : JsVal) (r : List Nat), truncateText text maxLength = some r →
      r.length ≤ maxLength + 3) ∧
    (utf16 "😀😀😀").length = 6 ∧
    truncateText (JsVal.str "😀😀😀") 4 = some (utf16 "😀😀...") ∧
    truncateText (JsVal.str "😀😀😀") 6 = some (utf16 "😀😀😀") := by
  have hstr : ∀ s : String, ∃ r, truncateText (JsVal.str s) maxLength = some r ∧
      r.length ≤ maxLength + 3 ∧
      ((utf16 s).length ≤ maxLength → r = utf16 s ∧ r.length ≤ maxLength) ∧
      (maxLength < (utf16 s).length → ∃ part : List Nat, r = part ++ utf16 "..." ∧
        part.length ≤ maxLength ∧
        ∃ pre post, (utf16 s).take maxLength = pre ++ part ++ post) := by
    intro s
    have hlen : (trim ((utf16 s).take maxLength)).length ≤ maxLength :=
      Nat.le_trans (trim_length_le _) (by simp [List.length_take])
    have h3 : (utf16 "...").length = 3 := by decide
    by_cases ht : truthy (JsVal.str s) = true
    · by_cases hl : (utf16 s).length ≤ maxLength
      · refine ⟨utf16 s, by simp [truncateText, ht, hl], by omega, fun _ => ⟨rfl, hl⟩,
          fun h => by omega⟩
      · refine ⟨trim ((utf16 s).take maxLength) ++ utf16 "...",
          by simp [truncateText, ht, hl], ?_, fun h => absurd h hl, fun _ => ?_⟩
        · rw [List.length_append, h3]
          omega
        · exact ⟨_, rfl, hlen, trim_contiguous _⟩
    · have hs : s = "" := by
        simp only [truthy, bne_iff_ne, ne_eq, Decidable.not_not] at ht
        exact ht
      subst hs
      refine ⟨[], rfl, by simp, fun _ => ⟨rfl, by simp⟩, fun h => ?_⟩
      simp [utf16] at h
  refine ⟨hstr, ?_, by decide, by decide, by decide⟩
  intro text r hr
  cases text with
  | str s =>
    obtain ⟨r1, h1, h2, _⟩ := hstr s
    rw [h1] at hr
    cases hr
    exact h2
  | undefined => simp [truncateText, truthy] at hr; subst hr; simp
  | null => simp [truncateText, truthy] at hr; subst hr; simp
  | nan => simp [truncateText, truthy] at hr; subst hr; simp
  | infinity b => simp [truncateText, truthy] at hr
  | bool b =>
    cases b <;> simp [truncateText, truthy] at hr
    subst hr; simp
  | num n =>
    by_cases hn : toDouble n = Num.finite 0
    · simp [truncateText, truthy, hn] at hr; subst hr; simp
    · simp [truncateText, truthy, hn] at hr

theorem nearestDouble_thousands (v : Nat) (h1 : 1000 ≤ v) (h2 : v < 1000000) :
    ∃ e : Nat, e ≤ 9 ∧
      nearestDouble v 1000 = (roundHalfEven (v * 2 ^ (52 - e)) 1000, (e : Int) - 52) := by
  have he : floorLog2 (v / 1000) ≤ 9 := by
    apply halvings_le
    have : v / 1000 < 1000 := by omega
    omega
  refine ⟨floorLog2 (v / 1000), he, ?_⟩
  generalize hee : floorLog2 (v / 1000) = e at he
  have hexp : exponent v 1000 = (e : Int) := by
    simp only [exponent, if_pos h1, hee]
  have hmax : max ((e : Int) - 52) (-1074) = (e : Int) - 52 := by omega
  have hdown : (-((e : Int) - 52)).toNat = 52 - e := by omega
  have hup : ((e : Int) - 52).toNat = 0 := by omega
  simp only [nearestDouble, hexp, hmax, hdown, hup, Nat.pow_zero, Nat.mul_one]

theorem tenths_thousands (v : Nat) (h1 : 1000 ≤ v) (h2 : v < 1000000) :
    10 ≤ tenths v 1000 ∧ tenths v 1000 ≤ 10000 ∧
      (v < 999950 → tenths v 1000 < 10000) ∧ (999950 < v → tenths v 1000 = 10000) := by
  obtain ⟨e, he, hd⟩ := nearestDouble_thousands v h1 h2
  have hdown : (-((e : Int) - 52)).toNat = 52 - e := by omega
  have hup : ((e : Int) - 52).toNat = 0 := by omega
  have hD : 2 ^ 43 ≤ 2 ^ (52 - e) := Nat.pow_le_pow_right (by decide) (by omega)
  simp only [tenths, hd, hdown, hup, Nat.pow_zero, Nat.mul_one]
  generalize 2 ^ (52 - e) = D at hD
  obtain ⟨hb1, hb2⟩ := roundHalfEven_bounds (v * D) 1000 (by decide)
  generalize roundHalfEven (v * D) 1000 = m at hb1 hb2
  have hX1 : 1000 * D ≤ v * D := Nat.mul_le_mul_right D h1
  have hX2 : v * D ≤ 999999 * D := Nat.mul_le_mul_right D (by omega)
  have hpos : 0 < 2 * D := by omega
  norm_num at hD
  refine ⟨?_, ?_, ?_, ?_⟩
  · rw [Nat.le_div_iff_mul_le hpos]; omega
  · rw [← Nat.lt_succ_iff, Nat.div_lt_iff_lt_mul hpos]; omega
  · intro h3
    have hX3 : v * D ≤ 999949 * D := Nat.mul_le_mul_right D (by omega)
    rw [Nat.div_lt_iff_lt_mul hpos]; omega
  · intro h3
    have hX3 : 999951 * D ≤ v * D := Nat.mul_le_mul_right D (by omega)
    apply Nat.le_antisymm
    · rw [← Nat.lt_succ_iff, Nat.div_lt_iff_lt_mul hpos]; omega
    · rw [Nat.le_div_iff_mul_le hpos]; omega

theorem toFixed1_thousands (v : Nat) (h1 : 1000 ≤ v) (h2 : v < 1000000) :
    toFixed1 (Num.finite (v : ℚ)) 1000 =
      toString (tenths v 1000 / 10) ++ "." ++ toString (tenths v 1000 % 10) := by
  obtain ⟨e, he, hd⟩ := nearestDouble_thousands v h1 h2
  have hdown : (-((e : Int) - 52)).toNat = 52 - e := by omega
  have hup : ((e : Int) - 52).toNat = 0 := by omega
  have hD : 1 ≤ 2 ^ (52 - e) := Nat.pow_pos (by decide)
  have hnn : ¬ ((v : ℚ) < 0) := not_lt.mpr (Nat.cast_nonneg v)
  have hno : ¬ (10 ^ 21 * 2 ^ (52 - e) ≤ roundHalfEven (v * 2 ^ (52 - e)) 1000) := by
    generalize 2 ^ (52 - e) = D at hD
    obtain ⟨hb1, hb2⟩ := roundHalfEven_bounds (v * D) 1000 (by decide)
    generalize roundHalfEven (v * D) 1000 = m at hb1 hb2
    have hX2 : v * D ≤ 999999 * D := Nat.mul_le_mul_right D (by omega)
    omega
  simp only [toFixed1, Rat.num_natCast, Int.natAbs_ofNat, Rat.den_natCast, Nat.one_mul, hd,
    hdown, hup, Nat.pow_zero, Nat.mul_one, if_neg hno, hnn, false_and, if_false,
    String.empty_append]

theorem formatInvestment_thousands (env : Browser) (v : Int) (h1 : 1000 ≤ v) (h2 : v < 1000000) :
    formatInvestment env (JsVal.num v) =
      "$" ++ (toString (tenths v.toNat 1000 / 10) ++ "." ++ toString (tenths v.toNat 1000 % 10))
        ++ "K" := by
  obtain ⟨n, rfl⟩ := Int.eq_ofNat_of_zero_le (by omega : 0 ≤ v)
  have hn1 : 1000 ≤ n := by exact_mod_cast h1
  have hn2 : n < 1000000 := by exact_mod_cast h2
  have hd : toDouble ((n : Int) : ℚ) = Num.finite (n : ℚ) := by
    have := toDouble_natCast n (by omega)
    simpa using this
  have h0 : (n : ℚ) ≠ 0 := by
    have : (0 : ℚ) < n := by exact_mod_cast (by omega : 0 < n)
    exact ne_of_gt this
  have h3 : ¬ ((1000000 : ℚ) ≤ n) := by
    have : (n : ℚ) < 1000000 := by exact_mod_cast hn2
    exact not_le.mpr this
  have h4 : (1000 : ℚ) ≤ n := by exact_mod_cast hn1
  simp only [formatInvestment, truthy, toNumber, parseFloat, hd, atLeast]
  simp [h0, h3, h4, toFixed1_thousands n hn1 hn2]

/-- C29: the amount 999,999 is printed as `$1000.0K`, and so is every amount
from 999,950 up to 999,999; below 999,950 the number before `K` is between
1.0 and 999.9. -/
theorem formatInvestment_prints_1000K (env : Browser) :
    formatInvestment env (JsVal.num 999999) = "$1000.0K" ∧
    (∀ v : Int, 999950 ≤ v → v < 1000000 → formatInvestment env (JsVal.num v) = "$1000.0K") ∧
    (∀ v : Int, 1000 ≤ v → v < 999950 → ∃ n : Nat, 10 ≤ n ∧ n < 10000 ∧
      formatInvestment env (JsVal.num v) =
        "$" ++ (toString (n / 10) ++ "." ++ toString (n % 10)) ++ "K") := by
  have hband : ∀ v : Int, 999950 ≤ v → v < 1000000 →
      formatInvestment env (JsVal.num v) = "$1000.0K" := by
    intro v h1 h2
    rw [formatInvestment_thousands env v (by omega) h2]
    have ht : tenths v.toNat 1000 = 10000 := by
      by_cases h : v = 999950
      · subst h; decide
      · exact (tenths_thousands v.toNat (by omega) (by omega)).2.2.2 (by omega)
    rw [ht]; decide
  refine ⟨?_, hband, ?_⟩
  · have := hband 999999 (by decide) (by decide)
    simpa using this
  intro v h1 h2
  obtain ⟨ha, _, hb, _⟩ := tenths_thousands v.toNat (by omega) (by omega)
  exact ⟨_, ha, hb (by omega), formatInvestment_thousands env v h1 (by omega)⟩

end InvestmentsManager

/-! # Lemmas and claims on the lazy loading and the chart data -/

namespace Dom

theorem hasClass_classAdd_self (c : String) (l : List String) :
    hasClass c (classAdd c l) = true := by
  unfold hasClass classAdd
  split
  · assumption
  · simp

theorem hasClass_classRemove_self (c : String) (l : List String) :
    hasClass c (classRemove c l) = false := by
  simp [hasClass, classRemove]

theorem hasClass_classAdd_ne (c d : String) (l : List String) (h : c ≠ d) :
    hasClass c (classAdd d l) = hasClass c l := by
  unfold hasClass classAdd
  split
  · rfl
  · simp [h]

theorem hasClass_classRemove_ne (c d : String) (l : List String) (h : c ≠ d) :
    hasClass c (classRemove d l) = hasClass c l := by
  simp [hasClass, classRemove, h]

end Dom

namespace Plugin

open Dom

theorem loads_append (a b : List LazyEffect) : loads (a ++ b) = loads a ++ loads b := by
  induction a with
  | nil => rfl
  | cons e a ih => cases e <;> simp [loads, ih]

theorem retryDelays_append (a b : List LazyEffect) :
    retryDelays (a ++ b) = retryDelays a ++ retryDelays b := by
  induction a with
  | nil => rfl
  | cons e a ih =>
    cases e with
    | setTimeout d t => cases t <;> simp [retryDelays, ih]
    | _ => simp [retryDelays, ih]

theorem loadErrors_append (a b : List LazyEffect) :
    loadErrors (a ++ b) = loadErrors a + loadErrors b := by
  induction a with
  | nil => simp [loadErrors]
  | cons e a ih => cases e <;> simp [loadErrors, ih, Nat.add_assoc]

theorem preloadImage_some (cfg : LazyLoadConfig) (img : LazyImage) (isPriority : Bool)
    (src : String) (hsrc : img.dataSrc = some src) (hne : src ≠ "") :
    ∃ s0, preloadImage img cfg isPriority = some s0 ∧ s0.retryCount = 0 ∧
      s0.loading = some src ∧ s0.timers = [] ∧ s0.log = [LazyEffect.load src] ∧
      s0.classList = classAdd "loading" img.classList ∧
      s0.parent = img.parent.map (classAdd "loading-omd") := by
  have hp : present (some src) = true := by simp [present, hne]
  cases hA : (cfg.enableProgressiveLoading && present img.dataPlaceholder && !isPriority) <;>
    cases hB : cfg.enableBlurEffect <;> cases hC : present img.dataSrcset <;>
    simp [preloadImage, hp, hsrc, hA, hB, hC, load]

theorem failingLoad_start (cfg : LazyLoadConfig) (img : LazyImage) (src : String)
    (s0 : Preload) (h1 : s0.retryCount = 0) (h2 : s0.loading = some src) (h3 : s0.timers = [])
    (h4 : s0.log = [LazyEffect.load src]) (h5 : s0.classList = classAdd "loading" img.classList)
    (h6 : s0.parent = img.parent.map (classAdd "loading-omd")) :
    FailingLoad cfg img src s0 where
  count_le := by rw [h1]; exact Nat.zero_le _
  delays := by rw [h1, h4]; rfl
  phase := Or.inl ⟨by rw [h1, h2]; rfl, h3, by rw [h1, h4]; rfl, by rw [h4]; rfl, h5, h6⟩

theorem failingLoad_step (cfg : LazyLoadConfig) (img : LazyImage) (src : String)
    (hsrc : img.dataSrc = some src) (s s1 : Preload) (e : LoadEvent)
    (inv : FailingLoad cfg img src s) (he : keepsFailing e = true)
    (hs : loadStep img cfg s e = some s1) : FailingLoad cfg img src s1 := by
  obtain ⟨hc, hd, hp⟩ := inv
  cases e with
  | loaded => simp [keepsFailing] at he
  | wait ms =>
    simp only [loadStep] at hs
    split at hs
    · cases hs
      exact ⟨hc, hd, hp⟩
    · cases hs
  | failed =>
    simp only [loadStep] at hs
    rcases hp with ⟨hl, ht, hlo, herr, hcl, hpa⟩ | ⟨hl, _⟩ | ⟨hl, _⟩
    · rw [hl] at hs
      simp only [Option.some.injEq] at hs
      subst hs
      by_cases hlt : s.retryCount < cfg.retryAttempts
      · have hres : onLoadError cfg { s with loading := none } =
            { s with loading := none, retryCount := s.retryCount + 1,
                     timers := s.timers ++
                       [(s.now + cfg.retryDelay * (s.retryCount + 1), LazyTimer.retry)],
                     log := s.log ++ [LazyEffect.consoleWarn (s.retryCount + 1) cfg.retryAttempts] ++
                       [LazyEffect.setTimeout (cfg.retryDelay * (s.retryCount + 1))
                         LazyTimer.retry] } := by
          simp [onLoadError, hlt, setTimeout]
        rw [hres]
        refine ⟨hlt, ?_, Or.inr (Or.inl ⟨rfl,
          ⟨s.now + cfg.retryDelay * (s.retryCount + 1), by simp [ht]⟩, Nat.succ_pos _, ?_, ?_,
          hcl, hpa⟩)⟩
        · simp only [retryDelays_append, hd, retryDelays, List.append_nil, List.range_succ,
            List.map_append, List.map_cons, List.map_nil]
        · simp only [loads_append, hlo, loads, List.append_nil]
        · simp only [loadErrors_append, herr, loadErrors]
      · have heq : s.retryCount = cfg.retryAttempts := by omega
        have hres : ∃ newSrc,
            onLoadError cfg { s with loading := none } =
            { s with loading := none, src := newSrc,
                     parent := s.parent.map
                       (fun c => classAdd "load-error-omd" (classRemove "loading-omd" c)),
                     classList := classAdd "load-error" (classRemove "loading" s.classList),
                     log := s.log ++ [LazyEffect.consoleError] ++
                       [LazyEffect.dispatchEvent "lazyloaderror" s.retryCount] } := by
          simp only [onLoadError, if_neg hlt]
          split
          · exact ⟨_, rfl⟩
          · exact ⟨_, rfl⟩
        obtain ⟨newSrc, hres⟩ := hres
        rw [hres]
        refine ⟨hc, ?_, Or.inr (Or.inr ⟨rfl, ht, heq, ?_, ?_, ?_, ?_⟩)⟩
        · simp only [retryDelays_append, hd, retryDelays, List.append_nil]
        · simp only [loads_append, hlo, loads, List.append_nil]
        · simp only [loadErrors_append, herr, loadErrors]
          decide
        · simp only [hcl]
        · simp only [hpa, Option.map_map]
          rfl
    · rw [hl] at hs; cases hs
    · rw [hl] at hs; cases hs
  | timer =>
    simp only [loadStep] at hs
    rcases hp with ⟨_, ht, _⟩ | ⟨hl, ⟨due, ht⟩, hpos, hlo, herr, hcl, hpa⟩ | ⟨_, ht, _⟩
    · rw [ht] at hs; simp [nextTimer] at hs
    · rw [ht] at hs
      simp only [nextTimer] at hs
      split at hs
      · simp only [Option.some.injEq] at hs
        subst hs
        obtain ⟨k, hk⟩ : ∃ k, s.retryCount = k + 1 := ⟨s.retryCount - 1, by omega⟩
        refine ⟨hc, ?_, Or.inl ⟨?_, rfl, ?_, ?_, hcl, hpa⟩⟩
        · simp only [runTimer, load, retryDelays_append, hd, retryDelays, List.append_nil]
        · simp only [runTimer, load, hsrc, Option.getD_some, hk, loadUrl]
        · simp only [runTimer, load, loads_append, hlo, loads, hsrc, Option.getD_some]
          rw [List.range_succ (n := s.retryCount), List.map_append]
          simp only [List.map_cons, List.map_nil, hk, loadUrl]
        · simp only [runTimer, load, loadErrors_append, herr, loadErrors]
      · cases hs
    · rw [ht] at hs; simp [nextTimer] at hs

theorem failingLoad_run (cfg : LazyLoadConfig) (img : LazyImage) (src : String)
    (hsrc : img.dataSrc = some src) : ∀ (es : List LoadEvent) (s s1 : Preload),
    FailingLoad cfg img src s → (∀ e ∈ es, keepsFailing e = true) →
    loadRun img cfg s es = some s1 → FailingLoad cfg img src s1
  | [], s, s1, inv, _, hr => by
    simp only [loadRun, Option.some.injEq] at hr
    subst hr
    exact inv
  | e :: es, s, s1, inv, he, hr => by
    simp only [loadRun] at hr
    cases hst : loadStep img cfg s e with
    | none => rw [hst] at hr; cases hr
    | some s2 =>
      rw [hst] at hr
      exact failingLoad_run cfg img src hsrc es s2 s1
        (failingLoad_step cfg img src hsrc s s2 e inv (he e (List.mem_cons_self _ _)) hst)
        (fun x hx => he x (List.mem_cons_of_mem _ hx)) hr

theorem loadRun_append (img : LazyImage) (cfg : LazyLoadConfig) :
    ∀ (es fs : List LoadEvent) (s : Preload),
    loadRun img cfg s (es ++ fs) = (loadRun img cfg s es).bind (fun s1 => loadRun img cfg s1 fs)
  | [], _, _ => rfl
  | e :: es, fs, s => by
    simp only [List.cons_append, loadRun]
    cases loadStep img cfg s e with
    | none => rfl
    | some s1 => exact loadRun_append img cfg es fs s1

theorem failedLoad_run (cfg : LazyLoadConfig) (img : LazyImage) (s : Preload) (url : String)
    (hl : s.loading = some url) (ht : s.timers = [])
    (hlt : s.retryCount < cfg.retryAttempts) :
    ∃ s1 url1, loadRun img cfg s (failedLoad cfg s.retryCount) = some s1 ∧
      s1.loading = some url1 ∧ s1.timers = [] ∧ s1.retryCount = s.retryCount + 1 ∧
      s1.now = s.now + cfg.retryDelay * (s.retryCount + 1) := by
  simp only [failedLoad, loadRun, loadStep, hl, onLoadError, hlt, if_true, setTimeout, ht,
    List.nil_append, List.all_cons, List.all_nil, Bool.and_true, Nat.le_refl, decide_True,
    nextTimer, runTimer, load]
  exact ⟨_, _, rfl, rfl, rfl, rfl, rfl⟩

theorem failedLoads_run (cfg : LazyLoadConfig) (img : LazyImage) :
    ∀ (n : Nat) (s : Preload) (url : String), s.loading = some url → s.timers = [] →
    s.retryCount + n ≤ cfg.retryAttempts →
    ∃ s1 url1, loadRun img cfg s (failedLoads cfg s.retryCount n) = some s1 ∧
      s1.loading = some url1 ∧ s1.timers = [] ∧ s1.retryCount = s.retryCount + n
  | 0, s, url, hl, ht, _ => ⟨s, url, rfl, hl, ht, rfl⟩
  | n + 1, s, url, hl, ht, hle => by
    obtain ⟨s1, url1, hr1, hl1, ht1, hc1, _⟩ := failedLoad_run cfg img s url hl ht (by omega)
    obtain ⟨s2, url2, hr2, hl2, ht2, hc2⟩ :=
      failedLoads_run cfg img n s1 url1 hl1 ht1 (by omega)
    refine ⟨s2, url2, ?_, hl2, ht2, by omega⟩
    rw [failedLoads, loadRun_append, hr1, Option.some_bind, ← hc1]
    exact hr2


theorem onLoadError_retry (cfg : LazyLoadConfig) (s : Preload)
    (hlt : s.retryCount < cfg.retryAttempts) :
    onLoadError cfg s =
      { s with retryCount := s.retryCount + 1,
               timers := s.timers ++
                 [(s.now + cfg.retryDelay * (s.retryCount + 1), LazyTimer.retry)],
               log := s.log ++ [LazyEffect.consoleWarn (s.retryCount + 1) cfg.retryAttempts,
                 LazyEffect.setTimeout (cfg.retryDelay * (s.retryCount + 1)) LazyTimer.retry] } := by
  simp [onLoadError, hlt, setTimeout]

theorem onLoadError_final (cfg : LazyLoadConfig) (s : Preload)
    (hle : cfg.retryAttempts ≤ s.retryCount) :
    (onLoadError cfg s).retryCount = s.retryCount ∧ (onLoadError cfg s).timers = s.timers ∧
    (onLoadError cfg s).loading = s.loading ∧
    (onLoadError cfg s).log = s.log ++ [LazyEffect.consoleError,
      LazyEffect.dispatchEvent "lazyloaderror" s.retryCount] ∧
    (onLoadError cfg s).classList = classAdd "load-error" (classRemove "loading" s.classList) ∧
    (onLoadError cfg s).parent =
      s.parent.map (fun c => classAdd "load-error-omd" (classRemove "loading-omd" c)) := by
  have hlt : ¬ s.retryCount < cfg.retryAttempts := by omega
  simp only [onLoadError, if_neg hlt]
  split <;> simp

/-- C21: a call of `preloadImage` on an image with an address starts one
load.  However the failures of its loads, the waits and the timer firings
are interleaved, `retryCount` never exceeds `config.retryAttempts`, the loads
started are the first load and at most `retryCount` retries, in order, and
the retry timers scheduled so far have the delays `config.retryDelay * k` for
`k = 1 .. retryCount`; the error event is dispatched at most once, and then
`retryAttempts` retries have been loaded, no load and no timer is pending,
the image carries `load-error` and no longer `loading`, and its parent
carries `load-error-omd` and no longer `loading-omd`.  A failure with
`retryCount < retryAttempts` schedules the retry `retryCount + 1` for
`config.retryDelay * (retryCount + 1)` ms after the failure; a failure with
`retryCount = retryAttempts` schedules nothing and marks the error.  The run
in which each failure is followed by its delay ends, after `retryAttempts`
retries, in that error state. -/
theorem preloadImage_retries_bounded (cfg : LazyLoadConfig) (img : LazyImage)
    (isPriority : Bool) (src : String) (hsrc : img.dataSrc = some src) (hne : src ≠ "") :
    ∃ s0, preloadImage img cfg isPriority = some s0 ∧ loads s0.log = [src] ∧
      (∀ (es : List LoadEvent) (s : Preload), (∀ e ∈ es, keepsFailing e = true) →
        loadRun img cfg s0 es = some s →
        s.retryCount ≤ cfg.retryAttempts ∧
        (∃ n, n ≤ s.retryCount ∧ loads s.log = (List.range (n + 1)).map (loadUrl src)) ∧
        retryDelays s.log = (List.range s.retryCount).map (fun k => cfg.retryDelay * (k + 1)) ∧
        loadErrors s.log ≤ 1 ∧
        (loadErrors s.log = 1 →
          s.retryCount = cfg.retryAttempts ∧ s.loading = none ∧ s.timers = [] ∧
          loads s.log = (List.range (cfg.retryAttempts + 1)).map (loadUrl src) ∧
          hasClass "load-error" s.classList = true ∧ hasClass "loading" s.classList = false ∧
          ∀ c ∈ s.parent, hasClass "load-error-omd" c = true ∧
            hasClass "loading-omd" c = false)) ∧
      (∀ s : Preload, s.retryCount < cfg.retryAttempts →
        (onLoadError cfg s).retryCount = s.retryCount + 1 ∧
        (onLoadError cfg s).timers = s.timers ++
          [(s.now + cfg.retryDelay * (s.retryCount + 1), LazyTimer.retry)] ∧
        loads (onLoadError cfg s).log = loads s.log ∧
        (onLoadError cfg s).classList = s.classList ∧
        runTimer img (onLoadError cfg s) LazyTimer.retry =
          load (onLoadError cfg s) (retryUrl src (s.retryCount + 1))) ∧
      (∀ s : Preload, s.retryCount = cfg.retryAttempts →
        (onLoadError cfg s).timers = s.timers ∧ (onLoadError cfg s).loading = s.loading ∧
        loads (onLoadError cfg s).log = loads s.log ∧
        hasClass "load-error" (onLoadError cfg s).classList = true ∧
        hasClass "loading" (onLoadError cfg s).classList = false) ∧
      (∃ s, loadRun img cfg s0 (failedLoads cfg 0 cfg.retryAttempts ++ [LoadEvent.failed]) =
          some s ∧
        loads s.log = (List.range (cfg.retryAttempts + 1)).map (loadUrl src) ∧
        retryDelays s.log =
          (List.range cfg.retryAttempts).map (fun k => cfg.retryDelay * (k + 1)) ∧
        s.loading = none ∧ s.timers = [] ∧ loadErrors s.log = 1 ∧
        hasClass "load-error" s.classList = true ∧ hasClass "loading" s.classList = false) := by
  obtain ⟨s0, h0, hrc, hl, ht, hlog, hcl, hpa⟩ := preloadImage_some cfg img isPriority src hsrc hne
  have inv0 := failingLoad_start cfg img src s0 hrc hl ht hlog hcl hpa
  have hclasses : ∀ l : List String,
      hasClass "load-error" (classAdd "load-error" (classRemove "loading" l)) = true ∧
      hasClass "loading" (classAdd "load-error" (classRemove "loading" l)) = false := fun l =>
    ⟨hasClass_classAdd_self _ _, by
      rw [hasClass_classAdd_ne _ _ _ (by decide), hasClass_classRemove_self]⟩
  have hall : ∀ (es : List LoadEvent) (s : Preload), (∀ e ∈ es, keepsFailing e = true) →
      loadRun img cfg s0 es = some s →
      s.retryCount ≤ cfg.retryAttempts ∧
      (∃ n, n ≤ s.retryCount ∧ loads s.log = (List.range (n + 1)).map (loadUrl src)) ∧
      retryDelays s.log = (List.range s.retryCount).map (fun k => cfg.retryDelay * (k + 1)) ∧
      loadErrors s.log ≤ 1 ∧
      (loadErrors s.log = 1 →
        s.retryCount = cfg.retryAttempts ∧ s.loading = none ∧ s.timers = [] ∧
        loads s.log = (List.range (cfg.retryAttempts + 1)).map (loadUrl src) ∧
        hasClass "load-error" s.classList = true ∧ hasClass "loading" s.classList = false ∧
        ∀ c ∈ s.parent, hasClass "load-error-omd" c = true ∧
          hasClass "loading-omd" c = false) := by
    intro es s hes hr
    obtain ⟨hc, hd, hp⟩ := failingLoad_run cfg img src hsrc es s0 s inv0 hes hr
    refine ⟨hc, ?_, hd, ?_, ?_⟩
    · rcases hp with ⟨_, _, hlo, _⟩ | ⟨_, _, hpos, hlo, _⟩ | ⟨_, _, _, hlo, _⟩
      · exact ⟨_, Nat.le_refl _, hlo⟩
      · refine ⟨s.retryCount - 1, by omega, ?_⟩
        rw [hlo]
        congr 2
        omega
      · exact ⟨_, Nat.le_refl _, hlo⟩
    · rcases hp with ⟨_, _, _, he, _⟩ | ⟨_, _, _, _, he, _⟩ | ⟨_, _, _, _, he, _⟩ <;> omega
    · intro h1
      rcases hp with ⟨_, _, _, he, _⟩ | ⟨_, _, _, _, he, _⟩ | ⟨hl, ht, heq, hlo, _, hcl, hpa⟩
      · omega
      · omega
      · refine ⟨heq, hl, ht, by rw [hlo, heq], ?_, ?_, ?_⟩
        · rw [hcl]; exact (hclasses _).1
        · rw [hcl]; exact (hclasses _).2
        · intro c hc
          rw [hpa] at hc
          simp only [Option.mem_def, Option.map_eq_some'] at hc
          obtain ⟨c0, _, rfl⟩ := hc
          exact ⟨hasClass_classAdd_self _ _, by
            rw [hasClass_classAdd_ne _ _ _ (by decide), hasClass_classRemove_self]⟩
  refine ⟨s0, h0, by rw [hlog]; rfl, hall, ?_, ?_, ?_⟩
  · intro s hlt
    rw [onLoadError_retry cfg s hlt]
    refine ⟨rfl, rfl, ?_, rfl, ?_⟩
    · simp [loads_append, loads]
    · simp [runTimer, hsrc]
  · intro s heq
    obtain ⟨_, h2, h3, h4, h5, _⟩ := onLoadError_final cfg s (Nat.le_of_eq heq.symm)
    refine ⟨h2, h3, ?_, ?_, ?_⟩
    · rw [h4]; simp [loads_append, loads]
    · rw [h5]; exact (hclasses _).1
    · rw [h5]; exact (hclasses _).2
  · obtain ⟨s1, url1, hr1, hl1, ht1, hc1⟩ :=
      failedLoads_run cfg img cfg.retryAttempts s0 src hl ht (by omega)
    rw [hrc] at hr1
    rw [hrc, Nat.zero_add] at hc1
    obtain ⟨_, h2, h3, h4, _, _⟩ :=
      onLoadError_final cfg { s1 with loading := none } (Nat.le_of_eq hc1.symm)
    have hrun : loadRun img cfg s0 (failedLoads cfg 0 cfg.retryAttempts ++ [LoadEvent.failed]) =
        some (onLoadError cfg { s1 with loading := none }) := by
      rw [loadRun_append, hr1]
      simp [loadRun, loadStep, hl1]
    have hev : ∀ e ∈ failedLoads cfg 0 cfg.retryAttempts ++ [LoadEvent.failed],
        keepsFailing e = true := by
      have : ∀ (n k : Nat), ∀ e ∈ failedLoads cfg k n, keepsFailing e = true := by
        intro n
        induction n with
        | zero => intro k e he; simp [failedLoads] at he
        | succ n ih =>
          intro k e he
          simp only [failedLoads, failedLoad, List.mem_append, List.mem_cons,
            List.mem_singleton, List.not_mem_nil, or_false] at he
          rcases he with (rfl | rfl | rfl) | he
          · rfl
          · rfl
          · rfl
          · exact ih _ e he
      intro e he
      rcases List.mem_append.mp he with he | he
      · exact this _ _ e he
      · simp only [List.mem_singleton] at he
        subst he
        rfl
    obtain ⟨_, _, hd, _, hfin⟩ := hall _ _ hev hrun
    have herr : loadErrors (onLoadError cfg { s1 with loading := none }).log = 1 := by
      have inv := failingLoad_run cfg img src hsrc _ s0 _ inv0 hev hrun
      rcases inv.phase with ⟨hl', _⟩ | ⟨_, ⟨due, ht'⟩, _⟩ | ⟨_, _, _, _, he, _⟩
      · rw [h3] at hl'; cases hl'
      · rw [h2, ht1] at ht'; cases ht'
      · exact he
    obtain ⟨hq, hl2, ht2, hlo2, hc2, hc3, _⟩ := hfin herr
    rw [hq] at hd
    exact ⟨_, hrun, hlo2, hd, hl2, ht2, herr, hc2, hc3⟩

/-- C21 (witness): an image of the page with the values of the source: four
loads, the retries 1000, 2000 and 3000 ms after the failures, then the error
state. -/
theorem preloadImage_retries_bounded_witness :
    photo.dataSrc = some "/img/a.jpg" ∧ "/img/a.jpg" ≠ "" ∧
    ∃ s0, preloadImage photo config false = some s0 ∧
      ∃ s, loadRun photo config s0 (failedLoads config 0 3 ++ [LoadEvent.failed]) = some s ∧
        loads s.log =
          ["/img/a.jpg", "/img/a.jpg?retry=1", "/img/a.jpg?retry=2", "/img/a.jpg?retry=3"] ∧
        retryDelays s.log = [1000, 2000, 3000] ∧
        s.loading = none ∧ s.timers = [] ∧ loadErrors s.log = 1 ∧
        hasClass "load-error" s.classList = true ∧ hasClass "loading" s.classList = false :=
  ⟨rfl, by decide,
    Exists.imp (fun _ h => ⟨h.1, h.2.2.2.2.2⟩)
      (preloadImage_retries_bounded config photo false "/img/a.jpg" rfl (by decide))⟩

theorem timeSeriesLoop_eq (random : Nat → ℚ) (count : Int) (yrange : YRange) :
    ∀ (n i : Nat) (baseval : Int) (series : List Point), (count - i).toNat = n →
      timeSeriesLoop random count yrange i baseval series =
        series ++ (List.range n).map (fun (j : Nat) =>
          ({ x := baseval + (j : Int) * 86400000,
             y := ⌊random (i + j) * ((yrange.max - yrange.min + 1 : Int) : ℚ)⌋ + yrange.min } :
            Point)) := by
  intro n
  induction n with
  | zero =>
    intro i baseval series h
    rw [timeSeriesLoop, if_neg (by omega)]
    simp
  | succ n ih =>
    intro i baseval series h
    rw [timeSeriesLoop, if_pos (by omega)]
    simp only
    rw [ih (i + 1) _ _ (by omega), List.range_succ_eq_map, List.map_cons, List.map_map,
      List.append_assoc]
    simp only [List.singleton_append, Nat.cast_zero, zero_mul, add_zero, List.cons.injEq,
      true_and]
    congr 2
    apply List.map_congr_left
    intro j _
    simp only [Function.comp_apply, Nat.cast_succ, Point.mk.injEq]
    constructor
    · ring
    · rw [Nat.succ_eq_add_one, Nat.add_assoc, Nat.add_comm 1 j]

theorem floor_range (r : ℚ) (lo hi : Int) (h0 : 0 ≤ r) (h1 : r < 1) (h : lo ≤ hi) :
    lo ≤ ⌊r * ((hi - lo + 1 : Int) : ℚ)⌋ + lo ∧ ⌊r * ((hi - lo + 1 : Int) : ℚ)⌋ + lo ≤ hi := by
  have hn : (0 : ℚ) < ((hi - lo + 1 : Int) : ℚ) := by
    have : (0 : Int) < hi - lo + 1 := by omega
    exact_mod_cast this
  have hf0 : 0 ≤ ⌊r * ((hi - lo + 1 : Int) : ℚ)⌋ :=
    Int.floor_nonneg.mpr (mul_nonneg h0 (le_of_lt hn))
  have hf1 : ⌊r * ((hi - lo + 1 : Int) : ℚ)⌋ < hi - lo + 1 := by
    rw [Int.floor_lt]
    calc r * ((hi - lo + 1 : Int) : ℚ) < 1 * ((hi - lo + 1 : Int) : ℚ) :=
          mul_lt_mul_of_pos_right h1 hn
      _ = ((hi - lo + 1 : Int) : ℚ) := one_mul _
  omega

/-- C22: for every start, every integer count and every range with
`min ≤ max`, whatever values in `[0, 1)` the random source yields,
`generateDayWiseTimeSeries` returns `max(count, 0)` points; the point of index
`i` has `x = baseval + i * 86,400,000` and an integer `y` with
`min ≤ y ≤ max`, and consecutive points are one day apart. -/
theorem generateDayWiseTimeSeries_points (random : Nat → ℚ) (baseval count : Int)
    (yrange : YRange) (hr : ∀ i, 0 ≤ random i ∧ random i < 1)
    (hy : yrange.min ≤ yrange.max) :
    ((generateDayWiseTimeSeries random baseval count yrange).length : Int) = max count 0 ∧
    (∀ (i : Nat) (p : Point),
      (generateDayWiseTimeSeries random baseval count yrange)[i]? = some p →
      p.x = baseval + (i : Int) * 86400000 ∧ yrange.min ≤ p.y ∧ p.y ≤ yrange.max) ∧
    (∀ (i : Nat) (p q : Point),
      (generateDayWiseTimeSeries random baseval count yrange)[i]? = some p →
      (generateDayWiseTimeSeries random baseval count yrange)[i + 1]? = some q →
      q.x = p.x + 86400000) := by
  have heq := timeSeriesLoop_eq random count yrange (count - (0 : Nat)).toNat 0 baseval [] rfl
  have hpoint : ∀ (i : Nat) (p : Point),
      (generateDayWiseTimeSeries random baseval count yrange)[i]? = some p →
      p.x = baseval + (i : Int) * 86400000 ∧ yrange.min ≤ p.y ∧ p.y ≤ yrange.max := by
    intro i p hp
    simp only [generateDayWiseTimeSeries, heq, List.nil_append, List.getElem?_map,
      Option.map_eq_some'] at hp
    obtain ⟨j, hj, rfl⟩ := hp
    rw [List.getElem?_range] at hj
    · cases hj
      exact ⟨rfl, floor_range _ _ _ (hr _).1 (hr _).2 hy⟩
    · by_contra hlt
      rw [List.getElem?_eq_none (by simpa using hlt)] at hj
      cases hj
  refine ⟨?_, hpoint, ?_⟩
  · simp only [generateDayWiseTimeSeries, heq, List.nil_append, List.length_map,
      List.length_range]
    omega
  · intro i p q hp hq
    have h1 := (hpoint i p hp).1
    have h2 := (hpoint (i + 1) q hq).1
    rw [h1, h2]
    push_cast
    ring

/-- C22 (witness): the call of the page, with a source that always yields
one half. -/
theorem generateDayWiseTimeSeries_points_witness :
    (∀ i, 0 ≤ half i ∧ half i < 1) ∧ ((10 : Int) ≤ 60) ∧
    ((chartData half).length : Int) = max 20 0 ∧
    (∀ (i : Nat) (p : Point), (chartData half)[i]? = some p →
      p.x = 1486771200000 + (i : Int) * 86400000 ∧ (10 : Int) ≤ p.y ∧ p.y ≤ 60) :=
  have hh : ∀ i, 0 ≤ half i ∧ half i < 1 := fun _ => by
    simp only [half]; constructor <;> norm_num
  ⟨hh, by decide,
    (generateDayWiseTimeSeries_points half 1486771200000 20 { min := 10, max := 60 } hh
      (by decide)).1,
    (generateDayWiseTimeSeries_points half 1486771200000 20 { min := 10, max := 60 } hh
      (by decide)).2.1⟩

end Plugin

/-! # Lemmas and claims on the search modal -/

namespace GlobalSearch

open Dom

theorem hideAllStates_active (s : Search) :
    activeStates (hideAllStates s) = [false, false, false, false] := by
  simp only [activeStates, hideAllStates, hasClass_classRemove_self,
    hasClass_classAdd_ne "active" "d-none" _ (by decide)]

theorem showLoading_active (s : Search) :
    activeStates (showLoading s) = [true, false, false, false] := by
  have h := hideAllStates_active s
  simp only [activeStates, List.cons.injEq, and_true] at h
  simp only [activeStates, showLoading, hasClass_classAdd_self, h.2.1, h.2.2.1, h.2.2.2]

theorem showEmptyState_active (s : Search) :
    activeStates (showEmptyState s) = [false, true, false, false] := by
  have h := hideAllStates_active s
  simp only [activeStates, List.cons.injEq, and_true] at h
  simp only [activeStates, showEmptyState, hasClass_classAdd_self, h.1, h.2.2.1, h.2.2.2]

theorem showNoResults_active (s : Search) :
    activeStates (showNoResults s) = [false, false, true, false] := by
  have h := hideAllStates_active s
  simp only [activeStates, List.cons.injEq, and_true] at h
  simp only [activeStates, showNoResults, hasClass_classAdd_self, h.1, h.2.1, h.2.2.2]

theorem renderProducts_fields (s : Search) (products : List Product) :
    activeStates (renderProducts s products) = activeStates s ∧
    (renderProducts s products).currentFilter = s.currentFilter ∧
    (renderProducts s products).productsSection =
      (if (s.currentFilter = "all" ∨ s.currentFilter = "products") ∧ products.length > 0
        then "block" else "none") := by
  unfold renderProducts
  by_cases hp : (s.currentFilter = "all" ∨ s.currentFilter = "products") <;>
    by_cases hl : products.length > 0 <;> simp [hp, hl, activeStates]

theorem renderInvestments_fields (s : Search) (investments : List Opportunity) :
    activeStates (renderInvestments s investments) = activeStates s ∧
    (renderInvestments s investments).productsSection = s.productsSection ∧
    (renderInvestments s investments).investmentsSection =
      (if (s.currentFilter = "all" ∨ s.currentFilter = "investments") ∧ investments.length > 0
        then "block" else "none") := by
  unfold renderInvestments
  by_cases hp : (s.currentFilter = "all" ∨ s.currentFilter = "investments") <;>
    by_cases hl : investments.length > 0 <;> simp [hp, hl, activeStates]

theorem displayResults_fields (s : Search) (data : SearchData)
    (h : ¬ ((data.products.getD []).length = 0 ∧ (data.investments.getD []).length = 0)) :
    activeStates (displayResults s data) = [false, false, false, true] ∧
    (displayResults s data).productsSection =
      (if (s.currentFilter = "all" ∨ s.currentFilter = "products") ∧
          (data.products.getD []).length > 0 then "block" else "none") ∧
    (displayResults s data).investmentsSection =
      (if (s.currentFilter = "all" ∨ s.currentFilter = "investments") ∧
          (data.investments.getD []).length > 0 then "block" else "none") := by
  have hh := hideAllStates_active s
  simp only [activeStates, List.cons.injEq, and_true] at hh
  have key : ∀ s3 : Search, activeStates s3 = [false, false, false, true] →
      s3.currentFilter = s.currentFilter →
      activeStates (renderInvestments (renderProducts s3 (data.products.getD []))
        (data.investments.getD [])) = [false, false, false, true] ∧
      (renderInvestments (renderProducts s3 (data.products.getD []))
        (data.investments.getD [])).productsSection =
        (if (s.currentFilter = "all" ∨ s.currentFilter = "products") ∧
          (data.products.getD []).length > 0 then "block" else "none") ∧
      (renderInvestments (renderProducts s3 (data.products.getD []))
        (data.investments.getD [])).investmentsSection =
        (if (s.currentFilter = "all" ∨ s.currentFilter = "investments") ∧
          (data.investments.getD []).length > 0 then "block" else "none") := by
    intro s3 ha hc
    obtain ⟨hp1, hp2, hp3⟩ := renderProducts_fields s3 (data.products.getD [])
    obtain ⟨hi1, hi2, hi3⟩ :=
      renderInvestments_fields (renderProducts s3 (data.products.getD []))
        (data.investments.getD [])
    exact ⟨by rw [hi1, hp1, ha], by rw [hi2, hp3, hc], by rw [hi3, hp2, hc]⟩
  simp only [displayResults, if_neg h]
  apply key
  · split <;>
      simp [activeStates, hideAllStates, hh, hasClass_classAdd_self, hasClass_classRemove_self,
        hasClass_classAdd_ne "active" "d-none" _ (by decide)]
  · split <;> rfl


theorem lookup_cons_if (k a : String) (b : FilterValue) (es : List (String × FilterValue)) :
    List.lookup k ((a, b) :: es) = if k = a then some b else List.lookup k es := by
  rw [List.lookup_cons]
  by_cases h : k = a
  · have hb : (k == a) = true := by simpa using h
    rw [hb, if_pos h]
  · have hb : (k == a) = false := by simpa using h
    rw [hb, if_neg h]

theorem lookup_map_other (key : String) (value : FilterValue) (k : String) (hk : k ≠ key) :
    ∀ obj : List (String × FilterValue),
      List.lookup k (obj.map (fun e => if e.1 == key then (key, value) else e)) =
        List.lookup k obj
  | [] => rfl
  | (a, b) :: rest => by
    have ih := lookup_map_other key value k hk rest
    rw [List.map_cons, lookup_cons_if]
    by_cases ha : a = key
    · subst ha
      have hb : (a == a) = true := by simp
      simp only [hb, if_true]
      rw [lookup_cons_if, if_neg hk, if_neg hk, ih]
    · have hb : (a == key) = false := by simpa using ha
      simp only [hb, Bool.false_eq_true, if_false]
      rw [lookup_cons_if, ih]

theorem lookup_map_self (key : String) (value : FilterValue) :
    ∀ obj : List (String × FilterValue), obj.any (fun e => e.1 == key) = true →
      List.lookup key (obj.map (fun e => if e.1 == key then (key, value) else e)) = some value
  | [], h => by simp at h
  | (a, b) :: rest, h => by
    rw [List.map_cons]
    by_cases ha : a = key
    · subst ha
      have hb : (a == a) = true := by simp
      simp only [hb, if_true]
      rw [lookup_cons_if, if_pos rfl]
    · have hb : (a == key) = false := by simpa using ha
      have hr : rest.any (fun e => e.1 == key) = true := by
        simpa [List.any_cons, ha] using h
      have ih := lookup_map_self key value rest hr
      simp only [hb, Bool.false_eq_true, if_false]
      rw [lookup_cons_if, if_neg (fun h => ha h.symm), ih]

theorem lookup_append_new (key : String) (value : FilterValue) (k : String) :
    ∀ obj : List (String × FilterValue), obj.any (fun e => e.1 == key) = false →
      List.lookup k (obj ++ [(key, value)]) = if k = key then some value else List.lookup k obj
  | [], _ => by
    rw [List.nil_append, lookup_cons_if]
  | (a, b) :: rest, h => by
    have ha : ¬ a = key := by
      intro ha
      simp [List.any_cons, ha] at h
    have hr : rest.any (fun e => e.1 == key) = false := by
      simpa [List.any_cons, ha] using h
    have ih := lookup_append_new key value k rest hr
    rw [List.cons_append, lookup_cons_if, lookup_cons_if, ih]
    by_cases hka : k = a
    · subst hka
      rw [if_pos rfl, if_neg ha, if_pos rfl]
    · rw [if_neg hka, if_neg hka]

theorem lookup_setProperty (obj : List (String × FilterValue)) (key : String)
    (value : FilterValue) (k : String) :
    List.lookup k (setProperty obj key value) =
      if k = key then some value else List.lookup k obj := by
  unfold setProperty
  cases h : obj.any (fun e => e.1 == key)
  · simp only [Bool.false_eq_true, if_false]
    exact lookup_append_new key value k obj h
  · simp only [if_true]
    by_cases hk : k = key
    · subst hk
      simp only [if_true]
      exact lookup_map_self k value obj h
    · simp only [if_neg hk]
      exact lookup_map_other key value k hk obj

theorem lookup_setIfValue (filters : List (String × FilterValue)) (key : String)
    (value : Option String) (k : String) :
    List.lookup k (setIfValue filters key value) =
      if k = key ∧ present value = true then some (FilterValue.text (value.getD ""))
      else List.lookup k filters := by
  unfold setIfValue
  by_cases hp : present value = true
  · simp only [hp, if_true, and_true]
    exact lookup_setProperty _ _ _ _
  · simp only [hp, if_false, and_false, Bool.false_eq_true]


theorem lookup_collectFilters (s : Search) (inputs : FilterInputs) (key : String) :
    List.lookup key (collectFilters s inputs).2 = expectedFilter inputs s.currentFilter key := by
  by_cases hP : (s.currentFilter = "all" ∨ s.currentFilter = "products") <;>
    by_cases hI : (s.currentFilter = "all" ∨ s.currentFilter = "investments") <;>
    by_cases hv : inputs.filterVerified = some true <;>
    simp only [collectFilters, hP, hI, hv, if_true, if_false, lookup_setIfValue,
      lookup_setProperty, List.lookup_nil]
  all_goals
    by_cases h0 : key = "category"
    · subst h0
      simp [expectedFilter, inputOf, commonFilters, productFilters, investmentFilters, nonEmpty, hP, hI, hv]
    by_cases h1 : key = "country"
    · subst h1
      simp [expectedFilter, inputOf, commonFilters, productFilters, investmentFilters, nonEmpty, hP, hI, hv]
    by_cases h2 : key = "sort"
    · subst h2
      simp [expectedFilter, inputOf, commonFilters, productFilters, investmentFilters, nonEmpty, hP, hI, hv]
    by_cases h3 : key = "price_min"
    · subst h3
      simp [expectedFilter, inputOf, commonFilters, productFilters, investmentFilters, nonEmpty, hP, hI, hv]
    by_cases h4 : key = "price_max"
    · subst h4
      simp [expectedFilter, inputOf, commonFilters, productFilters, investmentFilters, nonEmpty, hP, hI, hv]
    by_cases h5 : key = "availability"
    · subst h5
      simp [expectedFilter, inputOf, commonFilters, productFilters, investmentFilters, nonEmpty, hP, hI, hv]
    by_cases h6 : key = "verified"
    · subst h6
      simp [expectedFilter, inputOf, commonFilters, productFilters, investmentFilters, nonEmpty, hP, hI, hv]
    by_cases h7 : key = "investment_min"
    · subst h7
      simp [expectedFilter, inputOf, commonFilters, productFilters, investmentFilters, nonEmpty, hP, hI, hv]
    by_cases h8 : key = "investment_max"
    · subst h8
      simp [expectedFilter, inputOf, commonFilters, productFilters, investmentFilters, nonEmpty, hP, hI, hv]
    by_cases h9 : key = "roi"
    · subst h9
      simp [expectedFilter, inputOf, commonFilters, productFilters, investmentFilters, nonEmpty, hP, hI, hv]
    by_cases h10 : key = "risk"
    · subst h10
      simp [expectedFilter, inputOf, commonFilters, productFilters, investmentFilters, nonEmpty, hP, hI, hv]
    by_cases h11 : key = "timeline"
    · subst h11
      simp [expectedFilter, inputOf, commonFilters, productFilters, investmentFilters, nonEmpty, hP, hI, hv]
    by_cases h12 : key = "opportunity_type"
    · subst h12
      simp [expectedFilter, inputOf, commonFilters, productFilters, investmentFilters, nonEmpty, hP, hI, hv]
    by_cases h13 : key = "status"
    · subst h13
      simp [expectedFilter, inputOf, commonFilters, productFilters, investmentFilters, nonEmpty, hP, hI, hv]
    simp [expectedFilter, inputOf, commonFilters, productFilters, investmentFilters, h0, h1, h2, h3, h4, h5, h6, h7, h8, h9, h10, h11, h12, h13]


theorem keys_setProperty (obj : List (String × FilterValue)) (key : String)
    (value : FilterValue) :
    (setProperty obj key value).map Prod.fst =
      if obj.any (fun e => e.1 == key) then obj.map Prod.fst else obj.map Prod.fst ++ [key] := by
  unfold setProperty
  cases h : obj.any (fun e => e.1 == key)
  · simp
  · simp only [if_true, List.map_map]
    apply List.map_congr_left
    intro e _
    by_cases he : e.1 = key
    · simp [he]
    · simp [he]

theorem nodup_setProperty (obj : List (String × FilterValue)) (key : String)
    (value : FilterValue) (h : (obj.map Prod.fst).Nodup) :
    ((setProperty obj key value).map Prod.fst).Nodup := by
  rw [keys_setProperty]
  cases ha : obj.any (fun e => e.1 == key)
  · simp only [Bool.false_eq_true, if_false]
    have hnot : key ∉ obj.map Prod.fst := by
      intro hm
      simp only [List.mem_map] at hm
      obtain ⟨e, he, hk⟩ := hm
      have : obj.any (fun e => e.1 == key) = true :=
        List.any_eq_true.mpr ⟨e, he, by simp [hk]⟩
      rw [ha] at this
      cases this
    rw [List.nodup_append]
    refine ⟨h, List.nodup_singleton _, ?_⟩
    intro a ha1 ha2
    simp only [List.mem_singleton] at ha2
    subst ha2
    exact hnot ha1
  · simpa using h

theorem nodup_setIfValue (filters : List (String × FilterValue)) (key : String)
    (value : Option String) (h : (filters.map Prod.fst).Nodup) :
    ((setIfValue filters key value).map Prod.fst).Nodup := by
  unfold setIfValue
  split
  · exact nodup_setProperty _ _ _ h
  · exact h

theorem nodup_collectFilters (s : Search) (inputs : FilterInputs) :
    ((collectFilters s inputs).2.map Prod.fst).Nodup := by
  by_cases hP : (s.currentFilter = "all" ∨ s.currentFilter = "products") <;>
    by_cases hI : (s.currentFilter = "all" ∨ s.currentFilter = "investments") <;>
    by_cases hv : inputs.filterVerified = some true <;>
    simp only [collectFilters, hP, hI, hv, if_true, if_false] <;>
    repeat (first
      | exact List.nodup_nil
      | apply nodup_setIfValue
      | apply nodup_setProperty)

theorem mem_iff_lookup : ∀ (l : List (String × FilterValue)), (l.map Prod.fst).Nodup →
    ∀ (k : String) (v : FilterValue), (k, v) ∈ l ↔ List.lookup k l = some v
  | [], _, k, v => by simp
  | (a, b) :: rest, h, k, v => by
    rw [List.map_cons, List.nodup_cons] at h
    have ih := mem_iff_lookup rest h.2 k v
    rw [lookup_cons_if, List.mem_cons]
    by_cases hk : k = a
    · subst hk
      rw [if_pos rfl]
      constructor
      · rintro (h1 | h1)
        · cases h1; rfl
        · exact absurd (List.mem_map.mpr ⟨(k, v), h1, rfl⟩) h.1
      · intro h1
        cases h1
        exact Or.inl rfl
    · rw [if_neg hk, ← ih]
      constructor
      · rintro (h1 | h1)
        · cases h1; exact absurd rfl hk
        · exact h1
      · exact Or.inr

/-- C23: in every state of the form and on every tab `collectFilters`
stores the object it returns in `activeFilters`; the object holds each key
at most once, and it holds the key `k` with the value `v` exactly when the
claim expects it: `k` is a common filter, or a product filter on the tabs
`all` and `products`, or an investment filter on the tabs `all` and
`investments`, and `v` is the value of the input of `k`, which is not empty
(for `verified`: the box is checked and `v` is `true`). -/
theorem collectFilters_keys (s : Search) (inputs : FilterInputs) :
    (collectFilters s inputs).1.activeFilters = (collectFilters s inputs).2 ∧
    ((collectFilters s inputs).2.map Prod.fst).Nodup ∧
    (∀ (k : String) (v : FilterValue),
      (k, v) ∈ (collectFilters s inputs).2 ↔ expectedFilter inputs s.currentFilter k = some v) ∧
    (∀ k : String,
      List.lookup k (collectFilters s inputs).2 = expectedFilter inputs s.currentFilter k) := by
  refine ⟨rfl, nodup_collectFilters s inputs, ?_, lookup_collectFilters s inputs⟩
  intro k v
  rw [mem_iff_lookup _ (nodup_collectFilters s inputs), lookup_collectFilters]

/-- C25: `handleSearch` on a query shorter than `minSearchLength` is
`showEmptyState`: the empty state is the one active state and no request is
added; on any other query it shows the preloader and issues one `GET` to
`/api/search` with the query, the tab and the active filters.  So a request
is issued only for a query of at least `minSearchLength` characters; the
constructor sets `minSearchLength` to 2 and no embedded method changes it.
The length is `query.length`, the number of UTF-16 code units: the query `a`
gets the empty state, and the query `😀`, one code point in two code units,
is sent. -/
theorem handleSearch_short_query (s : Search) (query : String) :
    ((InvestmentsManager.utf16 query).length < s.minSearchLength →
      handleSearch s query = showEmptyState s ∧
      (handleSearch s query).requests = s.requests ∧
      activeStates (handleSearch s query) = [false, true, false, false]) ∧
    (s.minSearchLength ≤ (InvestmentsManager.utf16 query).length →
      (handleSearch s query).requests = s.requests ++
        [{ method := "GET", path := "/api/search",
           params := ("q", query) :: ("type", s.currentFilter) ::
             s.activeFilters.map (fun e => (e.1, valueText e.2)) }] ∧
      activeStates (handleSearch s query) = [true, false, false, false]) ∧
    ((handleSearch s query).requests ≠ s.requests →
      s.minSearchLength ≤ (InvestmentsManager.utf16 query).length) ∧
    ((InvestmentsManager.utf16 query).length < 2 →
      (handleSearch (newManager s) query).requests = s.requests ∧
      activeStates (handleSearch (newManager s) query) = [false, true, false, false]) ∧
    (newManager s).minSearchLength = 2 ∧
    (handleSearch s query).minSearchLength = s.minSearchLength ∧
    (∀ outcome, (searchDone s outcome).minSearchLength = s.minSearchLength) ∧
    (∀ type, (handleTabChange s type).minSearchLength = s.minSearchLength) ∧
    (∀ inputs, (collectFilters s inputs).1.minSearchLength = s.minSearchLength) ∧
    (InvestmentsManager.utf16 "a").length = 1 ∧
    (InvestmentsManager.utf16 "😀").length = 2 ∧
    (handleSearch blankPage "a").requests = [] ∧
    activeStates (handleSearch blankPage "a") = [false, true, false, false] ∧
    (handleSearch blankPage "😀").requests =
      [{ method := "GET", path := "/api/search", params := [("q", "😀"), ("type", "all")] }] ∧
    activeStates (handleSearch blankPage "😀") = [true, false, false, false] := by
  have hshort : ∀ t : Search, (InvestmentsManager.utf16 query).length < t.minSearchLength →
      handleSearch t query = showEmptyState t := by
    intro t h
    simp only [handleSearch, if_pos h]
  have hmin : ∀ (t : Search) (q : String),
      (handleSearch t q).minSearchLength = t.minSearchLength := by
    intro t q
    unfold handleSearch
    split <;> rfl
  have hdisp : ∀ data, (displayResults s data).minSearchLength = s.minSearchLength := by
    intro data
    unfold displayResults
    simp only
    split
    · rfl
    · unfold renderInvestments renderProducts
      split <;> split <;> split <;> (try split) <;> (try split) <;> rfl
  refine ⟨?_, ?_, ?_, ?_, rfl, hmin s query, ?_, ?_, fun _ => rfl, by decide, by decide,
    by decide, by decide, by decide, by decide⟩
  · intro h
    rw [hshort s h]
    exact ⟨rfl, rfl, showEmptyState_active s⟩
  · intro h
    have hn : ¬ (InvestmentsManager.utf16 query).length < s.minSearchLength := by omega
    simp only [handleSearch, if_neg hn]
    refine ⟨rfl, ?_⟩
    have := showLoading_active s
    simpa [activeStates] using this
  · intro h
    by_contra hlt
    exact h (by rw [hshort s (by omega)]; rfl)
  · intro h
    rw [hshort (newManager s) h]
    exact ⟨rfl, showEmptyState_active _⟩
  · intro outcome
    cases outcome with
    | ok data => exact hdisp data
    | failed => rfl
  · intro type
    unfold handleTabChange
    simp only
    split
    · rw [hmin]
    · rfl

/-- C26: after `showLoading`, `showEmptyState`, `showNoResults` and
`displayResults`, from any state and for any response, exactly one of the
four state elements carries the class `active`: the preloader, the empty
state, the no-results state, and for `displayResults` the no-results state
when both lists are empty and the results container otherwise. -/
theorem exactly_one_state_active (s : Search) (data : SearchData) :
    activeStates (showLoading s) = [true, false, false, false] ∧
    activeStates (showEmptyState s) = [false, true, false, false] ∧
    activeStates (showNoResults s) = [false, false, true, false] ∧
    activeStates (displayResults s data) =
      (if (data.products.getD []).length = 0 ∧ (data.investments.getD []).length = 0
        then [false, false, true, false] else [false, false, false, true]) ∧
    (∀ t ∈ [showLoading s, showEmptyState s, showNoResults s, displayResults s data],
      (activeStates t).count true = 1) := by
  have hd : activeStates (displayResults s data) =
      (if (data.products.getD []).length = 0 ∧ (data.investments.getD []).length = 0
        then [false, false, true, false] else [false, false, false, true]) := by
    by_cases h : (data.products.getD []).length = 0 ∧ (data.investments.getD []).length = 0
    · rw [if_pos h]
      simp only [displayResults, if_pos h]
      exact showNoResults_active s
    · rw [if_neg h]
      exact (displayResults_fields s data h).1
  refine ⟨showLoading_active s, showEmptyState_active s, showNoResults_active s, hd, ?_⟩
  intro t ht
  simp only [List.mem_cons, List.mem_singleton, List.not_mem_nil, or_false] at ht
  rcases ht with rfl | rfl | rfl | rfl
  · rw [showLoading_active]; rfl
  · rw [showEmptyState_active]; rfl
  · rw [showNoResults_active]; rfl
  · rw [hd]; split <;> rfl

/-- C27: on the tab `products` a response with no product and one investment
activates the results container and hides both sections, so the results view
is blank; the same happens when that response, asked for on the tab `all`,
arrives after the user has moved to the tab `products`.  In general, when
`displayResults` activates the results container a section is displayed
exactly when its list is not empty and the tab is `all` or its own. -/
theorem displayResults_blank_view :
    activeStates (displayResults { blankPage with currentFilter := "products" } oneInvestment) =
      [false, false, false, true] ∧
    (displayResults { blankPage with currentFilter := "products" } oneInvestment).productsSection =
      "none" ∧
    (displayResults { blankPage with currentFilter := "products" }
      oneInvestment).investmentsSection = "none" ∧
    (handleSearch { blankPage with input := "solar" } "solar").requests =
      [{ method := "GET", path := "/api/search", params := [("q", "solar"), ("type", "all")] }] ∧
    lateResponse.requests =
      [{ method := "GET", path := "/api/search", params := [("q", "solar"), ("type", "all")] },
       { method := "GET", path := "/api/search",
         params := [("q", "solar"), ("type", "products")] }] ∧
    activeStates lateResponse = [false, false, false, true] ∧
    lateResponse.productsSection = "none" ∧ lateResponse.investmentsSection = "none" ∧
    (∀ (s : Search) (data : SearchData),
      ¬ ((data.products.getD []).length = 0 ∧ (data.investments.getD []).length = 0) →
      activeStates (displayResults s data) = [false, false, false, true] ∧
      (displayResults s data).productsSection =
        (if (s.currentFilter = "all" ∨ s.currentFilter = "products") ∧
            (data.products.getD []).length > 0 then "block" else "none") ∧
      (displayResults s data).investmentsSection =
        (if (s.currentFilter = "all" ∨ s.currentFilter = "investments") ∧
            (data.investments.getD []).length > 0 then "block" else "none")) := by
  refine ⟨by decide, by decide, by decide, by decide, by decide, by decide, by decide,
    by decide, ?_⟩
  intro s data h
  exact displayResults_fields s data h

end GlobalSearch

/-! # Lemmas and claims on the product filters -/

namespace ProductsFilter

open Dom

theorem appendEntries_eq : ∀ (entries : List (String × EntryValue))
    (params : List (String × String)),
    appendEntries entries params = params ++ nonEmptyEntries entries
  | [], params => by simp [appendEntries, nonEmptyEntries]
  | (key, value) :: rest, params => by
    unfold appendEntries
    by_cases h : truthy value = true
    · rw [if_pos h, appendEntries_eq rest]
      simp [nonEmptyEntries, List.filter_cons, h]
    · rw [if_neg h, appendEntries_eq rest]
      simp [nonEmptyEntries, List.filter_cons, h]

theorem nonEmptyEntries_append (a b : List (String × EntryValue)) :
    nonEmptyEntries (a ++ b) = nonEmptyEntries a ++ nonEmptyEntries b := by
  simp [nonEmptyEntries]

theorem nonEmptyEntries_value (entries : List (String × EntryValue)) :
    ∀ e ∈ nonEmptyEntries entries, e.2 ≠ "" := by
  intro e he
  simp only [nonEmptyEntries, List.mem_map, List.mem_filter] at he
  obtain ⟨x, ⟨_, hx⟩, rfl⟩ := he
  cases hv : x.2 with
  | text t =>
    rw [hv] at hx
    simpa [truthy, entryText] using hx
  | file name => simp [entryText]

theorem replaceFirst_of_absent (name : String) (value : EntryValue) :
    ∀ pre : List (String × EntryValue), (∀ e ∈ pre, e.1 ≠ name) →
    ∀ (x : EntryValue) (post : List (String × EntryValue)),
      replaceFirst name value (pre ++ (name, x) :: post) =
        pre ++ (name, value) :: post.filter (fun e => e.1 != name)
  | [], _, x, post => by simp [replaceFirst]
  | e :: pre, h, x, post => by
    have he : e.1 ≠ name := h e (List.mem_cons_self _ _)
    have ih := replaceFirst_of_absent name value pre
      (fun y hy => h y (List.mem_cons_of_mem _ hy)) x post
    rw [List.cons_append, replaceFirst, if_neg he, ih]
    rfl

theorem formDataSet_split (entries : List (String × EntryValue)) (name : String)
    (value : EntryValue) :
    (entries.any (fun e => e.1 == name) = false ∧
      formDataSet entries name value = entries ++ [(name, value)]) ∨
    (∃ pre x post, entries = pre ++ (name, x) :: post ∧ (∀ e ∈ pre, e.1 ≠ name) ∧
      formDataSet entries name value =
        pre ++ (name, value) :: post.filter (fun e => e.1 != name)) := by
  cases h : entries.any (fun e => e.1 == name)
  · left
    exact ⟨rfl, by simp [formDataSet, h]⟩
  · right
    have hex : ∃ pre x post, entries = pre ++ (name, x) :: post ∧ (∀ e ∈ pre, e.1 ≠ name) := by
      clear value
      induction entries with
      | nil => simp at h
      | cons e rest ih =>
        by_cases he : e.1 = name
        · exact ⟨[], e.2, rest, by rw [← he]; rfl, by simp⟩
        · have hr : rest.any (fun e => e.1 == name) = true := by
            simpa [List.any_cons, he] using h
          obtain ⟨pre, x, post, h1, h2⟩ := ih hr
          refine ⟨e :: pre, x, post, by rw [h1]; rfl, ?_⟩
          intro y hy
          rcases List.mem_cons.mp hy with rfl | hy
          · exact he
          · exact h2 y hy
    obtain ⟨pre, x, post, h1, h2⟩ := hex
    refine ⟨pre, x, post, h1, h2, ?_⟩
    simp only [formDataSet, h, if_true]
    rw [h1]
    exact replaceFirst_of_absent name value pre h2 x post

theorem filter_other_nonEmptyEntries (name : String) (entries : List (String × EntryValue)) :
    (nonEmptyEntries entries).filter (fun e => e.1 != name) =
      nonEmptyEntries (entries.filter (fun e => e.1 != name)) := by
  induction entries with
  | nil => rfl
  | cons e rest ih =>
    by_cases ht : truthy e.2 = true <;> by_cases hn : e.1 = name <;>
      simp [nonEmptyEntries, List.filter_cons, ht, hn] at ih ⊢ <;> exact ih


theorem filter_same_nonEmptyEntries (name : String) (entries : List (String × EntryValue))
    (h : ∀ e ∈ entries, e.1 ≠ name) :
    (nonEmptyEntries entries).filter (fun e => e.1 == name) = [] := by
  rw [List.filter_eq_nil_iff]
  intro e he
  simp only [nonEmptyEntries, List.mem_map, List.mem_filter] at he
  obtain ⟨x, ⟨hx, _⟩, rfl⟩ := he
  simpa using h x hx

theorem filter_ne_self (name : String) (entries : List (String × EntryValue)) :
    ∀ e ∈ entries.filter (fun e => e.1 != name), e.1 ≠ name := by
  intro e he
  simpa using (List.mem_filter.mp he).2

theorem nonEmptyEntries_sort (value : String) :
    nonEmptyEntries [("sort", EntryValue.text value)] =
      if value = "" then [] else [("sort", value)] := by
  by_cases h : value = "" <;> simp [nonEmptyEntries, truthy, entryText, h]

theorem any_false_iff (name : String) (entries : List (String × EntryValue)) :
    entries.any (fun e => e.1 == name) = false ↔ ∀ e ∈ entries, e.1 ≠ name := by
  simp [List.any_eq_false]

theorem formDataSet_of_absent (entries : List (String × EntryValue)) (name : String)
    (value : EntryValue) (h : ∀ e ∈ entries, e.1 ≠ name) :
    formDataSet entries name value = entries ++ [(name, value)] := by
  simp [formDataSet, (any_false_iff name entries).mpr h]

theorem formDataSet_of_first (name : String) (value x : EntryValue)
    (pre post : List (String × EntryValue)) (h : ∀ e ∈ pre, e.1 ≠ name) :
    formDataSet (pre ++ (name, x) :: post) name value =
      pre ++ (name, value) :: post.filter (fun e => e.1 != name) := by
  have hany : (pre ++ (name, x) :: post).any (fun e => e.1 == name) = true := by
    simp
  simp only [formDataSet, hany, if_true]
  exact replaceFirst_of_absent name value pre h x post

theorem applyFilters_requests (s : FilterPage) :
    (applyFilters s).requests = s.requests ++
      [{ method := "GET", pathname := s.pathname,
         params := nonEmptyEntries
           (match s.sortSelect with
            | some value => formDataSet s.form "sort" (EntryValue.text value)
            | none => s.form) }] := by
  simp only [applyFilters, showLoading, appendEntries_eq, List.nil_append]

/-- C24: `applyFilters` issues one `GET` to the path of the page.  No entry
of its query has an empty value.  The entries with another name than `sort`
are the entries of the form with a value that is not empty, in form order.
With a sort select the entries named `sort` are the single entry `sort` with
the value of the select, or none when that value is empty; it stands where
the first `sort` entry of the form stood, and after the other entries when
the form has none.  Without a sort select the query holds exactly the
entries of the form that are not empty. -/
theorem applyFilters_query (s : FilterPage) :
    ∃ params : List (String × String),
      (applyFilters s).requests = s.requests ++
        [{ method := "GET", pathname := s.pathname, params := params }] ∧
      (∀ e ∈ params, e.2 ≠ "") ∧
      params.filter (fun e => e.1 != "sort") =
        nonEmptyEntries (s.form.filter (fun e => e.1 != "sort")) ∧
      (∀ value, s.sortSelect = some value →
        params.filter (fun e => e.1 == "sort") = if value = "" then [] else [("sort", value)]) ∧
      (s.sortSelect = none → params = nonEmptyEntries s.form) ∧
      (∀ value, s.sortSelect = some value → (∀ e ∈ s.form, e.1 ≠ "sort") →
        params = nonEmptyEntries s.form ++ (if value = "" then [] else [("sort", value)])) ∧
      (∀ value pre x post, s.sortSelect = some value → s.form = pre ++ ("sort", x) :: post →
        (∀ e ∈ pre, e.1 ≠ "sort") →
        params = nonEmptyEntries pre ++ (if value = "" then [] else [("sort", value)]) ++
          nonEmptyEntries (post.filter (fun e => e.1 != "sort"))) := by
  refine ⟨_, applyFilters_requests s, nonEmptyEntries_value _, ?_, ?_, ?_, ?_, ?_⟩
  · cases hs : s.sortSelect with
    | none => exact filter_other_nonEmptyEntries _ _
    | some value =>
      simp only
      rw [filter_other_nonEmptyEntries]
      rcases formDataSet_split s.form "sort" (EntryValue.text value) with
        ⟨_, h2⟩ | ⟨pre, x, post, h1, _, h3⟩
      · rw [h2]
        simp [List.filter_append, List.filter_cons]
      · rw [h3, h1]
        simp [List.filter_append, List.filter_cons, List.filter_filter]
  · intro value hs
    rw [hs]
    simp only
    rcases formDataSet_split s.form "sort" (EntryValue.text value) with
      ⟨h1, h2⟩ | ⟨pre, x, post, _, h2, h3⟩
    · rw [h2, nonEmptyEntries_append, List.filter_append,
        filter_same_nonEmptyEntries _ _ ((any_false_iff _ _).mp h1), nonEmptyEntries_sort]
      by_cases hv : value = "" <;> simp [hv]
    · have hsplit : pre ++ ("sort", EntryValue.text value) ::
            post.filter (fun e => e.1 != "sort") =
          pre ++ ([("sort", EntryValue.text value)] ++ post.filter (fun e => e.1 != "sort")) :=
        rfl
      rw [h3, hsplit, nonEmptyEntries_append, nonEmptyEntries_append, List.filter_append,
        List.filter_append, filter_same_nonEmptyEntries _ _ h2,
        filter_same_nonEmptyEntries _ _ (filter_ne_self _ _), nonEmptyEntries_sort]
      by_cases hv : value = "" <;> simp [hv]
  · intro hs
    rw [hs]
  · intro value hs habs
    rw [hs]
    simp only
    rw [formDataSet_of_absent _ _ _ habs, nonEmptyEntries_append, nonEmptyEntries_sort]
  · intro value pre x post hs hform hpre
    rw [hs]
    simp only
    have hsplit : pre ++ ("sort", EntryValue.text value) ::
          post.filter (fun e => e.1 != "sort") =
        pre ++ ([("sort", EntryValue.text value)] ++ post.filter (fun e => e.1 != "sort")) :=
      rfl
    rw [hform, formDataSet_of_first _ _ _ _ _ hpre, hsplit, nonEmptyEntries_append,
      nonEmptyEntries_append, nonEmptyEntries_sort, List.append_assoc]

end ProductsFilter
